import Mathlib

/-!
# Security policy enforcer (pkg/securitypolicy/securitypolicyenforcer_rego.go)

A shallow embedding of the Rego-backed security policy enforcer.  The enforcer
keeps a data store (`policy.data`) that the rule evaluator reads and that the
enforcement methods mutate.  The rule evaluator, the JSON encoder and the
constants of other packages are collaborators of the enforcer and are gathered
in `Deps`; every statement below holds for all of them.

Conventions of the embedding:

* a Go map with string keys is an association list, read with `mapGet`, written
  with `mapSet` and shrunk with `mapDelete`;
* a key of `policy.data` that may be missing (`devices`, `containers`) is an
  `Option` field of `Data`;
* a method returns the enforcer after the call together with an `Outcome`:
  `ok` for a nil error, `error msg` for a returned error, `panic msg` for a
  run-time panic of the Go code (failed type assertion, index out of range).
-/

namespace securitypolicy

/-! ## Go maps -/

/-- Lookup `m[key]` of a Go map; `none` when the key is not found. -/
def mapGet {α : Type} : List (String × α) → String → Option α
  | [], _ => none
  | (k, v) :: rest, key => if k = key then some v else mapGet rest key

/-- Assignment `m[key] = val` of a Go map. -/
def mapSet {α : Type} : List (String × α) → String → α → List (String × α)
  | [], key, val => [(key, val)]
  | (k, v) :: rest, key, val =>
    if k = key then (key, val) :: rest else (k, v) :: mapSet rest key val

/-- Builtin `delete(m, key)` of a Go map. -/
def mapDelete {α : Type} (m : List (String × α)) (key : String) : List (String × α) :=
  m.filter (fun kv => decide (kv.1 ≠ key))

/-! ## Data model -/

/-- Mount of the OCI runtime specification (`oci.Mount`). -/
structure Mount where
  Destination : String
  Type_ : String
  Source : String
  Options : List String
deriving DecidableEq, Repr

/-- Element of `defaultMounts` and `privilegedMounts` in the data store, as
built by `appendMountData`. -/
structure MountData where
  destination : String
  source : String
  options : List String
  type : String
deriving DecidableEq, Repr

/-- Record stored under a container ID in `data["containers"]`.  The keys
`containerID` and `layerPaths` are written by `EnforceOverlayMountPolicy`; the
keys `argList`, `envList` and `workingDir` are missing until
`EnforceCreateContainerPolicy` writes them. -/
structure ContainerInfo where
  containerID : String
  layerPaths : List String
  argList : Option (List String) := none
  envList : Option (List String) := none
  workingDir : Option String := none
deriving DecidableEq, Repr

/-- The data store `policy.data`.  The keys `devices` and `containers` are
not part of the initial store; they are created by the first allowed device
mount and overlay mount. -/
structure Data where
  started : List String
  defaultMounts : List MountData
  privilegedMounts : List MountData
  sandboxPrefix : String
  hugePagesPrefix : String
  devices : Option (List (String × String)) := none
  containers : Option (List (String × ContainerInfo)) := none
deriving DecidableEq, Repr

/-- The input record of a query, a Go map whose keys are among the twelve
names below; a key that is not set is `none`.  The key `name` is always set. -/
structure Input where
  name : String
  target : Option String := none
  deviceHash : Option String := none
  containerID : Option String := none
  layerPaths : Option (List String) := none
  argList : Option (List String) := none
  envList : Option (List String) := none
  workingDir : Option String := none
  sandboxDir : Option String := none
  hugePagesDir : Option String := none
  mounts : Option (List Mount) := none
  rule : Option String := none
deriving DecidableEq, Repr

/-- A value produced by the evaluator (a Go `interface{}`). -/
inductive Term where
  | null : Term
  | bool (b : Bool) : Term
  | number (n : Int) : Term
  | string (s : String) : Term
  | array (xs : List Term) : Term
  | object (kvs : List (String × Term)) : Term

/-- One element of a result set (`rego.Result`): the values of its
expressions, in order. -/
structure Result where
  Expressions : List Term

/-- Result set of a query (`rego.ResultSet`). -/
abbrev ResultSet := List Result

/-- What a call of an enforcement method yields besides the new state. -/
inductive Outcome where
  | ok : Outcome
  | error (msg : String) : Outcome
  | panic (msg : String) : Outcome
deriving DecidableEq, Repr

/-- Collaborators of the enforcer that live outside this source file. -/
structure Deps where
  /-- Evaluation of a query string against an input and the data store by the
  compiled modules (`rego.New(...).Eval`). -/
  eval : String → Input → Data → Except String ResultSet
  /-- Helper `ResultSet.Allowed` of the evaluator. -/
  allowed : ResultSet → Bool
  /-- Bytes written by `json.Marshal` for an input record. -/
  render : Input → String
  /-- Function `spec.SandboxMountsDir`. -/
  SandboxMountsDir : String → String
  /-- Function `spec.HugePagesMountsDir`. -/
  HugePagesMountsDir : String → String
  /-- Constant `guestpath.SandboxMountPrefix`. -/
  SandboxMountPrefix : String
  /-- Constant `guestpath.HugePagesMountPrefix`. -/
  HugePagesMountPrefix : String
  /-- Embedded file `policy.rego`. -/
  PolicyCode : String
  /-- Embedded file `framework.rego`. -/
  FrameworkCode : String
  /-- Compilation `ast.CompileModulesWithOpt` of the named modules; `some err`
  when it fails. -/
  compile : List (String × String) → Option String

/-- The enforcer `RegoEnforcer`.  The mutex is left out (calls are
serialized), and the compiled modules are represented by `Deps.eval`. -/
structure RegoEnforcer where
  behavior : String
  objects : String
  data : Data
  base64policy : String
deriving DecidableEq, Repr

/-! ## Policy objects and their lowering to Rego -/

/-- Environment variable rule (`EnvRuleConfig`). -/
structure EnvRuleConfig where
  Strategy : String
  Rule : String
deriving DecidableEq, Repr

/-- Mount constraint of a container (`mountInternal`). -/
structure mountInternal where
  Source : String
  Destination : String
  Type_ : String
  Options : List String
deriving DecidableEq, Repr

/-- Container of the internal policy (`securityPolicyContainer`). -/
structure securityPolicyContainer where
  Command : List String
  EnvRules : List EnvRuleConfig
  Layers : List String
  WorkingDir : String
  Mounts : List mountInternal
  AllowElevated : Bool
deriving DecidableEq, Repr

/-- Internal policy (`securityPolicyInternal`). -/
structure securityPolicyInternal where
  AllowAll : Bool
  Containers : List securityPolicyContainer
deriving DecidableEq, Repr

/-- Variable `Indent`. -/
def Indent : String := "    "

/-- Formatting of a boolean by the verb `%v`. -/
def fmtBool (b : Bool) : String := if b then "true" else "false"

/-- Method `strings.Builder.WriteString`: appends to the builder; its error
result is always nil. -/
def WriteString (builder : String) (s : String) : Except String String :=
  .ok (builder ++ s)

/-- Method `StringArray.MarshalRego`. -/
def StringArray.MarshalRego (array : List String) : String :=
  "[" ++ String.intercalate "," (array.map (fun value => "\"" ++ value ++ "\"")) ++ "]"

/-- Function `writeCommand`. -/
def writeCommand (builder : String) (command : List String) (indent : String) :
    Except String String :=
  WriteString builder (indent ++ "\"command\": " ++ StringArray.MarshalRego command ++ ",\n")

/-- Method `EnvRuleConfig.MarshalRego`. -/
def EnvRuleConfig.MarshalRego (e : EnvRuleConfig) : String :=
  "\x7b\"pattern\": \"" ++ e.Rule ++ "\", \"strategy\": \"" ++ e.Strategy ++ "\"\x7d"

/-- Method `EnvRuleArray.MarshalRego`. -/
def EnvRuleArray.MarshalRego (array : List EnvRuleConfig) : String :=
  "[" ++ String.intercalate "," (array.map (fun env => env.MarshalRego)) ++ "]"

/-- Function `writeEnvRules`. -/
def writeEnvRules (builder : String) (envRules : List EnvRuleConfig) (indent : String) :
    Except String String :=
  WriteString builder (indent ++ "\"env_rules\": " ++ EnvRuleArray.MarshalRego envRules ++ ",\n")

/-- Function `writeLayers`. -/
def writeLayers (builder : String) (layers : List String) (indent : String) :
    Except String String :=
  WriteString builder (indent ++ "\"layers\": " ++ StringArray.MarshalRego layers ++ ",\n")

/-- Method `mountInternal.MarshalRego`. -/
def mountInternal.MarshalRego (m : mountInternal) : String :=
  "\x7b\"destination\": \"" ++ m.Destination ++ "\", \"options\": "
    ++ StringArray.MarshalRego m.Options ++ ", \"source\": \"" ++ m.Source
    ++ "\", \"type\": \"" ++ m.Type_ ++ "\"\x7d"

/-- Function `writeMounts`. -/
def writeMounts (builder : String) (mounts : List mountInternal) (indent : String) :
    Except String String :=
  WriteString builder
    (indent ++ "\"mounts\": [" ++ String.intercalate "," (mounts.map (fun mount => mount.MarshalRego))
      ++ "],\n")

/-- Function `writeContainer`. -/
def writeContainer (builder : String) (container : securityPolicyContainer) (indent : String) :
    Except String String := do
  let builder ← WriteString builder (indent ++ "\x7b\n")
  let builder ← writeCommand builder container.Command (indent ++ Indent)
  let builder ← writeEnvRules builder container.EnvRules (indent ++ Indent)
  let builder ← writeLayers builder container.Layers (indent ++ Indent)
  let builder ← writeMounts builder container.Mounts (indent ++ Indent)
  let builder ← WriteString builder
    (indent ++ Indent ++ "\"allow_elevated\": " ++ fmtBool container.AllowElevated ++ ",\n")
  let builder ← WriteString builder
    (indent ++ Indent ++ "\"working_dir\": \"" ++ container.WorkingDir ++ "\"\n")
  WriteString builder (indent ++ "\x7d")

/-- The loop of `addContainers` over the containers that are still to be
written: every container is followed by a comma and a newline, except the
last one, which is followed by a newline. -/
def addContainersLoop (builder : String) : List securityPolicyContainer → Except String String
  | [] => .ok builder
  | container :: rest => do
    let builder ← writeContainer builder container Indent
    let builder ← WriteString builder (if rest.length > 0 then ",\n" else "\n")
    addContainersLoop builder rest

/-- Function `addContainers`. -/
def addContainers (builder : String) (containers : List securityPolicyContainer) :
    Except String String := do
  let builder ← WriteString builder "containers := [\n"
  let builder ← addContainersLoop builder containers
  WriteString builder "]\n"

/-- Method `securityPolicyInternal.MarshalRego`. -/
def securityPolicyInternal.MarshalRego (p : securityPolicyInternal) : Except String String := do
  let builder ← WriteString "" ("package policy\nallow_all := " ++ fmtBool p.AllowAll ++ "\n")
  addContainers builder p.Containers

/-! ## Construction -/

/-- Function `appendMountData`. -/
def appendMountData (mountData : List MountData) (mounts : List Mount) : List MountData :=
  mounts.foldl
    (fun mountData mount =>
      mountData ++ [{ destination := mount.Destination, source := mount.Source,
                      options := mount.Options, type := mount.Type_ }])
    mountData

/-- Function `newRegoPolicyFromInternal`. -/
def newRegoPolicyFromInternal (deps : Deps) (securityPolicy : securityPolicyInternal)
    (defaultMounts privilegedMounts : List Mount) : Except String RegoEnforcer :=
  match securityPolicy.MarshalRego with
  | .error err => .error ("failed to convert json to rego: " ++ err)
  | .ok code =>
    let policy : RegoEnforcer :=
      { behavior := deps.PolicyCode
        objects := code
        data :=
          { started := []
            defaultMounts := appendMountData [] defaultMounts
            privilegedMounts := appendMountData [] privilegedMounts
            sandboxPrefix := deps.SandboxMountPrefix
            hugePagesPrefix := deps.HugePagesMountPrefix }
        base64policy := "" }
    let modules : List (String × String) :=
      [("behavior.rego", policy.behavior), ("objects.rego", policy.objects),
       ("framework.rego", deps.FrameworkCode)]
    match deps.compile modules with
    | none => .ok policy
    | some err => .error ("rego compilation failed: " ++ err)

/-! ## Queries -/

/-- Method `RegoEnforcer.Query`: the rule named by `input["name"]` of package
`policy` is evaluated on the input and on a store made of `policy.data`. -/
def Query (deps : Deps) (policy : RegoEnforcer) (input : Input) : Except String ResultSet :=
  let rule := input.name
  deps.eval ("data.policy." ++ rule) input policy.data

/-- Call `json.Marshal(input)`.  An input record holds strings, sequences of
strings and mounts only, on which the encoder has no failing case. -/
def jsonMarshal (deps : Deps) (input : Input) : Except String String :=
  .ok (deps.render input)

/-! ## Enforcement methods -/

/-- Method `RegoEnforcer.EnforceDeviceMountPolicy`. -/
def EnforceDeviceMountPolicy (deps : Deps) (policy : RegoEnforcer)
    (target deviceHash : String) : RegoEnforcer × Outcome :=
  let input : Input :=
    { name := "mount_device", target := some target, deviceHash := some deviceHash }
  match Query deps policy input with
  | .error err => (policy, .error err)
  | .ok result =>
    if !deps.allowed result then
      (policy, .error "device mount not allowed by policy")
    else
      -- `deviceMap` is the stored map, or a new empty map that is stored first
      let state : RegoEnforcer × List (String × String) :=
        match policy.data.devices with
        | some devices => (policy, devices)
        | none => ({ policy with data := { policy.data with devices := some [] } }, [])
      let policy := state.1
      let deviceMap := state.2
      if (mapGet deviceMap target).isSome then
        match jsonMarshal deps input with
        | .error _ => (policy, .error "Unable to marshal the Rego input data.")
        | .ok input_json =>
          (policy, .error ("device " ++ target ++ " already mounted.\ninput: " ++ input_json))
      else
        ({ policy with
            data := { policy.data with devices := some (mapSet deviceMap target deviceHash) } },
          .ok)

/-- Method `RegoEnforcer.EnforceOverlayMountPolicy`. -/
def EnforceOverlayMountPolicy (deps : Deps) (policy : RegoEnforcer)
    (containerID : String) (layerPaths : List String) : RegoEnforcer × Outcome :=
  let input : Input :=
    { name := "mount_overlay", containerID := some containerID, layerPaths := some layerPaths }
  match Query deps policy input with
  | .error err => (policy, .error err)
  | .ok result =>
    if !deps.allowed result then
      match jsonMarshal deps input with
      | .error _ => (policy, .error "Unable to marshal the Rego input data.")
      | .ok input_json =>
        (policy, .error ("overlay mount not allowed by policy.\ninput: " ++ input_json))
    else
      -- `containerMap` is the stored map, or a new empty map that is stored first
      let state : RegoEnforcer × List (String × ContainerInfo) :=
        match policy.data.containers with
        | some containers => (policy, containers)
        | none => ({ policy with data := { policy.data with containers := some [] } }, [])
      let policy := state.1
      let containerMap := state.2
      if (mapGet containerMap containerID).isSome then
        match jsonMarshal deps input with
        | .error _ => (policy, .error "Unable to marshal the Rego input data.")
        | .ok input_json =>
          (policy,
            .error ("container " ++ containerID ++ " already mounted.\ninput: " ++ input_json))
      else
        ({ policy with
            data := { policy.data with
              containers := some (mapSet containerMap containerID
                { containerID := containerID, layerPaths := layerPaths }) } },
          .ok)

/-- The loop `for key, value := range containerInfo { input[key] = value }` of
`EnforceCreateContainerPolicy`: every key of the stored record is copied into
the input and replaces what the input held under that key. -/
def copyContainerInfo (input : Input) (containerInfo : ContainerInfo) : Input :=
  { input with
    containerID := some containerInfo.containerID
    layerPaths := some containerInfo.layerPaths
    argList := match containerInfo.argList with
      | some value => some value
      | none => input.argList
    envList := match containerInfo.envList with
      | some value => some value
      | none => input.envList
    workingDir := match containerInfo.workingDir with
      | some value => some value
      | none => input.workingDir }

/-- The input record that `EnforceCreateContainerPolicy` evaluates for
`create_container`. -/
def createContainerInput (deps : Deps) (containerInfo : ContainerInfo) (sandboxID : String)
    (argList envList : List String) (workingDir : String) (mounts : List Mount) : Input :=
  copyContainerInfo
    { name := "create_container"
      argList := some argList
      envList := some envList
      workingDir := some workingDir
      sandboxDir := some (deps.SandboxMountsDir sandboxID)
      hugePagesDir := some (deps.HugePagesMountsDir sandboxID)
      mounts := some mounts }
    containerInfo

/-- The loop of `EnforceCreateContainerPolicy` that collects the reasons: each
element of the value is asserted to be a string and appended; `none` stands
for the panic of a failed assertion. -/
def collectReasons (reasons : List String) : List Term → Option (List String)
  | [] => some reasons
  | .string reason :: rest => collectReasons (reasons ++ [reason]) rest
  | _ :: _ => none

/-- Method `RegoEnforcer.EnforceCreateContainerPolicy`. -/
def EnforceCreateContainerPolicy (deps : Deps) (policy : RegoEnforcer)
    (sandboxID containerID : String) (argList envList : List String) (workingDir : String)
    (mounts : List Mount) : RegoEnforcer × Outcome :=
  match policy.data.containers with
  | none => (policy, .error ("container " ++ containerID ++ " does not have a filesystem"))
  | some containerMap =>
    match mapGet containerMap containerID with
    | none => (policy, .error ("container " ++ containerID ++ " does not have a filesystem"))
    | some containerInfo =>
      let input := createContainerInput deps containerInfo sandboxID argList envList workingDir mounts
      match Query deps policy input with
      | .error err => (policy, .error err)
      | .ok result =>
        if deps.allowed result then
          let started := policy.data.started
          ({ policy with
              data := { policy.data with
                started := started ++ [containerID]
                containers := some (mapSet containerMap containerID
                  { containerInfo with
                    argList := some argList
                    envList := some envList
                    workingDir := some workingDir }) } },
            .ok)
        else
          match jsonMarshal deps input with
          | .error _ => (policy, .error "Unable to marshal the Rego input data.")
          | .ok input_json =>
            let input := { input with name := "reason", rule := some "create_container" }
            match Query deps policy input with
            | .error err => (policy, .error err)
            | .ok result =>
              match result with
              | [] => (policy, .panic "index out of range [0] with length 0")
              | result0 :: _ =>
                match result0.Expressions with
                | [] => (policy, .panic "index out of range [0] with length 0")
                | expression0 :: _ =>
                  match expression0 with
                  | .array values =>
                    match collectReasons [] values with
                    | none => (policy, .panic "interface conversion: not a string")
                    | some reasons =>
                      (policy,
                        .error ("container creation not allowed by policy. Reasons: ["
                          ++ String.intercalate "," reasons ++ "].\nInput: " ++ input_json))
                  | _ => (policy, .panic "interface conversion: not a []interface")

/-- Method `RegoEnforcer.EnforceDeviceUnmountPolicy`. -/
def EnforceDeviceUnmountPolicy (policy : RegoEnforcer) (unmountTarget : String) :
    RegoEnforcer × Outcome :=
  match policy.data.devices with
  | none => (policy, .panic "interface conversion: interface is nil, not map[string]string")
  | some devices =>
    ({ policy with data := { policy.data with devices := some (mapDelete devices unmountTarget) } },
      .ok)

/-- Method `RegoEnforcer.ExtendDefaultMounts`. -/
def ExtendDefaultMounts (policy : RegoEnforcer) (mounts : List Mount) : RegoEnforcer × Outcome :=
  let defaultMounts := policy.data.defaultMounts
  ({ policy with data := { policy.data with defaultMounts := appendMountData defaultMounts mounts } },
    .ok)

/-- Method `RegoEnforcer.EncodedSecurityPolicy`. -/
def EncodedSecurityPolicy (policy : RegoEnforcer) : String :=
  policy.base64policy

/-! ## Observations and runs -/

/-- The hash recorded for a target: `data["devices"][target]`, `none` when the
key `devices` or the target is missing. -/
def deviceAt (policy : RegoEnforcer) (target : String) : Option String :=
  match policy.data.devices with
  | none => none
  | some devices => mapGet devices target

/-- The record stored for a container ID: `data["containers"][containerID]`,
`none` when the key `containers` or the container ID is missing. -/
def containerAt (policy : RegoEnforcer) (containerID : String) : Option ContainerInfo :=
  match policy.data.containers with
  | none => none
  | some containers => mapGet containers containerID

/-- The input record that `EnforceDeviceMountPolicy` evaluates. -/
def mountDeviceInput (target deviceHash : String) : Input :=
  { name := "mount_device", target := some target, deviceHash := some deviceHash }

/-- The input record that `EnforceOverlayMountPolicy` evaluates. -/
def mountOverlayInput (containerID : String) (layerPaths : List String) : Input :=
  { name := "mount_overlay", containerID := some containerID, layerPaths := some layerPaths }

/-- The input record of the follow-up query for the reasons of a denial. -/
def reasonInput (input : Input) : Input :=
  { input with name := "reason", rule := some "create_container" }

/-- A part of a string: `part` occurs somewhere in `msg`. -/
def Contains (msg part : String) : Prop :=
  ∃ before after : String, msg = before ++ part ++ after

/-- The strings `parts` occur in `msg` one after the other, without overlap. -/
def ContainsInOrder : List String → String → Prop
  | [], _ => True
  | part :: rest, msg =>
    ∃ before after : String, msg = before ++ part ++ after ∧ ContainsInOrder rest after

/-- The outcome of `EnforceCreateContainerPolicy` once `create_container` is
denied, as a function of the JSON rendering of the input and of the answer to
the follow-up query for the reasons. -/
def denialOutcome (input_json : String) : Except String ResultSet → Outcome
  | .error err => Outcome.error err
  | .ok [] => Outcome.panic "index out of range [0] with length 0"
  | .ok (result0 :: _) =>
    match result0.Expressions with
    | [] => Outcome.panic "index out of range [0] with length 0"
    | Term.array values :: _ =>
      match collectReasons [] values with
      | none => Outcome.panic "interface conversion: not a string"
      | some reasons =>
        Outcome.error ("container creation not allowed by policy. Reasons: ["
          ++ String.intercalate "," reasons ++ "].\nInput: " ++ input_json)
    | _ :: _ => Outcome.panic "interface conversion: not a []interface"

/-- The enforcer after an allowed `create_container` for the container ID `c`
whose stored record is `info`. -/
def createdEnforcer (policy : RegoEnforcer) (c : String) (info : ContainerInfo)
    (argList envList : List String) (workingDir : String) : RegoEnforcer :=
  { policy with
    data := { policy.data with
      started := policy.data.started ++ [c]
      containers := some (mapSet (policy.data.containers.getD []) c
        { info with
          argList := some argList, envList := some envList, workingDir := some workingDir }) } }

/-- A call of the enforcement interface. -/
inductive Op where
  | deviceMount (target deviceHash : String) : Op
  | deviceUnmount (unmountTarget : String) : Op
  | overlayMount (containerID : String) (layerPaths : List String) : Op
  | createContainer (sandboxID containerID : String) (argList envList : List String)
      (workingDir : String) (mounts : List Mount) : Op
  | extendDefaultMounts (mounts : List Mount) : Op
deriving DecidableEq, Repr

/-- One call on the enforcer, with the collaborators as they answer during
that call. -/
def step (deps : Deps) (policy : RegoEnforcer) : Op → RegoEnforcer × Outcome
  | .deviceMount target deviceHash => EnforceDeviceMountPolicy deps policy target deviceHash
  | .deviceUnmount unmountTarget => EnforceDeviceUnmountPolicy policy unmountTarget
  | .overlayMount containerID layerPaths =>
    EnforceOverlayMountPolicy deps policy containerID layerPaths
  | .createContainer sandboxID containerID argList envList workingDir mounts =>
    EnforceCreateContainerPolicy deps policy sandboxID containerID argList envList workingDir mounts
  | .extendDefaultMounts mounts => ExtendDefaultMounts policy mounts

/-- A sequence of calls, one after the other (the mutex serializes them).
Each call comes with the collaborators of that call, so the answers of the
evaluator may change from one call to the next.  A call that panics leaves the
state as it was at the panic and the sequence goes on, as under a caller that
recovers.  The result is the final enforcer and the log of the calls with
their outcomes. -/
def run (policy : RegoEnforcer) : List (Deps × Op) → RegoEnforcer × List (Op × Outcome)
  | [] => (policy, [])
  | (deps, op) :: rest =>
    let r := step deps policy op
    let rr := run r.1 rest
    (rr.1, (op, r.2) :: rr.2)

/-- An entry of the log that is a successful overlay mount for `containerID`. -/
def overlayMounted (containerID : String) : Op × Outcome → Bool
  | (.overlayMount c _, .ok) => decide (c = containerID)
  | _ => false

/-! ## Sample collaborators -/

/-- A result set that holds one boolean. -/
def boolResult (b : Bool) : ResultSet := [{ Expressions := [Term.bool b] }]

/-- A decision helper: true for a result set of one result with one
expression whose value is `true`. -/
def sampleAllowed : ResultSet → Bool
  | [r] =>
    match r.Expressions with
    | [Term.bool b] => b
    | _ => false
  | _ => false

/-- A small evaluator: device hash `h1` may be mounted, the overlay made of
`/dev/sda` may be mounted, the command `sh` may be run; the answer to a
`reason` query is the parameter `reason`. -/
def sampleEval (reason : Except String ResultSet) (query : String) (input : Input) (_ : Data) :
    Except String ResultSet :=
  if query = "data.policy.mount_device" then
    .ok (boolResult (decide (input.deviceHash = some "h1")))
  else if query = "data.policy.mount_overlay" then
    .ok (boolResult (decide (input.layerPaths = some ["/dev/sda"])))
  else if query = "data.policy.create_container" then
    .ok (boolResult (decide (input.argList = some ["sh"])))
  else if query = "data.policy.reason" then
    reason
  else
    .error "rego_type_error: undefined ref"

/-- Sample collaborators built around `sampleEval`. -/
def sampleDeps (reason : Except String ResultSet) : Deps :=
  { eval := sampleEval reason
    allowed := sampleAllowed
    render := fun input => "[" ++ input.name ++ "]"
    SandboxMountsDir := fun sandboxID => "/run/gcs/c/" ++ sandboxID ++ "/sandboxMounts"
    HugePagesMountsDir := fun sandboxID => "/run/gcs/c/" ++ sandboxID ++ "/hugepages"
    SandboxMountPrefix := "sandbox://"
    HugePagesMountPrefix := "hugepages://"
    PolicyCode := "package policy"
    FrameworkCode := "package framework"
    compile := fun _ => none }

/-- The answer of the sample `reason` rule. -/
def sampleReason : Except String ResultSet :=
  .ok [{ Expressions := [Term.array [Term.string "invalid command"]] }]

/-- A store with no device and no container. -/
def sampleData : Data :=
  { started := []
    defaultMounts := []
    privilegedMounts := []
    sandboxPrefix := "sandbox://"
    hugePagesPrefix := "hugepages://" }

/-- An enforcer on which no call was made. -/
def sampleEnforcer : RegoEnforcer :=
  { behavior := "package policy", objects := "", data := sampleData, base64policy := "" }

/-- An enforcer with device `/dev/sda` mounted and the overlay of container
`c1` mounted. -/
def overlaidEnforcer : RegoEnforcer :=
  { sampleEnforcer with
    data := { sampleData with
      devices := some [("/dev/sda", "h1")]
      containers := some [("c1", { containerID := "c1", layerPaths := ["/dev/sda"] })] } }

/-- The internal policy with no container. -/
def emptyPolicy : securityPolicyInternal := { AllowAll := false, Containers := [] }

/-- The input of a denied call as `json.Marshal` writes it: an object, of which
this sample renders the key `name` only. -/
def sampleJSON (input : Input) : String :=
  "\x7b\"name\":\"" ++ input.name ++ "\"\x7d"

/-- The sample collaborators with the rendering `sampleJSON`. -/
def jsonDeps (reason : Except String ResultSet) : Deps :=
  { sampleDeps reason with render := sampleJSON }

/-- The enforcer that `newRegoPolicyFromInternal` builds from the empty policy
with the sample collaborators and no mounts. -/
def freshEnforcer : RegoEnforcer :=
  { sampleEnforcer with objects := "package policy\nallow_all := false\ncontainers := [\n]\n" }

/-- The record that `appendMountData` stores for a mount. -/
def toMountData (mount : Mount) : MountData :=
  { destination := mount.Destination, source := mount.Source,
    options := mount.Options, type := mount.Type_ }

/-- The container ID of an entry of the log that is a successful
`EnforceCreateContainerPolicy` call. -/
def createdID : Op × Outcome → Option String
  | (.createContainer _ containerID _ _ _ _, .ok) => some containerID
  | _ => none

/-- A record that carries `argList`, `envList` and `workingDir`: the record
of a created container. -/
def isCreated (info : ContainerInfo) : Bool :=
  info.argList.isSome && info.envList.isSome && info.workingDir.isSome

/-- An evaluator whose rule `mount_overlay` allows an overlay only when each
layer path is a key of `devices`. -/
def OverlayChecksDevices (deps : Deps) : Prop :=
  ∀ (policy : RegoEnforcer) (c : String) (L : List String) (result : ResultSet),
    Query deps policy (mountOverlayInput c L) = .ok result → deps.allowed result = true →
    ∀ path ∈ L, (deviceAt policy path).isSome = true

/-- Some stored record has `target` among its layer paths. -/
def targetInOverlay (policy : RegoEnforcer) (target : String) : Bool :=
  (policy.data.containers.getD []).any (fun kv => decide (target ∈ kv.2.layerPaths))

/-- No device unmount of the sequence removes a target that, at the moment of
the call, is among the layer paths of a stored record. -/
def unmountsSpareOverlays (policy : RegoEnforcer) : List (Deps × Op) → Bool
  | [] => true
  | (deps, op) :: rest =>
    (match op with
      | .deviceUnmount unmountTarget => !targetInOverlay policy unmountTarget
      | _ => true)
    && unmountsSpareOverlays (step deps policy op).1 rest

/-- The sample collaborators with a rule `mount_overlay` that allows an
overlay exactly when each layer path is a key of `devices`. -/
def keyedDeps : Deps :=
  { sampleDeps sampleReason with
    eval := fun query input data =>
      if query = "data.policy.mount_overlay" then
        .ok (boolResult
          ((input.layerPaths.getD []).all
            (fun path => (mapGet (data.devices.getD []) path).isSome)))
      else
        sampleEval sampleReason query input data }

/-! ## The rules of the policy -/

/-- Modelled from the spec: the helper `allowed()` of a result set, which
belongs to the evaluator and is not among the sources.  It is true iff the
first expression of the first result is the value `true`. -/
def specAllowed : ResultSet → Bool
  | result0 :: _ =>
    match result0.Expressions with
    | Term.bool b :: _ => b
    | _ => false
  | [] => false

/-- The record of `c2` after a call, from the record before the call and the
entry of the call in the log: a successful overlay mount writes the record of
its container ID, a successful creation completes the record of its container
ID, every other call keeps the records. -/
def containerAfter (policy : RegoEnforcer) (c2 : String) : Op × Outcome → Option ContainerInfo
  | (.overlayMount c L, .ok) =>
    if c = c2 then some { containerID := c, layerPaths := L } else containerAt policy c2
  | (.createContainer _ c argList envList workingDir _, .ok) =>
    if c = c2 then
      (containerAt policy c).map (fun info =>
        { info with
          argList := some argList, envList := some envList, workingDir := some workingDir })
    else containerAt policy c2
  | _ => containerAt policy c2

/-- The container IDs in `started` are those of the created containers. -/
def StartedIsCreated (policy : RegoEnforcer) : Prop :=
  ∀ c : String, c ∈ policy.data.started ↔
    ∃ info : ContainerInfo, containerAt policy c = some info ∧ isCreated info = true

/-- Every layer path of every stored record is a key of `devices`. -/
def OverlaysOnDevices (policy : RegoEnforcer) : Prop :=
  ∀ (c : String) (info : ContainerInfo), containerAt policy c = some info →
    ∀ path ∈ info.layerPaths, (deviceAt policy path).isSome = true

/-- The field `EncodedSecurityPolicy` of a policy state (type
`EncodedSecurityPolicy`, declared outside the sources; the method of the
enforcer has the same name): the base64 text of the policy. -/
structure EncodedPolicy where
  SecurityPolicy : String
deriving DecidableEq, Repr

/-- The policy as it is decoded (`SecurityPolicy`, declared outside the
sources): the allow-all flag and the containers.  The type `κ` of the
containers and its method `toInternal` are not among the sources. -/
structure SecurityPolicy (κ : Type) where
  AllowAll : Bool
  Containers : κ

/-- The state from which an enforcer is built (`SecurityPolicyState`). -/
structure SecurityPolicyState (κ : Type) where
  EncodedSecurityPolicy : EncodedPolicy
  SecurityPolicy : SecurityPolicy κ

/-- Method `SecurityPolicy.toInternal`.  The internal policy starts as the
zero value, and only its containers are assigned; `conv` is the method
`toInternal` of the containers. -/
def SecurityPolicy.toInternal {κ : Type}
    (conv : κ → Except String (List securityPolicyContainer)) (sp : SecurityPolicy κ) :
    Except String securityPolicyInternal :=
  let policy : securityPolicyInternal := { AllowAll := false, Containers := [] }
  match conv sp.Containers with
  | .error err => .error err
  | .ok containers => .ok { policy with Containers := containers }

/-- Function `createRegoEnforcer`. -/
def createRegoEnforcer {κ : Type} (deps : Deps)
    (conv : κ → Except String (List securityPolicyContainer)) (state : SecurityPolicyState κ)
    (defaultMounts privilegedMounts : List Mount) : Except String RegoEnforcer :=
  match state.SecurityPolicy.toInternal conv with
  | .error err => .error ("error converting to internal format: " ++ err)
  | .ok policy =>
    match newRegoPolicyFromInternal deps policy defaultMounts privilegedMounts with
    | .error err => .error ("error converting to Rego: " ++ err)
    | .ok regoPolicy =>
      .ok { regoPolicy with base64policy := state.EncodedSecurityPolicy.SecurityPolicy }

/-- A policy state with the allow-all flag set and no container. -/
def allowAllState : SecurityPolicyState (List securityPolicyContainer) :=
  { EncodedSecurityPolicy := { SecurityPolicy := "eyJhbGxvd19hbGwiOnRydWV9" }
    SecurityPolicy := { AllowAll := true, Containers := [] } }

/-! ## The lowered document, part by part -/

/-- The string literal that the lowering emits for a string: the string
between two double quotes, as the format `"%s"` writes it. -/
def literal (s : String) : String := "\"" ++ s ++ "\""

/-- The elements of an array of the document: separated by commas, between
square brackets. -/
def arrayText (elements : List String) : String :=
  "[" ++ String.intercalate "," elements ++ "]"

/-- The object of the document for an environment rule. -/
def envRuleText (e : EnvRuleConfig) : String :=
  "\x7b\"pattern\": " ++ literal e.Rule ++ ", \"strategy\": " ++ literal e.Strategy ++ "\x7d"

/-- The object of the document for a mount. -/
def mountText (m : mountInternal) : String :=
  "\x7b\"destination\": " ++ literal m.Destination ++ ", \"options\": "
    ++ arrayText (m.Options.map literal) ++ ", \"source\": " ++ literal m.Source
    ++ ", \"type\": " ++ literal m.Type_ ++ "\x7d"

/-- The object of the document for a container: a line with the opening
brace and a last line with the closing brace, both indented by four spaces,
around six field lines indented by eight spaces. -/
def containerText (container : securityPolicyContainer) : String :=
  "    \x7b\n"
    ++ "        \"command\": " ++ arrayText (container.Command.map literal) ++ ",\n"
    ++ "        \"env_rules\": " ++ arrayText (container.EnvRules.map envRuleText) ++ ",\n"
    ++ "        \"layers\": " ++ arrayText (container.Layers.map literal) ++ ",\n"
    ++ "        \"mounts\": " ++ arrayText (container.Mounts.map mountText) ++ ",\n"
    ++ "        \"allow_elevated\": " ++ fmtBool container.AllowElevated ++ ",\n"
    ++ "        \"working_dir\": " ++ literal container.WorkingDir ++ "\n"
    ++ "    \x7d"

/-- The objects of a list, each followed by a comma and a newline, except the
last one, which is followed by a newline; nothing for the empty list. -/
def objectLines : List String → String
  | [] => ""
  | [object] => object ++ "\n"
  | object :: next :: rest => object ++ ",\n" ++ objectLines (next :: rest)

/-- The document for an internal policy. -/
def documentText (p : securityPolicyInternal) : String :=
  "package policy\nallow_all := " ++ fmtBool p.AllowAll ++ "\ncontainers := [\n"
    ++ objectLines (p.Containers.map containerText) ++ "]\n"

/-! ## String literals of the rule language -/

/-- The double quote. -/
def quoteChar : Char := Char.ofNat 34

/-- The backslash. -/
def backslashChar : Char := Char.ofNat 92

/-- Modelled from the spec: the character that an escape of the string grammar
of the rule language denotes, from the character after the backslash.  The
grammar belongs to the evaluator and is not among the sources; it is the
grammar of JSON strings, of which the escapes of one character are modelled. -/
def unescape (c : Char) : Option Char :=
  if c = quoteChar then some quoteChar
  else if c = backslashChar then some backslashChar
  else if c = '/' then some '/'
  else if c = 'b' then some (Char.ofNat 8)
  else if c = 'f' then some (Char.ofNat 12)
  else if c = 'n' then some (Char.ofNat 10)
  else if c = 'r' then some (Char.ofNat 13)
  else if c = 't' then some (Char.ofNat 9)
  else none

/-- Modelled from the spec: the characters that the rest of a string literal
denotes, after its opening quote.  A double quote ends the literal and must be
the last character; a backslash escapes the next character; a control
character is not allowed; every other character denotes itself. -/
def decodeBody : List Char → List Char → Option (List Char)
  | [], _ => none
  | c :: rest, acc =>
    if c = quoteChar then
      if rest.isEmpty then some acc else none
    else if c = backslashChar then
      match rest with
      | [] => none
      | e :: rest2 =>
        match unescape e with
        | none => none
        | some d => decodeBody rest2 (acc ++ [d])
    else if c.toNat < 32 then none
    else decodeBody rest (acc ++ [c])

/-- Modelled from the spec: the string that a string literal of the rule
language denotes; `none` when the text is not a well-formed literal. -/
def decodeLiteral (text : String) : Option String :=
  match text.data with
  | [] => none
  | c :: rest => if c = quoteChar then (decodeBody rest []).map String.mk else none

/-- A string that the lowering renders faithfully: no double quote, no
backslash, no control character. -/
def plainString (s : String) : Prop :=
  ∀ c ∈ s.data, c ≠ quoteChar ∧ c ≠ backslashChar ∧ 32 ≤ c.toNat

/-! ## The rules of the policy on created containers -/

/-- Modelled from the spec: the rule `create_container` of the embedded file
`policy.rego`, which is not among the sources, as far as the state machine of
a container ID fixes it: `Created` is terminal, so the rule denies a container
ID that is in `started` (the tests create the same container twice and expect
an error).  What else the rule requires is the parameter `compliant`. -/
def createContainerRule (compliant : Input → Data → Bool) (input : Input) (data : Data) : Bool :=
  match input.containerID with
  | some containerID => decide (containerID ∉ data.started) && compliant input data
  | none => false

/-- Modelled from the spec: the rule `reason` of the embedded file
`policy.rego`, which is not among the sources: it yields an ordered sequence
of strings, the parameter `reasons`. -/
def reasonRule (reasons : Input → Data → List String) (input : Input) (data : Data) :
    ResultSet :=
  [{ Expressions := [Term.array ((reasons input data).map Term.string)] }]

/-- Modelled from the spec: the evaluator for the rules `create_container`
and `reason`; every other query is answered by `other`. -/
def lifecycleEval (compliant : Input → Data → Bool) (reasons : Input → Data → List String)
    (other : String → Input → Data → Except String ResultSet)
    (query : String) (input : Input) (data : Data) : Except String ResultSet :=
  if query = "data.policy.create_container" then
    .ok (boolResult (createContainerRule compliant input data))
  else if query = "data.policy.reason" then
    .ok (reasonRule reasons input data)
  else
    other query input data

/-- Modelled from the spec: the collaborators of an enforcer whose rules
`create_container` and `reason` are the ones above; what the spec does not fix
is taken from `base`. -/
def lifecycleDeps (compliant : Input → Data → Bool) (reasons : Input → Data → List String)
    (base : Deps) : Deps :=
  { base with eval := lifecycleEval compliant reasons base.eval, allowed := specAllowed }

/-- An enforcer with the overlay of `c1` mounted and `c1` created with the
command `sh`. -/
def createdSample : RegoEnforcer :=
  { sampleEnforcer with
    data := { sampleData with
      started := ["c1"]
      devices := some [("/dev/sda", "h1")]
      containers := some [("c1",
        { containerID := "c1", layerPaths := ["/dev/sda"], argList := some ["sh"],
          envList := some ["A=1"], workingDir := some "/" })] } }

/-- Collaborators whose evaluator answers every query with an error that
spells the `argList` of the input it was handed. -/
def echoDeps : Deps :=
  { sampleDeps sampleReason with
    eval := fun _ input _ => .error (String.intercalate " " (input.argList.getD [])) }

/-! ## Array literals of the rule language -/

/-- The opening brace. -/
def openBrace : Char := Char.ofNat 123

/-- The closing brace. -/
def closeBrace : Char := Char.ofNat 125

/-- Modelled from the spec: the state of a reader of the rule language inside
a text: how many brackets and braces are open, whether a string literal is
open, and whether the last character of the open literal was an escaping
backslash.  The grammar belongs to the evaluator and is not among the
sources. -/
structure Lexer where
  depth : Nat
  inString : Bool
  escaped : Bool
deriving DecidableEq, Repr

/-- Modelled from the spec: the state of the reader after one more character;
`none` when no text of the rule language goes on with this character.  Inside
a string literal a backslash escapes the next character, a double quote that
is not escaped ends the literal and a control character is not allowed;
outside, a double quote opens a literal, an opening bracket or brace opens a
level and a closing one closes it. -/
def Lexer.step (st : Lexer) (c : Char) : Option Lexer :=
  if st.inString then
    if st.escaped then some { st with escaped := false }
    else if c = backslashChar then some { st with escaped := true }
    else if c = quoteChar then some { st with inString := false }
    else if c.toNat < 32 then none
    else some st
  else if c = quoteChar then some { st with inString := true }
  else if c = '[' ∨ c = openBrace then some { st with depth := st.depth + 1 }
  else if c = ']' ∨ c = closeBrace then
    if st.depth = 0 then none else some { st with depth := st.depth - 1 }
  else some st

/-- Modelled from the spec: the parts of a text between its commas that stand
outside every string literal, bracket and brace; `current` is the part read so
far.  The result is `none` when a literal, a bracket or a brace is left open or
closed without having been opened. -/
def splitTop : Lexer → List Char → List Char → Option (List (List Char))
  | st, current, [] =>
    if st.depth = 0 ∧ st.inString = false then some [current] else none
  | st, current, c :: rest =>
    if st.depth = 0 ∧ st.inString = false ∧ c = ',' then
      (splitTop { depth := 0, inString := false, escaped := false } [] rest).map
        (fun parts => current :: parts)
    else
      match st.step c with
      | none => none
      | some next => splitTop next (current ++ [c]) rest

/-- Modelled from the spec: the white space between the elements of a text of
the rule language. -/
def isSpace (c : Char) : Bool :=
  c = ' ' || c = '\n' || c = '\t' || c = '\r'

/-- Modelled from the spec: a text without the white space at its start and at
its end, as the reader takes an element. -/
def trimSpace (text : List Char) : List Char :=
  (((text.dropWhile isSpace).reverse).dropWhile isSpace).reverse

/-- Modelled from the spec: the elements of an array literal of the rule
language, in their order: the text between the square brackets, split at its
top-level commas, every part without the white space around it; no element
when there is only white space between the brackets; `none` when the text is
not an array literal. -/
def arrayElements (text : String) : Option (List String) :=
  match text.data with
  | [] => none
  | c :: body =>
    if c = '[' ∧ body.getLast? = some ']' then
      if body.dropLast.all isSpace then some []
      else
        (splitTop { depth := 0, inString := false, escaped := false } [] body.dropLast).map
          (fun parts => parts.map (fun part => String.mk (trimSpace part)))
    else none

/-- A text that the reader passes without a change of state and without
finding a top-level comma. -/
def Transparent (text : List Char) : Prop :=
  ∀ (depth : Nat) (current rest : List Char),
    splitTop { depth := depth, inString := false, escaped := false } current (text ++ rest)
      = splitTop { depth := depth, inString := false, escaped := false } (current ++ text) rest

/-- A text that the reader passes without a change of state inside a bracket
or a brace. -/
def Nested (text : List Char) : Prop :=
  ∀ (depth : Nat) (current rest : List Char),
    splitTop { depth := depth + 1, inString := false, escaped := false } current (text ++ rest)
      = splitTop { depth := depth + 1, inString := false, escaped := false } (current ++ text) rest

/-- The object that `writeContainer` writes for a container after the
indentation of its first line. -/
def containerObject (container : securityPolicyContainer) : String :=
  "\x7b\n"
    ++ "        \"command\": " ++ arrayText (container.Command.map literal) ++ ",\n"
    ++ "        \"env_rules\": " ++ arrayText (container.EnvRules.map envRuleText) ++ ",\n"
    ++ "        \"layers\": " ++ arrayText (container.Layers.map literal) ++ ",\n"
    ++ "        \"mounts\": " ++ arrayText (container.Mounts.map mountText) ++ ",\n"
    ++ "        \"allow_elevated\": " ++ fmtBool container.AllowElevated ++ ",\n"
    ++ "        \"working_dir\": " ++ literal container.WorkingDir ++ "\n"
    ++ "    \x7d"

/-- The strings of a mount are plain. -/
def plainMount (m : mountInternal) : Prop :=
  plainString m.Source ∧ plainString m.Destination ∧ plainString m.Type_
    ∧ ∀ option ∈ m.Options, plainString option

/-- The strings of a container rule are plain: its command arguments, the
patterns and strategies of its environment rules, its layer hashes, its working
directory and the fields and options of its mounts. -/
def plainContainer (container : securityPolicyContainer) : Prop :=
  (∀ arg ∈ container.Command, plainString arg)
    ∧ (∀ e ∈ container.EnvRules, plainString e.Rule ∧ plainString e.Strategy)
    ∧ (∀ layer ∈ container.Layers, plainString layer)
    ∧ plainString container.WorkingDir
    ∧ ∀ m ∈ container.Mounts, plainMount m

/-- A container rule with plain strings. -/
def plainSample : securityPolicyContainer :=
  { Command := ["sh", "-c", "echo a,b"]
    EnvRules := [{ Strategy := "string", Rule := "A=1" }, { Strategy := "re2", Rule := "B=.*" }]
    Layers := ["h1", "h2"]
    WorkingDir := "/"
    Mounts := [{ Source := "sandbox://a", Destination := "/a", Type_ := "bind",
                 Options := ["rbind", "ro"] }]
    AllowElevated := false }

/-- A text that starts and ends with a character that is no white space. -/
def Trimmed (text : List Char) : Prop :=
  text.head?.map isSpace = some false ∧ text.getLast?.map isSpace = some false

/-- The array of the containers in the document: `addContainers` writes it
after the text `containers := ` and writes a newline after it. -/
def containersArray (containers : List securityPolicyContainer) : String :=
  "[\n" ++ objectLines (containers.map containerText) ++ "]"

/-- A container rule whose command is the one argument `a","b`. -/
def quotedSample : securityPolicyContainer :=
  { Command := ["a\",\"b"]
    EnvRules := []
    Layers := ["h1"]
    WorkingDir := "/"
    Mounts := []
    AllowElevated := false }

end securitypolicy

namespace hcsschema

/-! ## NUMA topologies of a utility VM

`internal/hcs/schema2/numa_validation.go`.  The declarations of `NumaSetting`,
of `MemoryBackingType` and of the constants of the package are not among the
sources: the fields of `NumaSetting` are the ones the validation reads, the
constants are parameters. -/

/-- The constants the validation compares with. -/
structure Constants where
  WildcardPhysicalNodeNumber : Nat
  NumaChildNodeCountMax : Nat
  NumaTopologyNodeCountMax : Nat
  MemoryBackingType_PHYSICAL : String
  MemoryBackingType_VIRTUAL : String
  MemoryBackingType_HYBRID : String

/-- One node of a topology.  `VirtualNodeNumber`, `VirtualSocketNumber` and
`CountOfProcessors` are `uint32` in the source, `CountOfMemoryBlocks` is
`uint64`. -/
structure NumaSetting where
  VirtualNodeNumber : Nat
  PhysicalNodeNumber : Nat
  VirtualSocketNumber : Nat
  CountOfProcessors : Nat
  CountOfMemoryBlocks : Nat
  MemoryBackingType : String

/-- The type `Numa` of `numa.go`. -/
structure Numa where
  VirtualNodeCount : Nat := 0
  PreferredPhysicalNodes : List Int := []
  Settings : List NumaSetting := []
  MaxSizePerNode : Nat := 0

/-- The statement `set[key] = struct{}{}` on a `map[uint32]struct{}`, whose
`len` is the length of the list. -/
def setAdd (set : List Nat) (key : Nat) : List Nat :=
  if key ∈ set then set else set ++ [key]

/-- The local variables of `Numa.Validate` that the loop updates. -/
structure ValidateState where
  virtualNodeSet : List Nat := []
  virtualSocketSet : List Nat := []
  totalVPCount : Nat := 0
  totalMemInMb : Nat := 0
  highestVNodeNumber : Nat := 0
  highestVSocketNumber : Nat := 0

/-- The body of the loop of `Numa.Validate` for one node: the error it returns,
or the updated variables.  The sums are `uint32` and `uint64`. -/
def validateNode (k : Constants) (hasWildcardPhysicalNode : Bool) (st : ValidateState)
    (topology : NumaSetting) : Except String ValidateState :=
  if topology.VirtualNodeNumber > k.NumaChildNodeCountMax then
    .error ("vNUMA virtual node number " ++ toString topology.VirtualNodeNumber
      ++ " exceeds maximum allowed value " ++ toString k.NumaChildNodeCountMax)
  else if topology.PhysicalNodeNumber ≠ k.WildcardPhysicalNodeNumber
      ∧ topology.PhysicalNodeNumber ≥ k.NumaTopologyNodeCountMax then
    .error ("vNUMA physical node number " ++ toString topology.PhysicalNodeNumber
      ++ " exceeds maximum allowed value " ++ toString k.NumaTopologyNodeCountMax)
  else if hasWildcardPhysicalNode
      ≠ decide (topology.PhysicalNodeNumber = k.WildcardPhysicalNodeNumber) then
    .error ("vNUMA has a mix of wildcard (" ++ toString k.WildcardPhysicalNodeNumber
      ++ ") and non-wildcard (" ++ toString topology.PhysicalNodeNumber
      ++ ") physical node numbers")
  else if topology.CountOfMemoryBlocks = 0 then
    .error "vNUMA nodes with no memory are not allowed"
  else
    let totalVPCount := (st.totalVPCount + topology.CountOfProcessors) % 2 ^ 32
    let totalMemInMb := (st.totalMemInMb + topology.CountOfMemoryBlocks) % 2 ^ 64
    if topology.VirtualNodeNumber ∈ st.virtualNodeSet then
      .error ("vNUMA virtual node number " ++ toString topology.VirtualNodeNumber
        ++ " is duplicated")
    else
      let virtualNodeSet := setAdd st.virtualNodeSet topology.VirtualNodeNumber
      if topology.MemoryBackingType ≠ k.MemoryBackingType_PHYSICAL
          ∧ topology.MemoryBackingType ≠ k.MemoryBackingType_VIRTUAL then
        .error ("vNUMA memory backing type " ++ topology.MemoryBackingType ++ " is invalid")
      else
        .ok
          { virtualNodeSet := virtualNodeSet
            virtualSocketSet := setAdd st.virtualSocketSet topology.VirtualSocketNumber
            totalVPCount := totalVPCount
            totalMemInMb := totalMemInMb
            highestVNodeNumber :=
              if st.highestVNodeNumber < topology.VirtualNodeNumber then
                topology.VirtualNodeNumber
              else st.highestVNodeNumber
            highestVSocketNumber :=
              if st.highestVSocketNumber < topology.VirtualSocketNumber then
                topology.VirtualSocketNumber
              else st.highestVSocketNumber }

/-- The loop of `Numa.Validate` over the settings, left at the first error. -/
def validateLoop (k : Constants) (hasWildcardPhysicalNode : Bool) :
    ValidateState → List NumaSetting → Except String ValidateState
  | st, [] => .ok st
  | st, topology :: rest =>
    match validateNode k hasWildcardPhysicalNode st topology with
    | .error err => .error err
    | .ok st' => validateLoop k hasWildcardPhysicalNode st' rest

/-- The method `Numa.Validate` on a value of `Numa`; `.ok ()` is the result
`nil`.  The sums `highestVNodeNumber+1` and `highestVSocketNumber+1` are
`uint32`. -/
def Numa.Validate (k : Constants) (n : Numa) : Except String Unit :=
  match n.Settings with
  | [] => .ok ()
  | first :: _ =>
    let hasWildcardPhysicalNode :=
      decide (first.PhysicalNodeNumber = k.WildcardPhysicalNodeNumber)
    match validateLoop k hasWildcardPhysicalNode {} n.Settings with
    | .error err => .error err
    | .ok st =>
      if decide (st.totalMemInMb = 0) ≠ decide (st.totalVPCount = 0) then
        .error "partial resource allocation is not allowed"
      else if st.totalMemInMb = 0 ∧ hasWildcardPhysicalNode = true then
        .error "completely empty topology is not allowed"
      else if st.virtualNodeSet.length ≠ (st.highestVNodeNumber + 1) % 2 ^ 32 then
        .error "holes in vNUMA node numbers are not allowed"
      else if st.virtualSocketSet.length ≠ (st.highestVSocketNumber + 1) % 2 ^ 32 then
        .error "holes in vNUMA socket numbers are not allowed"
      else .ok ()

/-- The local variables of `ValidateNumaForVM` that the loop updates. -/
structure VMState where
  hasVirtuallyBackedNode : Bool := false
  hasPhysicallyBackedNode : Bool := false
  totalMemoryInMb : Nat := 0
  totalProcessorCount : Nat := 0

/-- The body of the loop of `ValidateNumaForVM` for one node. -/
def validateNodeForVM (k : Constants) (vmMemoryBackingType : String) (st : VMState)
    (topology : NumaSetting) : Except String VMState :=
  if topology.MemoryBackingType ≠ vmMemoryBackingType
      ∧ topology.MemoryBackingType ≠ k.MemoryBackingType_HYBRID then
    .error ("vNUMA memory backing type " ++ topology.MemoryBackingType
      ++ " does not match UVM memory backing type " ++ vmMemoryBackingType)
  else
    .ok
      { hasPhysicallyBackedNode :=
          if topology.MemoryBackingType = k.MemoryBackingType_PHYSICAL then true
          else st.hasPhysicallyBackedNode
        hasVirtuallyBackedNode :=
          if topology.MemoryBackingType = k.MemoryBackingType_VIRTUAL then true
          else st.hasVirtuallyBackedNode
        totalProcessorCount := (st.totalProcessorCount + topology.CountOfProcessors) % 2 ^ 32
        totalMemoryInMb := (st.totalMemoryInMb + topology.CountOfMemoryBlocks) % 2 ^ 64 }

/-- The loop of `ValidateNumaForVM` over the settings, left at the first
error. -/
def validateLoopForVM (k : Constants) (vmMemoryBackingType : String) :
    VMState → List NumaSetting → Except String VMState
  | st, [] => .ok st
  | st, topology :: rest =>
    match validateNodeForVM k vmMemoryBackingType st topology with
    | .error err => .error err
    | .ok st' => validateLoopForVM k vmMemoryBackingType st' rest

/-- The conversion `int32(x)` of a `uint32`. -/
def toInt32 (x : Nat) : Int :=
  if x % 2 ^ 32 < 2 ^ 31 then (x % 2 ^ 32 : Nat) else ((x % 2 ^ 32 : Nat) : Int) - 2 ^ 32

/-- The function `ValidateNumaForVM` on a value of `Numa`; `.ok ()` is the
result `nil`.  `procCount` is an `int32`, `memInMb` a `uint64`. -/
def ValidateNumaForVM (k : Constants) (numa : Numa) (vmMemoryBackingType : String)
    (procCount : Int) (memInMb : Nat) : Except String Unit :=
  match validateLoopForVM k vmMemoryBackingType {} numa.Settings with
  | .error err => .error err
  | .ok st =>
    if vmMemoryBackingType = k.MemoryBackingType_HYBRID
        ∧ (st.hasVirtuallyBackedNode = false ∨ st.hasPhysicallyBackedNode = false) then
      .error "vNUMA must have both physically and virtually backed nodes for UVM with hybrid memory"
    else if st.totalProcessorCount ≠ 0 ∧ toInt32 st.totalProcessorCount ≠ procCount then
      .error ("vNUMA total processor count " ++ toString st.totalProcessorCount
        ++ " does not match UVM processor count " ++ toString procCount)
    else if st.totalMemoryInMb ≠ 0 ∧ st.totalMemoryInMb ≠ memInMb then
      .error ("vNUMA total memory " ++ toString st.totalMemoryInMb
        ++ " does not match UVM memory " ++ toString memInMb)
    else .ok ()

/-- Sample constants: the wildcard is the largest `uint8`, at most 64 virtual
and 64 physical nodes. -/
def sampleConstants : Constants :=
  { WildcardPhysicalNodeNumber := 255
    NumaChildNodeCountMax := 64
    NumaTopologyNodeCountMax := 64
    MemoryBackingType_PHYSICAL := "Physical"
    MemoryBackingType_VIRTUAL := "Virtual"
    MemoryBackingType_HYBRID := "Hybrid" }

/-- A topology of two physically backed nodes on the physical nodes 0 and 1,
with `processors` processors and 1024 memory blocks each. -/
def twoNodes (processors : Nat) : Numa :=
  { Settings :=
      [ { VirtualNodeNumber := 0, PhysicalNodeNumber := 0, VirtualSocketNumber := 0,
          CountOfProcessors := processors, CountOfMemoryBlocks := 1024,
          MemoryBackingType := "Physical" },
        { VirtualNodeNumber := 1, PhysicalNodeNumber := 1, VirtualSocketNumber := 1,
          CountOfProcessors := processors, CountOfMemoryBlocks := 1024,
          MemoryBackingType := "Physical" } ] }

/-- The value of `highestVNodeNumber` and of `highestVSocketNumber` after the
loop of `Numa.Validate` over nodes of the numbers `values`. -/
def highest (values : List Nat) : Nat :=
  values.foldl max 0

/-- The fields of the settings that are `uint32` in the source hold a
`uint32`. -/
def Numa.WellTyped (n : Numa) : Prop :=
  ∀ s ∈ n.Settings, s.VirtualNodeNumber < 2 ^ 32 ∧ s.VirtualSocketNumber < 2 ^ 32

end hcsschema

namespace securitypolicy

/-! ## Lemmas on maps and strings -/

theorem mapGet_mapSet {α : Type} (m : List (String × α)) (key key2 : String) (val : α) :
    mapGet (mapSet m key val) key2 = if key = key2 then some val else mapGet m key2 := by
  induction m with
  | nil => simp [mapSet, mapGet]
  | cons kv rest ih =>
    obtain ⟨k, v⟩ := kv
    by_cases hk : k = key
    · subst hk
      by_cases h2 : k = key2 <;> simp [mapSet, mapGet, h2]
    · by_cases h2 : k = key2
      · subst h2
        simp [mapSet, mapGet, hk, Ne.symm hk]
      · simp [mapSet, mapGet, hk, h2, ih]

/-! ## The three gated methods, case by case -/

/-- Every path of `EnforceDeviceMountPolicy`. -/
theorem deviceMount_cases (deps : Deps) (policy : RegoEnforcer) (t h : String) :
    EnforceDeviceMountPolicy deps policy t h =
      match Query deps policy (mountDeviceInput t h) with
      | .error err => (policy, Outcome.error err)
      | .ok result =>
        if deps.allowed result = false then
          (policy, Outcome.error "device mount not allowed by policy")
        else
          match deviceAt policy t with
          | some _ =>
            (policy, Outcome.error ("device " ++ t ++ " already mounted.\ninput: "
              ++ deps.render (mountDeviceInput t h)))
          | none =>
            ({ policy with
                data := { policy.data with
                  devices := some (mapSet (policy.data.devices.getD []) t h) } }, Outcome.ok) := by
  simp only [EnforceDeviceMountPolicy, mountDeviceInput, deviceAt]
  cases hq : Query deps policy
      { name := "mount_device", target := some t, deviceHash := some h } with
  | error err => rfl
  | ok result =>
    cases ha : deps.allowed result with
    | false => simp [ha]
    | true =>
      cases hdev : policy.data.devices with
      | none => simp [ha, hdev, mapGet]
      | some devices =>
        cases hget : mapGet devices t with
        | none => simp [ha, hdev, hget]
        | some h0 => simp [ha, hdev, hget, jsonMarshal]

/-- Every path of `EnforceOverlayMountPolicy`. -/
theorem overlayMount_cases (deps : Deps) (policy : RegoEnforcer) (c : String) (L : List String) :
    EnforceOverlayMountPolicy deps policy c L =
      match Query deps policy (mountOverlayInput c L) with
      | .error err => (policy, Outcome.error err)
      | .ok result =>
        if deps.allowed result = false then
          (policy, Outcome.error ("overlay mount not allowed by policy.\ninput: "
            ++ deps.render (mountOverlayInput c L)))
        else
          match containerAt policy c with
          | some _ =>
            (policy, Outcome.error ("container " ++ c ++ " already mounted.\ninput: "
              ++ deps.render (mountOverlayInput c L)))
          | none =>
            ({ policy with
                data := { policy.data with
                  containers := some (mapSet (policy.data.containers.getD []) c
                    { containerID := c, layerPaths := L }) } }, Outcome.ok) := by
  simp only [EnforceOverlayMountPolicy, mountOverlayInput, containerAt]
  cases hq : Query deps policy
      { name := "mount_overlay", containerID := some c, layerPaths := some L } with
  | error err => rfl
  | ok result =>
    cases ha : deps.allowed result with
    | false => simp [ha, jsonMarshal]
    | true =>
      cases hdev : policy.data.containers with
      | none => simp [ha, hdev, mapGet]
      | some containers =>
        cases hget : mapGet containers c with
        | none => simp [ha, hdev, hget]
        | some h0 => simp [ha, hdev, hget, jsonMarshal]

/-- A call of `EnforceDeviceMountPolicy` that does not succeed leaves the
enforcer as it was. -/
theorem deviceMount_not_ok (deps : Deps) (policy : RegoEnforcer) (t h : String)
    (hne : (EnforceDeviceMountPolicy deps policy t h).2 ≠ Outcome.ok) :
    (EnforceDeviceMountPolicy deps policy t h).1 = policy := by
  rw [deviceMount_cases] at hne ⊢
  cases hq : Query deps policy (mountDeviceInput t h) with
  | error err => simp [hq]
  | ok result =>
    cases ha : deps.allowed result with
    | false => simp [hq, ha]
    | true =>
      cases hget : deviceAt policy t with
      | some h0 => simp [hq, ha, hget]
      | none => simp [hq, ha, hget] at hne

/-- A call of `EnforceOverlayMountPolicy` that does not succeed leaves the
enforcer as it was. -/
theorem overlayMount_not_ok (deps : Deps) (policy : RegoEnforcer) (c : String) (L : List String)
    (hne : (EnforceOverlayMountPolicy deps policy c L).2 ≠ Outcome.ok) :
    (EnforceOverlayMountPolicy deps policy c L).1 = policy := by
  rw [overlayMount_cases] at hne ⊢
  cases hq : Query deps policy (mountOverlayInput c L) with
  | error err => simp [hq]
  | ok result =>
    cases ha : deps.allowed result with
    | false => simp [hq, ha]
    | true =>
      cases hget : containerAt policy c with
      | some h0 => simp [hq, ha, hget]
      | none => simp [hq, ha, hget] at hne

/-- Every path of `EnforceCreateContainerPolicy`. -/
theorem createContainer_cases (deps : Deps) (policy : RegoEnforcer) (sandboxID c : String)
    (argList envList : List String) (workingDir : String) (mounts : List Mount) :
    EnforceCreateContainerPolicy deps policy sandboxID c argList envList workingDir mounts =
      match containerAt policy c with
      | none => (policy, Outcome.error ("container " ++ c ++ " does not have a filesystem"))
      | some info =>
        match Query deps policy
            (createContainerInput deps info sandboxID argList envList workingDir mounts) with
        | .error err => (policy, Outcome.error err)
        | .ok result =>
          if deps.allowed result = true then
            (createdEnforcer policy c info argList envList workingDir, Outcome.ok)
          else
            (policy,
              denialOutcome
                (deps.render
                  (createContainerInput deps info sandboxID argList envList workingDir mounts))
                (Query deps policy
                  (reasonInput
                    (createContainerInput deps info sandboxID argList envList workingDir mounts)))) := by
  simp only [EnforceCreateContainerPolicy, containerAt, reasonInput, jsonMarshal]
  cases hc : policy.data.containers with
  | none => rfl
  | some containerMap =>
    simp only []
    cases hget : mapGet containerMap c with
    | none => rfl
    | some info =>
      simp only []
      cases hq : Query deps policy
          (createContainerInput deps info sandboxID argList envList workingDir mounts) with
      | error err => rfl
      | ok result =>
        simp only []
        cases ha : deps.allowed result with
        | true => simp [createdEnforcer, hc]
        | false =>
          simp only [Bool.false_eq_true, if_false]
          cases hr : Query deps policy
              { createContainerInput deps info sandboxID argList envList workingDir mounts with
                name := "reason", rule := some "create_container" } with
          | error err => rfl
          | ok result2 =>
            cases result2 with
            | nil => rfl
            | cons result0 rest =>
              simp only [denialOutcome]
              cases he : result0.Expressions with
              | nil => rfl
              | cons expression0 exprs =>
                cases expression0 with
                | array values =>
                  simp only []
                  cases collectReasons [] values <;> rfl
                | _ => rfl

/-- The follow-up query never yields `ok`. -/
theorem denialOutcome_ne_ok (input_json : String) (answer : Except String ResultSet) :
    denialOutcome input_json answer ≠ Outcome.ok := by
  unfold denialOutcome
  repeat' split
  all_goals simp

/-- A call of `EnforceCreateContainerPolicy` that does not succeed leaves the
enforcer as it was. -/
theorem createContainer_not_ok (deps : Deps) (policy : RegoEnforcer) (sandboxID c : String)
    (argList envList : List String) (workingDir : String) (mounts : List Mount)
    (hne : (EnforceCreateContainerPolicy deps policy sandboxID c argList envList workingDir
      mounts).2 ≠ Outcome.ok) :
    (EnforceCreateContainerPolicy deps policy sandboxID c argList envList workingDir mounts).1
      = policy := by
  rw [createContainer_cases] at hne ⊢
  cases hget : containerAt policy c with
  | none => simp
  | some info =>
    cases hq : Query deps policy
        (createContainerInput deps info sandboxID argList envList workingDir mounts) with
    | error err => simp [hq]
    | ok result =>
      cases ha : deps.allowed result with
      | false => simp [hq, ha]
      | true => simp [hget, hq, ha] at hne

/-! ## Device mount -/

/-- C1: when the evaluator allows `mount_device` on the input built from the
target `t` and the root hash `h`, and `t` is not a key of `devices`, then
`EnforceDeviceMountPolicy` returns no error, records `h` under `t`, keeps every
other entry of `devices`, and keeps `containers`, `started`, `defaultMounts`
and `privilegedMounts`. -/
theorem C1_device_mount_allowed (deps : Deps) (policy : RegoEnforcer) (t h : String)
    (result : ResultSet)
    (hquery : Query deps policy (mountDeviceInput t h) = .ok result)
    (hallowed : deps.allowed result = true)
    (hfresh : deviceAt policy t = none) :
    (EnforceDeviceMountPolicy deps policy t h).2 = Outcome.ok
    ∧ deviceAt (EnforceDeviceMountPolicy deps policy t h).1 t = some h
    ∧ (∀ t2 : String, t2 ≠ t →
        deviceAt (EnforceDeviceMountPolicy deps policy t h).1 t2 = deviceAt policy t2)
    ∧ (EnforceDeviceMountPolicy deps policy t h).1.data.containers = policy.data.containers
    ∧ (EnforceDeviceMountPolicy deps policy t h).1.data.started = policy.data.started
    ∧ (EnforceDeviceMountPolicy deps policy t h).1.data.defaultMounts = policy.data.defaultMounts
    ∧ (EnforceDeviceMountPolicy deps policy t h).1.data.privilegedMounts
        = policy.data.privilegedMounts := by
  rw [deviceMount_cases]
  simp only [hquery, hallowed, hfresh]
  refine ⟨rfl, ?_, ?_, rfl, rfl, rfl, rfl⟩
  · simp [deviceAt, mapGet_mapSet]
  · intro t2 h2
    cases hdev : policy.data.devices <;>
      simp [deviceAt, mapGet_mapSet, hdev, Ne.symm h2, mapGet]

/-- C1 at work: on an enforcer without devices, mounting `/dev/sda` with the
allowed hash `h1` succeeds and `devices` becomes the one entry
`/dev/sda` to `h1`. -/
theorem C1_device_mount_allowed_witness :
    (EnforceDeviceMountPolicy (sampleDeps sampleReason) sampleEnforcer "/dev/sda" "h1").2
      = Outcome.ok
    ∧ deviceAt (EnforceDeviceMountPolicy (sampleDeps sampleReason) sampleEnforcer
        "/dev/sda" "h1").1 "/dev/sda" = some "h1" :=
  have key := C1_device_mount_allowed (sampleDeps sampleReason) sampleEnforcer "/dev/sda" "h1"
    (boolResult true) rfl rfl rfl
  ⟨key.1, key.2.1⟩

/-- C2: when the target `t` is already a key of `devices`, then
`EnforceDeviceMountPolicy` returns an error for every root hash `h`, whatever
the evaluator answers, and the hash recorded for `t` stays; when the evaluator
allows the mount the error is the one for a device that is already mounted. -/
theorem C2_device_mount_duplicate_target (deps : Deps) (policy : RegoEnforcer) (t h h0 : String)
    (hmounted : deviceAt policy t = some h0) :
    (∃ msg : String, (EnforceDeviceMountPolicy deps policy t h).2 = Outcome.error msg)
    ∧ deviceAt (EnforceDeviceMountPolicy deps policy t h).1 t = some h0
    ∧ (∀ result : ResultSet,
        Query deps policy (mountDeviceInput t h) = .ok result → deps.allowed result = true →
        (EnforceDeviceMountPolicy deps policy t h).2
          = Outcome.error ("device " ++ t ++ " already mounted.\ninput: "
              ++ deps.render (mountDeviceInput t h))) := by
  rw [deviceMount_cases]
  cases hq : Query deps policy (mountDeviceInput t h) with
  | error err => exact ⟨⟨err, rfl⟩, hmounted, fun _ hr => by simp at hr⟩
  | ok result =>
    cases ha : deps.allowed result with
    | false =>
      refine ⟨⟨_, by simp [ha]; rfl⟩, by simpa [ha] using hmounted, ?_⟩
      intro result2 hr ha2
      simp only [Except.ok.injEq] at hr
      subst hr
      simp [ha] at ha2
    | true =>
      simp only [ha, hmounted]
      exact ⟨⟨_, rfl⟩, hmounted, fun _ _ _ => rfl⟩

/-- C2 at work: with `/dev/sda` mounted, a second mount of `/dev/sda` with
the same allowed hash is an error. -/
theorem C2_device_mount_duplicate_target_witness :
    (EnforceDeviceMountPolicy (sampleDeps sampleReason) overlaidEnforcer "/dev/sda" "h1").2
      = Outcome.error "device /dev/sda already mounted.\ninput: [mount_device]"
    ∧ deviceAt (EnforceDeviceMountPolicy (sampleDeps sampleReason) overlaidEnforcer
        "/dev/sda" "h1").1 "/dev/sda" = some "h1" :=
  have key := C2_device_mount_duplicate_target (sampleDeps sampleReason) overlaidEnforcer
    "/dev/sda" "h1" "h1" rfl
  ⟨key.2.2 (boolResult true) rfl rfl, key.2.1⟩

/-- C3: a call of `EnforceDeviceMountPolicy`, `EnforceOverlayMountPolicy` or
`EnforceCreateContainerPolicy` that returns an error, for whatever cause,
leaves the data store equal to the data store before the call. -/
theorem C3_failed_call_keeps_data_store (deps : Deps) (policy : RegoEnforcer) :
    (∀ (t h msg : String),
        (EnforceDeviceMountPolicy deps policy t h).2 = Outcome.error msg →
        (EnforceDeviceMountPolicy deps policy t h).1.data = policy.data)
    ∧ (∀ (c : String) (L : List String) (msg : String),
        (EnforceOverlayMountPolicy deps policy c L).2 = Outcome.error msg →
        (EnforceOverlayMountPolicy deps policy c L).1.data = policy.data)
    ∧ (∀ (sandboxID c : String) (argList envList : List String) (workingDir : String)
        (mounts : List Mount) (msg : String),
        (EnforceCreateContainerPolicy deps policy sandboxID c argList envList workingDir
          mounts).2 = Outcome.error msg →
        (EnforceCreateContainerPolicy deps policy sandboxID c argList envList workingDir
          mounts).1.data = policy.data) := by
  refine ⟨?_, ?_, ?_⟩
  · intro t h msg hmsg
    rw [deviceMount_not_ok deps policy t h (by rw [hmsg]; simp)]
  · intro c L msg hmsg
    rw [overlayMount_not_ok deps policy c L (by rw [hmsg]; simp)]
  · intro sandboxID c argList envList workingDir mounts msg hmsg
    rw [createContainer_not_ok deps policy sandboxID c argList envList workingDir mounts
      (by rw [hmsg]; simp)]

/-- C3 at work: the mount of a hash that the evaluator denies fails and the
data store is the one before the call. -/
theorem C3_failed_call_keeps_data_store_witness :
    (EnforceDeviceMountPolicy (sampleDeps sampleReason) overlaidEnforcer "/dev/sdb" "h9").2
      = Outcome.error "device mount not allowed by policy"
    ∧ (EnforceDeviceMountPolicy (sampleDeps sampleReason) overlaidEnforcer
        "/dev/sdb" "h9").1.data = overlaidEnforcer.data :=
  ⟨rfl, (C3_failed_call_keeps_data_store (sampleDeps sampleReason) overlaidEnforcer).1
    "/dev/sdb" "h9" "device mount not allowed by policy" rfl⟩

/-! ## Overlay mount -/

/-- C4: when the evaluator allows `mount_overlay` on the input built from the
container ID `c` and the layer paths `L`, and `c` is not a key of `containers`,
then `EnforceOverlayMountPolicy` returns no error, stores under `c` the record
whose only fields are `containerID = c` and `layerPaths = L`, keeps every other
record, and keeps `devices` and `started`. -/
theorem C4_overlay_mount_allowed (deps : Deps) (policy : RegoEnforcer) (c : String)
    (L : List String) (result : ResultSet)
    (hquery : Query deps policy (mountOverlayInput c L) = .ok result)
    (hallowed : deps.allowed result = true)
    (hfresh : containerAt policy c = none) :
    (EnforceOverlayMountPolicy deps policy c L).2 = Outcome.ok
    ∧ containerAt (EnforceOverlayMountPolicy deps policy c L).1 c
        = some { containerID := c, layerPaths := L, argList := none, envList := none,
                 workingDir := none }
    ∧ (∀ c2 : String, c2 ≠ c →
        containerAt (EnforceOverlayMountPolicy deps policy c L).1 c2 = containerAt policy c2)
    ∧ (EnforceOverlayMountPolicy deps policy c L).1.data.devices = policy.data.devices
    ∧ (EnforceOverlayMountPolicy deps policy c L).1.data.started = policy.data.started := by
  rw [overlayMount_cases]
  simp only [hquery, hallowed, hfresh]
  refine ⟨rfl, ?_, ?_, rfl, rfl⟩
  · simp [containerAt, mapGet_mapSet]
  · intro c2 h2
    cases hdev : policy.data.containers <;>
      simp [containerAt, mapGet_mapSet, hdev, Ne.symm h2, mapGet]

/-- C4 at work: on an enforcer without containers, the allowed overlay of
`c1` succeeds and the record of `c1` holds its ID and its layer paths. -/
theorem C4_overlay_mount_allowed_witness :
    (EnforceOverlayMountPolicy (sampleDeps sampleReason) sampleEnforcer "c1" ["/dev/sda"]).2
      = Outcome.ok
    ∧ containerAt (EnforceOverlayMountPolicy (sampleDeps sampleReason) sampleEnforcer
        "c1" ["/dev/sda"]).1 "c1"
        = some { containerID := "c1", layerPaths := ["/dev/sda"], argList := none,
                 envList := none, workingDir := none } :=
  have key := C4_overlay_mount_allowed (sampleDeps sampleReason) sampleEnforcer "c1" ["/dev/sda"]
    (boolResult true) rfl rfl rfl
  ⟨key.1, key.2.1⟩

/-- C5: when the container ID `c` is already a key of `containers`, then
`EnforceOverlayMountPolicy` returns an error for every sequence of layer paths,
whatever the evaluator answers, and the record stored under `c` stays; when the
evaluator allows the overlay the error is the one for a container that is
already mounted. -/
theorem C5_overlay_mount_duplicate_container (deps : Deps) (policy : RegoEnforcer) (c : String)
    (L : List String) (info : ContainerInfo)
    (hmounted : containerAt policy c = some info) :
    (∃ msg : String, (EnforceOverlayMountPolicy deps policy c L).2 = Outcome.error msg)
    ∧ containerAt (EnforceOverlayMountPolicy deps policy c L).1 c = some info
    ∧ (∀ result : ResultSet,
        Query deps policy (mountOverlayInput c L) = .ok result → deps.allowed result = true →
        (EnforceOverlayMountPolicy deps policy c L).2
          = Outcome.error ("container " ++ c ++ " already mounted.\ninput: "
              ++ deps.render (mountOverlayInput c L))) := by
  rw [overlayMount_cases]
  cases hq : Query deps policy (mountOverlayInput c L) with
  | error err => exact ⟨⟨err, rfl⟩, hmounted, fun _ hr => by simp at hr⟩
  | ok result =>
    cases ha : deps.allowed result with
    | false =>
      refine ⟨⟨_, by simp [ha]; rfl⟩, by simpa [ha] using hmounted, ?_⟩
      intro result2 hr ha2
      simp only [Except.ok.injEq] at hr
      subst hr
      simp [ha] at ha2
    | true =>
      simp only [ha, hmounted]
      exact ⟨⟨_, rfl⟩, hmounted, fun _ _ _ => rfl⟩

/-- C5 at work: with the overlay of `c1` mounted, mounting the same overlay
again under `c1` is an error. -/
theorem C5_overlay_mount_duplicate_container_witness :
    (EnforceOverlayMountPolicy (sampleDeps sampleReason) overlaidEnforcer "c1" ["/dev/sda"]).2
      = Outcome.error "container c1 already mounted.\ninput: [mount_overlay]"
    ∧ containerAt (EnforceOverlayMountPolicy (sampleDeps sampleReason) overlaidEnforcer "c1"
        ["/dev/sda"]).1 "c1" = some { containerID := "c1", layerPaths := ["/dev/sda"] } :=
  have key := C5_overlay_mount_duplicate_container (sampleDeps sampleReason) overlaidEnforcer
    "c1" ["/dev/sda"] { containerID := "c1", layerPaths := ["/dev/sda"] } rfl
  ⟨key.2.2 (boolResult true) rfl rfl, key.2.1⟩

/-! ## Occurrences in a message -/

/-- Occurrences survive a longer beginning of the message. -/
theorem ContainsInOrder.prepend (front : String) :
    ∀ (parts : List String) (msg : String),
      ContainsInOrder parts msg → ContainsInOrder parts (front ++ msg)
  | [], _, _ => trivial
  | _ :: _, _, ⟨before, after, hmsg, hrest⟩ =>
    ⟨front ++ before, after, by rw [hmsg]; simp only [String.append_assoc], hrest⟩

/-- The accumulator of `String.intercalate` stays in front of what is added. -/
theorem intercalate_go_eq (sep : String) :
    ∀ (l : List String) (acc : String),
      String.intercalate.go acc sep l = acc ++ l.foldr (fun a r => sep ++ a ++ r) ""
  | [], acc => by simp [String.intercalate.go]
  | a :: l, acc => by
    simp only [String.intercalate.go, List.foldr_cons]
    rw [intercalate_go_eq sep l]
    simp only [String.append_assoc]

/-- The elements of a separated sequence occur in order, followed by what
occurs in the rest of the message. -/
theorem containsInOrder_foldr (sep : String) (tail : List String) (post : String)
    (hpost : ContainsInOrder tail post) :
    ∀ l : List String,
      ContainsInOrder (l ++ tail) (l.foldr (fun a r => sep ++ a ++ r) "" ++ post)
  | [] => by simpa using hpost
  | a :: l =>
    ⟨sep, l.foldr (fun a r => sep ++ a ++ r) "" ++ post,
      by simp only [List.foldr_cons, String.append_assoc],
      containsInOrder_foldr sep tail post hpost l⟩

/-- The elements of `String.intercalate` occur in order in a message built
around it. -/
theorem containsInOrder_intercalate (sep front : String) (tail : List String) (post : String)
    (hpost : ContainsInOrder tail post) (l : List String) :
    ContainsInOrder (l ++ tail) (front ++ String.intercalate sep l ++ post) := by
  cases l with
  | nil =>
    have h := ContainsInOrder.prepend front tail post hpost
    simpa [String.intercalate] using h
  | cons a l =>
    refine ⟨front, l.foldr (fun a r => sep ++ a ++ r) "" ++ post, ?_, ?_⟩
    · simp only [String.intercalate, intercalate_go_eq, String.append_assoc]
    · exact containsInOrder_foldr sep tail post hpost l

/-- The reasons collected from a sequence of strings are these strings. -/
theorem collectReasons_strings :
    ∀ (reasons acc : List String),
      collectReasons acc (reasons.map Term.string) = some (acc ++ reasons)
  | [], acc => by simp [collectReasons]
  | r :: reasons, acc => by
    simp only [List.map_cons, collectReasons]
    rw [collectReasons_strings reasons (acc ++ [r])]
    simp

/-! ## Create container -/

/-- C7: when the container ID `c` has no record in `containers`, then
`EnforceCreateContainerPolicy` returns the error that `c` does not have a
filesystem, for every choice of the other arguments and of the collaborators
(no rule is evaluated), and the data store stays. -/
theorem C7_create_without_overlay (deps : Deps) (policy : RegoEnforcer) (sandboxID c : String)
    (argList envList : List String) (workingDir : String) (mounts : List Mount)
    (hunknown : containerAt policy c = none) :
    (EnforceCreateContainerPolicy deps policy sandboxID c argList envList workingDir mounts).2
      = Outcome.error ("container " ++ c ++ " does not have a filesystem")
    ∧ (EnforceCreateContainerPolicy deps policy sandboxID c argList envList workingDir
        mounts).1.data = policy.data
    ∧ (∀ deps2 : Deps,
        EnforceCreateContainerPolicy deps2 policy sandboxID c argList envList workingDir mounts
          = EnforceCreateContainerPolicy deps policy sandboxID c argList envList workingDir
              mounts) := by
  refine ⟨?_, ?_, ?_⟩
  · rw [createContainer_cases]; simp only [hunknown]
  · rw [createContainer_cases]; simp only [hunknown]
  · intro deps2
    rw [createContainer_cases, createContainer_cases]; simp only [hunknown]

/-- C7 at work: on an enforcer without containers the creation of `c1` fails
for want of a filesystem. -/
theorem C7_create_without_overlay_witness :
    (EnforceCreateContainerPolicy (sampleDeps sampleReason) sampleEnforcer "sb" "c1" ["sh"] []
        "/" []).2 = Outcome.error "container c1 does not have a filesystem" :=
  (C7_create_without_overlay (sampleDeps sampleReason) sampleEnforcer "sb" "c1" ["sh"] [] "/" []
    rfl).1

/-- C8: when the container ID `c` has the record `info` and the evaluator
allows `create_container` on the input that the method builds, then
`EnforceCreateContainerPolicy` returns no error, `started` is the sequence
before the call with `c` appended, the record of `c` holds the `argList`,
`envList` and `workingDir` of the call and its former `containerID` and
`layerPaths`, every other record stays, and `devices`, `defaultMounts` and
`privilegedMounts` stay. -/
theorem C8_create_allowed (deps : Deps) (policy : RegoEnforcer) (sandboxID c : String)
    (argList envList : List String) (workingDir : String) (mounts : List Mount)
    (info : ContainerInfo) (result : ResultSet)
    (hrecord : containerAt policy c = some info)
    (hquery : Query deps policy
      (createContainerInput deps info sandboxID argList envList workingDir mounts) = .ok result)
    (hallowed : deps.allowed result = true) :
    (EnforceCreateContainerPolicy deps policy sandboxID c argList envList workingDir mounts).2
      = Outcome.ok
    ∧ (EnforceCreateContainerPolicy deps policy sandboxID c argList envList workingDir
        mounts).1.data.started = policy.data.started ++ [c]
    ∧ containerAt (EnforceCreateContainerPolicy deps policy sandboxID c argList envList
        workingDir mounts).1 c
        = some { containerID := info.containerID, layerPaths := info.layerPaths,
                 argList := some argList, envList := some envList,
                 workingDir := some workingDir }
    ∧ (∀ c2 : String, c2 ≠ c →
        containerAt (EnforceCreateContainerPolicy deps policy sandboxID c argList envList
          workingDir mounts).1 c2 = containerAt policy c2)
    ∧ (EnforceCreateContainerPolicy deps policy sandboxID c argList envList workingDir
        mounts).1.data.devices = policy.data.devices
    ∧ (EnforceCreateContainerPolicy deps policy sandboxID c argList envList workingDir
        mounts).1.data.defaultMounts = policy.data.defaultMounts
    ∧ (EnforceCreateContainerPolicy deps policy sandboxID c argList envList workingDir
        mounts).1.data.privilegedMounts = policy.data.privilegedMounts := by
  have hcall : EnforceCreateContainerPolicy deps policy sandboxID c argList envList workingDir
      mounts = (createdEnforcer policy c info argList envList workingDir, Outcome.ok) := by
    rw [createContainer_cases]
    simp only [hrecord, hquery, hallowed, if_true]
  rw [hcall]
  refine ⟨rfl, rfl, ?_, ?_, rfl, rfl, rfl⟩
  · simp [containerAt, createdEnforcer, mapGet_mapSet]
  · intro c2 h2
    cases hdev : policy.data.containers <;>
      simp [containerAt, createdEnforcer, mapGet_mapSet, hdev, Ne.symm h2, mapGet]

/-- C8 at work: with the overlay of `c1` mounted, the allowed creation of
`c1` succeeds, `started` becomes `c1` alone and the record of `c1` is
completed. -/
theorem C8_create_allowed_witness :
    (EnforceCreateContainerPolicy (sampleDeps sampleReason) overlaidEnforcer "sb" "c1" ["sh"]
        ["A=1"] "/" []).2 = Outcome.ok
    ∧ (EnforceCreateContainerPolicy (sampleDeps sampleReason) overlaidEnforcer "sb" "c1" ["sh"]
        ["A=1"] "/" []).1.data.started = ["c1"]
    ∧ containerAt (EnforceCreateContainerPolicy (sampleDeps sampleReason) overlaidEnforcer "sb"
        "c1" ["sh"] ["A=1"] "/" []).1 "c1"
        = some { containerID := "c1", layerPaths := ["/dev/sda"], argList := some ["sh"],
                 envList := some ["A=1"], workingDir := some "/" } :=
  have key := C8_create_allowed (sampleDeps sampleReason) overlaidEnforcer "sb" "c1" ["sh"]
    ["A=1"] "/" [] { containerID := "c1", layerPaths := ["/dev/sda"] } (boolResult true)
    rfl rfl rfl
  ⟨key.1, key.2.1, key.2.2.1⟩

/-- C9: when the container ID `c` has the record `info`, the evaluator denies
`create_container` on the input that the method builds, and the follow-up query
on that input with `name` set to `reason` and `rule` set to `create_container`
yields the strings `reasons`, then `EnforceCreateContainerPolicy` returns an
error whose message lists the reasons in order, separated by commas, followed
by the JSON rendering of the input as it was evaluated for `create_container`
(its `name` is `create_container`); `started` and the whole enforcer stay. -/
theorem C9_create_denied_reasons (deps : Deps) (policy : RegoEnforcer) (sandboxID c : String)
    (argList envList : List String) (workingDir : String) (mounts : List Mount)
    (info : ContainerInfo) (result : ResultSet) (reasons : List String)
    (exprs : List Term) (results : List Result)
    (hrecord : containerAt policy c = some info)
    (hquery : Query deps policy
      (createContainerInput deps info sandboxID argList envList workingDir mounts) = .ok result)
    (hdenied : deps.allowed result = false)
    (hreason : Query deps policy
      (reasonInput (createContainerInput deps info sandboxID argList envList workingDir mounts))
        = .ok ({ Expressions := Term.array (reasons.map Term.string) :: exprs } :: results)) :
    (EnforceCreateContainerPolicy deps policy sandboxID c argList envList workingDir mounts).2
      = Outcome.error ("container creation not allowed by policy. Reasons: ["
          ++ String.intercalate "," reasons ++ "].\nInput: "
          ++ deps.render
              (createContainerInput deps info sandboxID argList envList workingDir mounts))
    ∧ ContainsInOrder
        (reasons ++
          [deps.render (createContainerInput deps info sandboxID argList envList workingDir mounts)])
        ("container creation not allowed by policy. Reasons: ["
          ++ String.intercalate "," reasons ++ "].\nInput: "
          ++ deps.render
              (createContainerInput deps info sandboxID argList envList workingDir mounts))
    ∧ (createContainerInput deps info sandboxID argList envList workingDir mounts).name
        = "create_container"
    ∧ (reasonInput
        (createContainerInput deps info sandboxID argList envList workingDir mounts)).name
        = "reason"
    ∧ (reasonInput
        (createContainerInput deps info sandboxID argList envList workingDir mounts)).rule
        = some "create_container"
    ∧ (EnforceCreateContainerPolicy deps policy sandboxID c argList envList workingDir
        mounts).1.data.started = policy.data.started
    ∧ (EnforceCreateContainerPolicy deps policy sandboxID c argList envList workingDir mounts).1
        = policy := by
  have hcall : EnforceCreateContainerPolicy deps policy sandboxID c argList envList workingDir
      mounts = (policy, Outcome.error ("container creation not allowed by policy. Reasons: ["
        ++ String.intercalate "," reasons ++ "].\nInput: "
        ++ deps.render
            (createContainerInput deps info sandboxID argList envList workingDir mounts))) := by
    rw [createContainer_cases]
    simp only [hrecord, hquery, hdenied, hreason, denialOutcome, collectReasons_strings,
      List.nil_append, Bool.false_eq_true, if_false]
  rw [hcall]
  refine ⟨rfl, ?_, rfl, rfl, rfl, rfl, rfl⟩
  have h := containsInOrder_intercalate ","
    "container creation not allowed by policy. Reasons: ["
    [deps.render (createContainerInput deps info sandboxID argList envList workingDir mounts)]
    ("].\nInput: "
      ++ deps.render (createContainerInput deps info sandboxID argList envList workingDir mounts))
    ⟨"].\nInput: ", "", by simp, trivial⟩ reasons
  simpa only [String.append_assoc] using h

/-- C9 at work: with the overlay of `c1` mounted, the creation of `c1` with
a command that is denied returns the denial with the reason of the sample
evaluator and the rendering of the input. -/
theorem C9_create_denied_reasons_witness :
    (EnforceCreateContainerPolicy (sampleDeps sampleReason) overlaidEnforcer "sb" "c1" ["bash"]
        [] "/" []).2
      = Outcome.error ("container creation not allowed by policy. Reasons: [invalid command]."
          ++ "\nInput: [create_container]") :=
  (C9_create_denied_reasons (sampleDeps sampleReason) overlaidEnforcer "sb" "c1" ["bash"] [] "/"
    [] { containerID := "c1", layerPaths := ["/dev/sda"] } (boolResult false)
    ["invalid command"] [] [] rfl rfl rfl rfl).1

/-- C10, as amended: when the container ID `c` has the record `info`, the
evaluator denies `create_container`, and the follow-up evaluation of the rule
`reason` fails with an evaluator error, then `EnforceCreateContainerPolicy`
returns that evaluator error, in place of the denial of the container
creation, and the enforcer stays as it was. -/
theorem C10_reason_query_error_returned (deps : Deps) (policy : RegoEnforcer)
    (sandboxID c : String) (argList envList : List String) (workingDir : String)
    (mounts : List Mount) (info : ContainerInfo) (result : ResultSet) (err : String)
    (hrecord : containerAt policy c = some info)
    (hquery : Query deps policy
      (createContainerInput deps info sandboxID argList envList workingDir mounts) = .ok result)
    (hdenied : deps.allowed result = false)
    (hreason : Query deps policy
      (reasonInput (createContainerInput deps info sandboxID argList envList workingDir mounts))
        = .error err) :
    (EnforceCreateContainerPolicy deps policy sandboxID c argList envList workingDir mounts).2
      = Outcome.error err
    ∧ (EnforceCreateContainerPolicy deps policy sandboxID c argList envList workingDir mounts).1
        = policy := by
  have hcall : EnforceCreateContainerPolicy deps policy sandboxID c argList envList workingDir
      mounts = (policy, Outcome.error err) := by
    rw [createContainer_cases]
    simp only [hrecord, hquery, hdenied, hreason, denialOutcome, Bool.false_eq_true, if_false]
  rw [hcall]
  exact ⟨rfl, rfl⟩

/-- C10 as amended, at work: with the overlay of `c1` mounted and a `reason`
rule whose evaluation fails, the creation of `c1` with a denied command
returns the error of that evaluation. -/
theorem C10_reason_query_error_returned_witness :
    (EnforceCreateContainerPolicy (sampleDeps (.error "eval_internal_error")) overlaidEnforcer
        "sb" "c1" ["bash"] [] "/" []).2 = Outcome.error "eval_internal_error" :=
  (C10_reason_query_error_returned (sampleDeps (.error "eval_internal_error")) overlaidEnforcer
    "sb" "c1" ["bash"] [] "/" [] { containerID := "c1", layerPaths := ["/dev/sda"] }
    (boolResult false) "eval_internal_error" rfl rfl rfl rfl).1

/-- C10 as stated fails: with the overlay of `c1` mounted and `create_container`
denied, a `reason` rule whose evaluation fails makes
`EnforceCreateContainerPolicy` return the error of that evaluation, whose
message does not hold the words of the denial; and a `reason` rule that yields
no result makes the method panic on the first element of the empty result
set. -/
theorem C10_reason_query_failure_counterexample :
    containerAt overlaidEnforcer "c1" = some { containerID := "c1", layerPaths := ["/dev/sda"] }
    ∧ (sampleDeps (.error "eval_internal_error")).allowed (boolResult false) = false
    ∧ Query (sampleDeps (.error "eval_internal_error")) overlaidEnforcer
        (createContainerInput (sampleDeps (.error "eval_internal_error"))
          { containerID := "c1", layerPaths := ["/dev/sda"] } "sb" ["bash"] [] "/" [])
        = .ok (boolResult false)
    ∧ Query (sampleDeps (.error "eval_internal_error")) overlaidEnforcer
        (reasonInput (createContainerInput (sampleDeps (.error "eval_internal_error"))
          { containerID := "c1", layerPaths := ["/dev/sda"] } "sb" ["bash"] [] "/" []))
        = .error "eval_internal_error"
    ∧ (EnforceCreateContainerPolicy (sampleDeps (.error "eval_internal_error")) overlaidEnforcer
        "sb" "c1" ["bash"] [] "/" []).2 = Outcome.error "eval_internal_error"
    ∧ ¬ Contains "eval_internal_error" "container creation not allowed by policy"
    ∧ Query (sampleDeps (.ok [])) overlaidEnforcer
        (reasonInput (createContainerInput (sampleDeps (.ok []))
          { containerID := "c1", layerPaths := ["/dev/sda"] } "sb" ["bash"] [] "/" []))
        = .ok []
    ∧ (EnforceCreateContainerPolicy (sampleDeps (.ok [])) overlaidEnforcer
        "sb" "c1" ["bash"] [] "/" []).2
        = Outcome.panic "index out of range [0] with length 0" := by
  refine ⟨rfl, rfl, rfl, rfl, rfl, ?_, rfl, rfl⟩
  rintro ⟨before, after, hmsg⟩
  have hlen := congrArg String.length hmsg
  simp only [String.length_append] at hlen
  have h1 : "eval_internal_error".length = 19 := by decide
  have h2 : "container creation not allowed by policy".length = 40 := by decide
  omega

/-! ## Sequences of calls -/

/-- A key written into a map is found in it. -/
theorem mapGet_mapSet_isSome {α : Type} (m : List (String × α)) (key key2 : String) (val : α)
    (h : (mapGet m key2).isSome = true) : (mapGet (mapSet m key val) key2).isSome = true := by
  rw [mapGet_mapSet]
  split
  · rfl
  · exact h

/-- A record in `containers` is found again in the map that the gated methods
write into. -/
theorem containerAt_getD (policy : RegoEnforcer) (c : String)
    (h : (containerAt policy c).isSome = true) :
    (mapGet (policy.data.containers.getD []) c).isSome = true := by
  unfold containerAt at h
  cases hc : policy.data.containers with
  | none => simp [hc] at h
  | some m => simpa [hc] using h

/-- No call removes a key from `containers`. -/
theorem step_keeps_container (deps : Deps) (policy : RegoEnforcer) (op : Op) (c : String)
    (h : (containerAt policy c).isSome = true) :
    (containerAt (step deps policy op).1 c).isSome = true := by
  cases op with
  | deviceMount target deviceHash =>
    simp only [step]
    rw [deviceMount_cases]
    repeat' split
    all_goals exact h
  | deviceUnmount unmountTarget =>
    simp only [step, EnforceDeviceUnmountPolicy]
    split
    · exact h
    · simpa [containerAt] using h
  | overlayMount containerID layerPaths =>
    simp only [step]
    rw [overlayMount_cases]
    repeat' split
    all_goals first
      | exact h
      | (simp only [containerAt]
         exact mapGet_mapSet_isSome _ _ _ _ (containerAt_getD policy c h))
  | createContainer sandboxID containerID argList envList workingDir mounts =>
    simp only [step]
    rw [createContainer_cases]
    repeat' split
    all_goals first
      | exact h
      | (simp only [containerAt, createdEnforcer]
         exact mapGet_mapSet_isSome _ _ _ _ (containerAt_getD policy c h))
  | extendDefaultMounts mounts =>
    simpa [step, ExtendDefaultMounts, containerAt] using h

/-- A successful overlay mount finds no record under the container ID and
leaves one. -/
theorem overlayMount_ok (deps : Deps) (policy : RegoEnforcer) (c : String) (L : List String)
    (hok : (EnforceOverlayMountPolicy deps policy c L).2 = Outcome.ok) :
    containerAt policy c = none
    ∧ (containerAt (EnforceOverlayMountPolicy deps policy c L).1 c).isSome = true := by
  rw [overlayMount_cases] at hok ⊢
  cases hq : Query deps policy (mountOverlayInput c L) with
  | error err => simp [hq] at hok
  | ok result =>
    cases ha : deps.allowed result with
    | false => simp [hq, ha] at hok
    | true =>
      cases hget : containerAt policy c with
      | some info => simp [hq, ha, hget] at hok
      | none => simp [hq, ha, hget, containerAt, mapGet_mapSet]

/-- The data store of an enforcer fresh from `newRegoPolicyFromInternal` has
neither the key `devices` nor the key `containers`, and `started` is empty. -/
theorem newRegoPolicyFromInternal_data (deps : Deps) (securityPolicy : securityPolicyInternal)
    (defaultMounts privilegedMounts : List Mount) (policy : RegoEnforcer)
    (hfresh : newRegoPolicyFromInternal deps securityPolicy defaultMounts privilegedMounts
      = .ok policy) :
    policy.data =
      { started := []
        defaultMounts := appendMountData [] defaultMounts
        privilegedMounts := appendMountData [] privilegedMounts
        sandboxPrefix := deps.SandboxMountPrefix
        hugePagesPrefix := deps.HugePagesMountPrefix
        devices := none
        containers := none } := by
  unfold newRegoPolicyFromInternal at hfresh
  split at hfresh
  · simp at hfresh
  · simp only [] at hfresh
    split at hfresh
    · simp only [Except.ok.injEq] at hfresh
      rw [← hfresh]
    · simp at hfresh

/-- The final state of a sequence of calls, call by call. -/
theorem run_cons (policy : RegoEnforcer) (deps : Deps) (op : Op) (rest : List (Deps × Op)) :
    run policy ((deps, op) :: rest)
      = ((run (step deps policy op).1 rest).1,
          (op, (step deps policy op).2) :: (run (step deps policy op).1 rest).2) := rfl

/-- A sequence of calls is run part by part. -/
theorem run_append (calls1 calls2 : List (Deps × Op)) :
    ∀ policy : RegoEnforcer,
      (run policy (calls1 ++ calls2)).1 = (run (run policy calls1).1 calls2).1 := by
  induction calls1 with
  | nil => intro policy; rfl
  | cons call rest ih =>
    intro policy
    obtain ⟨deps, op⟩ := call
    simp only [List.cons_append, run_cons]
    exact ih _

/-- No sequence of calls removes a key from `containers`. -/
theorem run_keeps_container (c : String) (calls : List (Deps × Op)) :
    ∀ policy : RegoEnforcer, (containerAt policy c).isSome = true →
      (containerAt (run policy calls).1 c).isSome = true := by
  induction calls with
  | nil => intro policy h; exact h
  | cons call rest ih =>
    intro policy h
    obtain ⟨deps, op⟩ := call
    rw [run_cons]
    exact ih _ (step_keeps_container deps policy op c h)

/-- A call is a successful overlay mount for `c` only when `c` had no record
before it, and `c` has one after it. -/
theorem overlayMounted_step (deps : Deps) (policy : RegoEnforcer) (op : Op) (c : String)
    (h : overlayMounted c (op, (step deps policy op).2) = true) :
    containerAt policy c = none ∧ (containerAt (step deps policy op).1 c).isSome = true := by
  cases op with
  | overlayMount containerID layerPaths =>
    simp only [step] at h ⊢
    cases hout : (EnforceOverlayMountPolicy deps policy containerID layerPaths).2 with
    | ok =>
      rw [hout] at h
      simp only [overlayMounted, decide_eq_true_eq] at h
      subst h
      exact overlayMount_ok deps policy containerID layerPaths hout
    | error msg => rw [hout] at h; simp [overlayMounted] at h
    | panic msg => rw [hout] at h; simp [overlayMounted] at h
  | deviceMount target deviceHash => simp [overlayMounted] at h
  | deviceUnmount unmountTarget => simp [overlayMounted] at h
  | createContainer sandboxID containerID argList envList workingDir mounts =>
    simp [overlayMounted] at h
  | extendDefaultMounts mounts => simp [overlayMounted] at h

/-- Once `c` has a record, no later overlay mount for `c` succeeds. -/
theorem run_no_overlay_for_known (c : String) (calls : List (Deps × Op)) :
    ∀ policy : RegoEnforcer, (containerAt policy c).isSome = true →
      List.countP (overlayMounted c) (run policy calls).2 = 0 := by
  induction calls with
  | nil => intro policy _; rfl
  | cons call rest ih =>
    intro policy h
    obtain ⟨deps, op⟩ := call
    rw [run_cons]
    have hhead : overlayMounted c (op, (step deps policy op).2) = false := by
      cases hm : overlayMounted c (op, (step deps policy op).2) with
      | false => rfl
      | true =>
        have := (overlayMounted_step deps policy op c hm).1
        rw [this] at h
        simp at h
    simp only [List.countP_cons, hhead, Bool.false_eq_true, if_false, Nat.add_zero]
    exact ih _ (step_keeps_container deps policy op c h)

/-- From every state, at most one overlay mount for `c` succeeds in a sequence
of calls. -/
theorem run_overlay_at_most_once (c : String) (calls : List (Deps × Op)) :
    ∀ policy : RegoEnforcer, List.countP (overlayMounted c) (run policy calls).2 ≤ 1 := by
  induction calls with
  | nil => intro policy; simp [run]
  | cons call rest ih =>
    intro policy
    obtain ⟨deps, op⟩ := call
    rw [run_cons]
    cases hm : overlayMounted c (op, (step deps policy op).2) with
    | false =>
      simp only [List.countP_cons, hm, Bool.false_eq_true, if_false, Nat.add_zero]
      exact ih _
    | true =>
      have hafter := (overlayMounted_step deps policy op c hm).2
      simp only [List.countP_cons, hm, if_true]
      rw [run_no_overlay_for_known c rest _ hafter]

/-- C6: on an enforcer fresh from `newRegoPolicyFromInternal`, in every finite
sequence of calls (device mount, device unmount, overlay mount, create
container, extend default mounts), whatever the evaluator answers at each call,
at most one `EnforceOverlayMountPolicy` call for the container ID `c` returns
success: the fresh enforcer has no record for `c`, and a container ID that
has a record after some calls has one after all later calls. -/
theorem C6_overlay_mount_at_most_once (deps : Deps) (securityPolicy : securityPolicyInternal)
    (defaultMounts privilegedMounts : List Mount) (policy : RegoEnforcer)
    (hfresh : newRegoPolicyFromInternal deps securityPolicy defaultMounts privilegedMounts
      = .ok policy)
    (calls : List (Deps × Op)) (c : String) :
    containerAt policy c = none
    ∧ List.countP (overlayMounted c) (run policy calls).2 ≤ 1
    ∧ (∀ later : List (Deps × Op),
        (containerAt (run policy calls).1 c).isSome = true →
        (containerAt (run policy (calls ++ later)).1 c).isSome = true) := by
  refine ⟨?_, run_overlay_at_most_once c calls policy, ?_⟩
  · have hdata := newRegoPolicyFromInternal_data deps securityPolicy defaultMounts
      privilegedMounts policy hfresh
    simp [containerAt, hdata]
  intro later h
  rw [run_append]
  exact run_keeps_container c later _ h

/-- C6 at work: on a fresh enforcer, a device mount followed by two overlay
mounts for `c1` has at most one successful overlay mount for `c1`. -/
theorem C6_overlay_mount_at_most_once_witness :
    List.countP (overlayMounted "c1")
      (run { sampleEnforcer with
              objects := "package policy\nallow_all := false\ncontainers := [\n]\n" }
        [(sampleDeps sampleReason, Op.deviceMount "/dev/sda" "h1"),
         (sampleDeps sampleReason, Op.overlayMount "c1" ["/dev/sda"]),
         (sampleDeps sampleReason, Op.overlayMount "c1" ["/dev/sda"])]).2 ≤ 1 :=
  (C6_overlay_mount_at_most_once (sampleDeps sampleReason) emptyPolicy [] []
    { sampleEnforcer with objects := "package policy\nallow_all := false\ncontainers := [\n]\n" }
    rfl
    [(sampleDeps sampleReason, Op.deviceMount "/dev/sda" "h1"),
     (sampleDeps sampleReason, Op.overlayMount "c1" ["/dev/sda"]),
     (sampleDeps sampleReason, Op.overlayMount "c1" ["/dev/sda"])] "c1").2.1

/-! ## Frames of the calls -/

/-- A deleted key is not found, every other key is found as before. -/
theorem mapGet_mapDelete {α : Type} (m : List (String × α)) (key key2 : String) :
    mapGet (mapDelete m key) key2 = if key = key2 then none else mapGet m key2 := by
  induction m with
  | nil => simp [mapDelete, mapGet]
  | cons kv rest ih =>
    obtain ⟨k, v⟩ := kv
    simp only [mapDelete] at ih
    by_cases hk : k = key
    · subst hk
      by_cases h2 : k = key2 <;> simpa [mapDelete, List.filter_cons, mapGet, h2] using ih
    · by_cases h2 : k = key2
      · subst h2
        simp [mapDelete, List.filter_cons, mapGet, hk, Ne.symm hk]
      · simpa [mapDelete, List.filter_cons, mapGet, hk, h2] using ih

/-- The records that `appendMountData` appends are those of the mounts, in
their order. -/
theorem appendMountData_eq (mounts : List Mount) :
    ∀ mountData : List MountData,
      appendMountData mountData mounts = mountData ++ mounts.map toMountData := by
  induction mounts with
  | nil => intro mountData; simp [appendMountData]
  | cons mount rest ih =>
    intro mountData
    have h := ih (mountData ++ [toMountData mount])
    simp only [appendMountData, toMountData, List.foldl_cons, List.map_cons] at h ⊢
    rw [h]
    simp

/-- The state after a successful `EnforceDeviceMountPolicy` call. -/
theorem deviceMount_ok_state (deps : Deps) (policy : RegoEnforcer) (t h : String)
    (hok : (EnforceDeviceMountPolicy deps policy t h).2 = Outcome.ok) :
    deviceAt policy t = none
    ∧ (∃ result : ResultSet, Query deps policy (mountDeviceInput t h) = .ok result
        ∧ deps.allowed result = true)
    ∧ (EnforceDeviceMountPolicy deps policy t h).1
        = { policy with
            data := { policy.data with
              devices := some (mapSet (policy.data.devices.getD []) t h) } } := by
  rw [deviceMount_cases] at hok ⊢
  cases hq : Query deps policy (mountDeviceInput t h) with
  | error err => simp [hq] at hok
  | ok result =>
    cases ha : deps.allowed result with
    | false => simp [hq, ha] at hok
    | true =>
      cases hget : deviceAt policy t with
      | some h0 => simp [hq, ha, hget] at hok
      | none => simp [ha]

/-- The state after a successful `EnforceOverlayMountPolicy` call. -/
theorem overlayMount_ok_state (deps : Deps) (policy : RegoEnforcer) (c : String)
    (L : List String)
    (hok : (EnforceOverlayMountPolicy deps policy c L).2 = Outcome.ok) :
    containerAt policy c = none
    ∧ (∃ result : ResultSet, Query deps policy (mountOverlayInput c L) = .ok result
        ∧ deps.allowed result = true)
    ∧ (EnforceOverlayMountPolicy deps policy c L).1
        = { policy with
            data := { policy.data with
              containers := some (mapSet (policy.data.containers.getD []) c
                { containerID := c, layerPaths := L }) } } := by
  rw [overlayMount_cases] at hok ⊢
  cases hq : Query deps policy (mountOverlayInput c L) with
  | error err => simp [hq] at hok
  | ok result =>
    cases ha : deps.allowed result with
    | false => simp [hq, ha] at hok
    | true =>
      cases hget : containerAt policy c with
      | some h0 => simp [hq, ha, hget] at hok
      | none => simp [ha]

/-- The state after a successful `EnforceCreateContainerPolicy` call. -/
theorem createContainer_ok_state (deps : Deps) (policy : RegoEnforcer) (sandboxID c : String)
    (argList envList : List String) (workingDir : String) (mounts : List Mount)
    (hok : (EnforceCreateContainerPolicy deps policy sandboxID c argList envList workingDir
      mounts).2 = Outcome.ok) :
    ∃ info : ContainerInfo, containerAt policy c = some info
      ∧ (EnforceCreateContainerPolicy deps policy sandboxID c argList envList workingDir
          mounts).1 = createdEnforcer policy c info argList envList workingDir := by
  rw [createContainer_cases] at hok ⊢
  cases hget : containerAt policy c with
  | none => simp [hget] at hok
  | some info =>
    refine ⟨info, rfl, ?_⟩
    cases hq : Query deps policy
        (createContainerInput deps info sandboxID argList envList workingDir mounts) with
    | error err => simp [hget, hq] at hok
    | ok result =>
      cases ha : deps.allowed result with
      | false =>
        simp only [hget, hq, ha, Bool.false_eq_true, if_false] at hok
        exact absurd hok (denialOutcome_ne_ok _ _)
      | true => simp [hq, ha]

/-- Every path of `EnforceDeviceUnmountPolicy`. -/
theorem deviceUnmount_cases (policy : RegoEnforcer) (t : String) :
    EnforceDeviceUnmountPolicy policy t =
      match policy.data.devices with
      | none =>
        (policy, Outcome.panic "interface conversion: interface is nil, not map[string]string")
      | some devices =>
        ({ policy with data := { policy.data with devices := some (mapDelete devices t) } },
          Outcome.ok) := rfl

/-- A call keeps `started`, unless it is a successful
`EnforceCreateContainerPolicy` call, which appends its container ID. -/
theorem step_started (deps : Deps) (policy : RegoEnforcer) (op : Op) :
    (step deps policy op).1.data.started
      = policy.data.started ++ (createdID (op, (step deps policy op).2)).toList := by
  cases op with
  | deviceMount t h =>
    simp only [step, createdID, Option.toList, List.append_nil]
    rw [deviceMount_cases]
    repeat' split
    all_goals rfl
  | deviceUnmount t =>
    simp only [step, createdID, Option.toList, List.append_nil]
    rw [deviceUnmount_cases]
    split <;> rfl
  | overlayMount c L =>
    simp only [step, createdID, Option.toList, List.append_nil]
    rw [overlayMount_cases]
    repeat' split
    all_goals rfl
  | createContainer sandboxID c argList envList workingDir mounts =>
    simp only [step]
    cases hout : (EnforceCreateContainerPolicy deps policy sandboxID c argList envList
        workingDir mounts).2 with
    | ok =>
      obtain ⟨info, -, hstate⟩ :=
        createContainer_ok_state deps policy sandboxID c argList envList workingDir mounts hout
      rw [hstate]
      rfl
    | error msg =>
      rw [createContainer_not_ok deps policy sandboxID c argList envList workingDir mounts
        (by rw [hout]; simp)]
      simp [createdID]
    | panic msg =>
      rw [createContainer_not_ok deps policy sandboxID c argList envList workingDir mounts
        (by rw [hout]; simp)]
      simp [createdID]
  | extendDefaultMounts mounts =>
    simp [step, createdID, ExtendDefaultMounts]

/-! ## Device unmount -/

/-- C11, at the failing input: on the enforcer that `newRegoPolicyFromInternal`
builds, whose data store has no key `devices`, the call
`EnforceDeviceUnmountPolicy` for the target `/dev/sda`, which is absent from
`devices`, does not return: the type assertion on the missing key panics. -/
theorem C11_unmount_on_fresh_enforcer_panics :
    newRegoPolicyFromInternal (sampleDeps sampleReason) emptyPolicy [] [] = .ok freshEnforcer
    ∧ freshEnforcer.data.devices = none
    ∧ deviceAt freshEnforcer "/dev/sda" = none
    ∧ EnforceDeviceUnmountPolicy freshEnforcer "/dev/sda"
        = (freshEnforcer,
            Outcome.panic "interface conversion: interface is nil, not map[string]string") :=
  ⟨rfl, rfl, rfl, rfl⟩

/-- C12: when `EnforceDeviceMountPolicy` succeeds for the target `t` and the
hash `h` and `EnforceDeviceUnmountPolicy` follows for `t`, the unmount returns
no error, `devices` has no entry for `t` afterwards, the entry of every other
target is the one after the mount, which is the one before the mount, and the
result of the unmount is the same for all collaborators (no rule is
evaluated). -/
theorem C12_mount_then_unmount (deps : Deps) (policy : RegoEnforcer) (t h : String)
    (hmount : (EnforceDeviceMountPolicy deps policy t h).2 = Outcome.ok) :
    (EnforceDeviceUnmountPolicy (EnforceDeviceMountPolicy deps policy t h).1 t).2 = Outcome.ok
    ∧ deviceAt (EnforceDeviceUnmountPolicy (EnforceDeviceMountPolicy deps policy t h).1 t).1 t
        = none
    ∧ (∀ t2 : String, t2 ≠ t →
        deviceAt (EnforceDeviceUnmountPolicy (EnforceDeviceMountPolicy deps policy t h).1 t).1 t2
          = deviceAt (EnforceDeviceMountPolicy deps policy t h).1 t2)
    ∧ (∀ t2 : String, t2 ≠ t →
        deviceAt (EnforceDeviceUnmountPolicy (EnforceDeviceMountPolicy deps policy t h).1 t).1 t2
          = deviceAt policy t2)
    ∧ (∀ deps2 deps3 : Deps,
        step deps2 (EnforceDeviceMountPolicy deps policy t h).1 (Op.deviceUnmount t)
          = step deps3 (EnforceDeviceMountPolicy deps policy t h).1 (Op.deviceUnmount t)) := by
  obtain ⟨-, -, hstate⟩ := deviceMount_ok_state deps policy t h hmount
  rw [hstate]
  refine ⟨rfl, ?_, ?_, ?_, fun _ _ => rfl⟩
  · simp [EnforceDeviceUnmountPolicy, deviceAt, mapGet_mapDelete]
  · intro t2 h2
    simp [EnforceDeviceUnmountPolicy, deviceAt, mapGet_mapDelete, Ne.symm h2]
  · intro t2 h2
    cases hdev : policy.data.devices <;>
      simp [EnforceDeviceUnmountPolicy, deviceAt, mapGet_mapDelete, mapGet_mapSet, Ne.symm h2,
        hdev, mapGet]

/-- C12 at work: on an enforcer without devices, the allowed mount of
`/dev/sda` followed by its unmount succeeds and leaves no entry for
`/dev/sda`. -/
theorem C12_mount_then_unmount_witness :
    (EnforceDeviceUnmountPolicy
        (EnforceDeviceMountPolicy (sampleDeps sampleReason) sampleEnforcer "/dev/sda" "h1").1
        "/dev/sda").2 = Outcome.ok
    ∧ deviceAt (EnforceDeviceUnmountPolicy
        (EnforceDeviceMountPolicy (sampleDeps sampleReason) sampleEnforcer "/dev/sda" "h1").1
        "/dev/sda").1 "/dev/sda" = none :=
  have key := C12_mount_then_unmount (sampleDeps sampleReason) sampleEnforcer "/dev/sda" "h1" rfl
  ⟨key.1, key.2.1⟩

/-! ## The sequence of started containers -/

/-- C15: for every call and every state, `started` before the call is a prefix
of `started` after the call; a successful `EnforceCreateContainerPolicy` call
appends its container ID and nothing else; the four other methods keep
`started`; and every call that does not succeed keeps `started`. -/
theorem C15_started_append_only (deps : Deps) (policy : RegoEnforcer) :
    (∀ op : Op, List.IsPrefix policy.data.started (step deps policy op).1.data.started)
    ∧ (∀ (sandboxID c : String) (argList envList : List String) (workingDir : String)
        (mounts : List Mount),
        (EnforceCreateContainerPolicy deps policy sandboxID c argList envList workingDir
          mounts).2 = Outcome.ok →
        (EnforceCreateContainerPolicy deps policy sandboxID c argList envList workingDir
          mounts).1.data.started = policy.data.started ++ [c])
    ∧ (∀ t h : String,
        (EnforceDeviceMountPolicy deps policy t h).1.data.started = policy.data.started)
    ∧ (∀ t : String, (EnforceDeviceUnmountPolicy policy t).1.data.started = policy.data.started)
    ∧ (∀ (c : String) (L : List String),
        (EnforceOverlayMountPolicy deps policy c L).1.data.started = policy.data.started)
    ∧ (∀ mounts : List Mount,
        (ExtendDefaultMounts policy mounts).1.data.started = policy.data.started)
    ∧ (∀ op : Op, (step deps policy op).2 ≠ Outcome.ok →
        (step deps policy op).1.data.started = policy.data.started) := by
  refine ⟨?_, ?_, ?_, ?_, ?_, ?_, ?_⟩
  · intro op
    rw [step_started]
    exact List.prefix_append _ _
  · intro sandboxID c argList envList workingDir mounts hok
    have h := step_started deps policy
      (Op.createContainer sandboxID c argList envList workingDir mounts)
    simp only [step] at h
    rw [h, hok]
    rfl
  · intro t h
    simpa [step, createdID] using step_started deps policy (Op.deviceMount t h)
  · intro t
    simpa [step, createdID] using step_started deps policy (Op.deviceUnmount t)
  · intro c L
    simpa [step, createdID] using step_started deps policy (Op.overlayMount c L)
  · intro mounts
    simpa [step, createdID] using step_started deps policy (Op.extendDefaultMounts mounts)
  · intro op hne
    rw [step_started]
    cases op with
    | createContainer sandboxID c argList envList workingDir mounts =>
      cases hout : (step deps policy
          (Op.createContainer sandboxID c argList envList workingDir mounts)).2 with
      | ok => exact absurd hout hne
      | error msg => simp [createdID]
      | panic msg => simp [createdID]
    | _ => simp [createdID]

/-- C15 at work: with the overlay of `c1` mounted, the allowed creation of
`c1` turns the empty `started` into `c1` alone. -/
theorem C15_started_append_only_witness :
    (EnforceCreateContainerPolicy (sampleDeps sampleReason) overlaidEnforcer "sb" "c1" ["sh"]
      [] "/" []).1.data.started = [] ++ ["c1"] :=
  (C15_started_append_only (sampleDeps sampleReason) overlaidEnforcer).2.1 "sb" "c1" ["sh"] []
    "/" [] rfl

/-! ## Default mounts -/

/-- C20: for every state and every list of mounts, `ExtendDefaultMounts`
returns no error; `defaultMounts` becomes the former sequence followed by the
record of destination, source, options and type of each mount, in the order of
the list; `devices`, `containers`, `started` and `privilegedMounts` stay; and
for the empty list the data store stays. -/
theorem C20_extend_default_mounts (policy : RegoEnforcer) (mounts : List Mount) :
    (ExtendDefaultMounts policy mounts).2 = Outcome.ok
    ∧ (ExtendDefaultMounts policy mounts).1.data.defaultMounts
        = policy.data.defaultMounts ++
            mounts.map (fun mount =>
              { destination := mount.Destination, source := mount.Source,
                options := mount.Options, type := mount.Type_ })
    ∧ (ExtendDefaultMounts policy mounts).1.data.devices = policy.data.devices
    ∧ (ExtendDefaultMounts policy mounts).1.data.containers = policy.data.containers
    ∧ (ExtendDefaultMounts policy mounts).1.data.started = policy.data.started
    ∧ (ExtendDefaultMounts policy mounts).1.data.privilegedMounts = policy.data.privilegedMounts
    ∧ (ExtendDefaultMounts policy []).1.data = policy.data := by
  refine ⟨rfl, ?_, rfl, rfl, rfl, rfl, rfl⟩
  simp only [ExtendDefaultMounts, appendMountData_eq]
  rfl

/-- Once the key `devices` exists, `EnforceDeviceUnmountPolicy` succeeds, and a
second call for the same target succeeds and leaves the data store as the
first call left it. -/
theorem deviceUnmount_twice (policy : RegoEnforcer) (t : String)
    (devices : List (String × String)) (hdev : policy.data.devices = some devices) :
    (EnforceDeviceUnmountPolicy policy t).2 = Outcome.ok
    ∧ (EnforceDeviceUnmountPolicy (EnforceDeviceUnmountPolicy policy t).1 t).2 = Outcome.ok
    ∧ (EnforceDeviceUnmountPolicy (EnforceDeviceUnmountPolicy policy t).1 t).1.data
        = (EnforceDeviceUnmountPolicy policy t).1.data := by
  simp [EnforceDeviceUnmountPolicy, hdev, mapDelete, List.filter_filter]

/-! ## Started containers and created containers -/

/-- The record of a key of `containers` after a write into the map that the
gated methods write into. -/
theorem containerAt_mapSet (policy : RegoEnforcer) (c c2 : String) (info : ContainerInfo) :
    containerAt
        { policy with
          data := { policy.data with
            containers := some (mapSet (policy.data.containers.getD []) c info) } } c2
      = if c = c2 then some info else containerAt policy c2 := by
  cases hc : policy.data.containers <;> simp [containerAt, mapGet_mapSet, hc, mapGet]

/-- The record of a key of `containers` after the writes of a successful
creation. -/
theorem containerAt_started_mapSet (policy : RegoEnforcer) (started : List String)
    (c c2 : String) (info : ContainerInfo) :
    containerAt
        { policy with
          data := { policy.data with
            started := started
            containers := some (mapSet (policy.data.containers.getD []) c info) } } c2
      = if c = c2 then some info else containerAt policy c2 := by
  cases hc : policy.data.containers <;> simp [containerAt, mapGet_mapSet, hc, mapGet]

/-- The records after a call. -/
theorem step_containerAt (deps : Deps) (policy : RegoEnforcer) (op : Op) (c2 : String) :
    containerAt (step deps policy op).1 c2
      = containerAfter policy c2 (op, (step deps policy op).2) := by
  cases op with
  | deviceMount t h =>
    simp only [step, containerAfter]
    rw [deviceMount_cases]
    repeat' split
    all_goals rfl
  | deviceUnmount t =>
    simp only [step, containerAfter]
    rw [deviceUnmount_cases]
    split <;> rfl
  | extendDefaultMounts mounts => rfl
  | overlayMount c L =>
    have hstep : step deps policy (Op.overlayMount c L)
        = EnforceOverlayMountPolicy deps policy c L := rfl
    rw [hstep]
    cases hout : (EnforceOverlayMountPolicy deps policy c L).2 with
    | ok =>
      obtain ⟨-, -, hstate⟩ := overlayMount_ok_state deps policy c L hout
      rw [hstate, containerAt_mapSet]
      rfl
    | error msg =>
      rw [overlayMount_not_ok deps policy c L (by rw [hout]; simp)]
      rfl
    | panic msg =>
      rw [overlayMount_not_ok deps policy c L (by rw [hout]; simp)]
      rfl
  | createContainer sandboxID c argList envList workingDir mounts =>
    have hstep : step deps policy
        (Op.createContainer sandboxID c argList envList workingDir mounts)
        = EnforceCreateContainerPolicy deps policy sandboxID c argList envList workingDir
            mounts := rfl
    rw [hstep]
    cases hout : (EnforceCreateContainerPolicy deps policy sandboxID c argList envList
        workingDir mounts).2 with
    | ok =>
      obtain ⟨info, hrecord, hstate⟩ :=
        createContainer_ok_state deps policy sandboxID c argList envList workingDir mounts hout
      rw [hstate]
      unfold createdEnforcer
      rw [containerAt_started_mapSet]
      simp only [containerAfter, hrecord, Option.map_some']
    | error msg =>
      rw [createContainer_not_ok deps policy sandboxID c argList envList workingDir mounts
        (by rw [hout]; simp)]
      rfl
    | panic msg =>
      rw [createContainer_not_ok deps policy sandboxID c argList envList workingDir mounts
        (by rw [hout]; simp)]
      rfl

/-- Every call keeps `StartedIsCreated`. -/
theorem step_startedIsCreated (deps : Deps) (policy : RegoEnforcer) (op : Op)
    (hinv : StartedIsCreated policy) : StartedIsCreated (step deps policy op).1 := by
  intro c2
  rw [step_started, step_containerAt]
  cases op with
  | deviceMount t h => simpa [createdID, containerAfter] using hinv c2
  | deviceUnmount t => simpa [createdID, containerAfter] using hinv c2
  | extendDefaultMounts mounts => simpa [createdID, containerAfter] using hinv c2
  | overlayMount c L =>
    have hstep : step deps policy (Op.overlayMount c L)
        = EnforceOverlayMountPolicy deps policy c L := rfl
    rw [hstep]
    cases hout : (EnforceOverlayMountPolicy deps policy c L).2 with
    | ok =>
      obtain ⟨hfresh, -, -⟩ := overlayMount_ok_state deps policy c L hout
      simp only [createdID, containerAfter, Option.toList, List.append_nil]
      by_cases hc : c = c2
      · subst hc
        simp only [if_true]
        constructor
        · intro hmem
          obtain ⟨info, hrecord, -⟩ := (hinv c).1 hmem
          rw [hfresh] at hrecord
          simp at hrecord
        · rintro ⟨info, hrecord, hcreated⟩
          simp only [Option.some.injEq] at hrecord
          subst hrecord
          simp [isCreated] at hcreated
      · simp only [hc, if_false]
        exact hinv c2
    | error msg => simpa [createdID, containerAfter] using hinv c2
    | panic msg => simpa [createdID, containerAfter] using hinv c2
  | createContainer sandboxID c argList envList workingDir mounts =>
    have hstep : step deps policy
        (Op.createContainer sandboxID c argList envList workingDir mounts)
        = EnforceCreateContainerPolicy deps policy sandboxID c argList envList workingDir
            mounts := rfl
    rw [hstep]
    cases hout : (EnforceCreateContainerPolicy deps policy sandboxID c argList envList
        workingDir mounts).2 with
    | ok =>
      obtain ⟨info, hrecord, -⟩ :=
        createContainer_ok_state deps policy sandboxID c argList envList workingDir mounts hout
      simp only [createdID, containerAfter, Option.toList, List.mem_append, List.mem_singleton]
      by_cases hc : c = c2
      · subst hc
        simp only [if_true, or_true, true_iff, hrecord, Option.map_some']
        exact ⟨_, rfl, by simp [isCreated]⟩
      · simp only [hc, if_false]
        rw [hinv c2]
        constructor
        · rintro (h | h)
          · exact h
          · exact absurd h.symm hc
        · exact fun h => Or.inl h
    | error msg => simpa [createdID, containerAfter] using hinv c2
    | panic msg => simpa [createdID, containerAfter] using hinv c2

/-- Every sequence of calls keeps `StartedIsCreated`. -/
theorem run_startedIsCreated (calls : List (Deps × Op)) :
    ∀ policy : RegoEnforcer, StartedIsCreated policy → StartedIsCreated (run policy calls).1 := by
  induction calls with
  | nil => intro policy h; exact h
  | cons call rest ih =>
    intro policy h
    obtain ⟨deps, op⟩ := call
    rw [run_cons]
    exact ih _ (step_startedIsCreated deps policy op h)

/-- After a sequence of calls `started` is what it was, followed by the
container IDs of the successful creations, in the order of the calls. -/
theorem run_started (calls : List (Deps × Op)) :
    ∀ policy : RegoEnforcer,
      (run policy calls).1.data.started
        = policy.data.started ++ (run policy calls).2.filterMap createdID := by
  induction calls with
  | nil => intro policy; simp [run]
  | cons call rest ih =>
    intro policy
    obtain ⟨deps, op⟩ := call
    rw [run_cons]
    simp only [ih, step_started, List.filterMap_cons]
    cases createdID (op, (step deps policy op).2) <;> simp

/-- C14: after every sequence of calls on an enforcer fresh from
`newRegoPolicyFromInternal`, a container ID occurs in `started` iff its record
in `containers` carries `argList`, `envList` and `workingDir`, and `started`
is the sequence of the container IDs of the successful
`EnforceCreateContainerPolicy` calls, in the order of the calls. -/
theorem C14_started_is_created (deps : Deps) (securityPolicy : securityPolicyInternal)
    (defaultMounts privilegedMounts : List Mount) (policy : RegoEnforcer)
    (hfresh : newRegoPolicyFromInternal deps securityPolicy defaultMounts privilegedMounts
      = .ok policy)
    (calls : List (Deps × Op)) :
    (∀ c : String, c ∈ (run policy calls).1.data.started ↔
      ∃ info : ContainerInfo, containerAt (run policy calls).1 c = some info
        ∧ info.argList.isSome = true ∧ info.envList.isSome = true
        ∧ info.workingDir.isSome = true)
    ∧ (run policy calls).1.data.started = (run policy calls).2.filterMap createdID := by
  have hdata := newRegoPolicyFromInternal_data deps securityPolicy defaultMounts
    privilegedMounts policy hfresh
  have hinit : StartedIsCreated policy := by
    intro c
    simp [containerAt, hdata]
  refine ⟨?_, ?_⟩
  · intro c
    rw [run_startedIsCreated calls policy hinit c]
    simp only [isCreated, Bool.and_eq_true, and_assoc]
  · rw [run_started, hdata]
    rfl

/-- C14 at work: on a fresh enforcer, after the device mount, the overlay of
`c1` and the creation of `c1`, `started` is `c1` alone, as the log of the
successful creations says. -/
theorem C14_started_is_created_witness :
    (run freshEnforcer
      [(sampleDeps sampleReason, Op.deviceMount "/dev/sda" "h1"),
       (sampleDeps sampleReason, Op.overlayMount "c1" ["/dev/sda"]),
       (sampleDeps sampleReason, Op.createContainer "sb" "c1" ["sh"] [] "/" [])]).1.data.started
      = ["c1"] :=
  (C14_started_is_created (sampleDeps sampleReason) emptyPolicy [] [] freshEnforcer rfl
    [(sampleDeps sampleReason, Op.deviceMount "/dev/sda" "h1"),
     (sampleDeps sampleReason, Op.overlayMount "c1" ["/dev/sda"]),
     (sampleDeps sampleReason, Op.createContainer "sb" "c1" ["sh"] [] "/" [])]).2

/-! ## Overlays and devices -/

/-- A value found in a map is an entry of the map. -/
theorem mapGet_mem {α : Type} (m : List (String × α)) (key : String) (val : α)
    (h : mapGet m key = some val) : (key, val) ∈ m := by
  induction m with
  | nil => simp [mapGet] at h
  | cons kv rest ih =>
    obtain ⟨k, v⟩ := kv
    by_cases hk : k = key
    · subst hk
      simp only [mapGet, if_true, Option.some.injEq] at h
      subst h
      exact List.mem_cons_self _ _
    · simp only [mapGet, hk, if_false] at h
      exact List.mem_cons_of_mem _ (ih h)

/-- A layer path of a stored record is a target in an overlay. -/
theorem targetInOverlay_of_record (policy : RegoEnforcer) (c : String) (info : ContainerInfo)
    (path : String) (hrecord : containerAt policy c = some info)
    (hpath : path ∈ info.layerPaths) : targetInOverlay policy path = true := by
  unfold containerAt at hrecord
  unfold targetInOverlay
  cases hc : policy.data.containers with
  | none => simp [hc] at hrecord
  | some m =>
    simp only [hc] at hrecord
    simp only [Option.getD_some, List.any_eq_true, decide_eq_true_eq]
    exact ⟨(c, info), mapGet_mem m c info hrecord, hpath⟩

/-- The hash of a target after a call. -/
theorem step_deviceAt (deps : Deps) (policy : RegoEnforcer) (op : Op) (t2 : String) :
    deviceAt (step deps policy op).1 t2 =
      match op, (step deps policy op).2 with
      | .deviceMount t h, .ok => if t = t2 then some h else deviceAt policy t2
      | .deviceUnmount t, .ok => if t = t2 then none else deviceAt policy t2
      | _, _ => deviceAt policy t2 := by
  cases op with
  | deviceMount t h =>
    have hstep : step deps policy (Op.deviceMount t h)
        = EnforceDeviceMountPolicy deps policy t h := rfl
    rw [hstep]
    cases hout : (EnforceDeviceMountPolicy deps policy t h).2 with
    | ok =>
      obtain ⟨-, -, hstate⟩ := deviceMount_ok_state deps policy t h hout
      rw [hstate]
      cases hdev : policy.data.devices <;> simp [deviceAt, mapGet_mapSet, hdev, mapGet]
    | error msg => rw [deviceMount_not_ok deps policy t h (by rw [hout]; simp)]
    | panic msg => rw [deviceMount_not_ok deps policy t h (by rw [hout]; simp)]
  | deviceUnmount t =>
    have hstep : step deps policy (Op.deviceUnmount t) = EnforceDeviceUnmountPolicy policy t := rfl
    rw [hstep, deviceUnmount_cases]
    cases hdev : policy.data.devices <;> simp [deviceAt, mapGet_mapDelete, hdev]
  | overlayMount c L =>
    simp only [step]
    rw [overlayMount_cases]
    repeat' split
    all_goals rfl
  | createContainer sandboxID c argList envList workingDir mounts =>
    simp only [step]
    rw [createContainer_cases]
    repeat' split
    all_goals rfl
  | extendDefaultMounts mounts => rfl

/-- A call keeps `OverlaysOnDevices` when its rule `mount_overlay` checks the
devices and it is not the unmount of a target in an overlay. -/
theorem step_overlaysOnDevices (deps : Deps) (policy : RegoEnforcer) (op : Op)
    (hrule : OverlayChecksDevices deps)
    (hunmount : ∀ t : String, op = Op.deviceUnmount t → targetInOverlay policy t = false)
    (hinv : OverlaysOnDevices policy) : OverlaysOnDevices (step deps policy op).1 := by
  intro c2 info2 hrecord path hpath
  rw [step_containerAt] at hrecord
  rw [step_deviceAt]
  cases op with
  | deviceMount t h =>
    have hbefore := hinv c2 info2 hrecord path hpath
    cases hout : (step deps policy (Op.deviceMount t h)).2 with
    | ok =>
      simp only []
      split
      · rfl
      · exact hbefore
    | error msg => exact hbefore
    | panic msg => exact hbefore
  | deviceUnmount t =>
    have hbefore := hinv c2 info2 hrecord path hpath
    have hne : t ≠ path := by
      intro heq
      subst heq
      have h1 := targetInOverlay_of_record policy c2 info2 t hrecord hpath
      rw [hunmount t rfl] at h1
      simp at h1
    cases hout : (step deps policy (Op.deviceUnmount t)).2 with
    | ok => simpa [hne] using hbefore
    | error msg => exact hbefore
    | panic msg => exact hbefore
  | extendDefaultMounts mounts => exact hinv c2 info2 hrecord path hpath
  | overlayMount c L =>
    have hstep : step deps policy (Op.overlayMount c L)
        = EnforceOverlayMountPolicy deps policy c L := rfl
    rw [hstep] at hrecord ⊢
    cases hout : (EnforceOverlayMountPolicy deps policy c L).2 with
    | ok =>
      obtain ⟨-, ⟨result, hquery, hallowed⟩, -⟩ := overlayMount_ok_state deps policy c L hout
      rw [hout] at hrecord
      simp only [containerAfter] at hrecord
      by_cases hc : c = c2
      · simp only [hc, if_true, Option.some.injEq] at hrecord
        subst hrecord
        exact hrule policy c L result hquery hallowed path hpath
      · simp only [hc, if_false] at hrecord
        exact hinv c2 info2 hrecord path hpath
    | error msg =>
      rw [hout] at hrecord
      exact hinv c2 info2 hrecord path hpath
    | panic msg =>
      rw [hout] at hrecord
      exact hinv c2 info2 hrecord path hpath
  | createContainer sandboxID c argList envList workingDir mounts =>
    have hstep : step deps policy
        (Op.createContainer sandboxID c argList envList workingDir mounts)
        = EnforceCreateContainerPolicy deps policy sandboxID c argList envList workingDir
            mounts := rfl
    rw [hstep] at hrecord ⊢
    cases hout : (EnforceCreateContainerPolicy deps policy sandboxID c argList envList
        workingDir mounts).2 with
    | ok =>
      obtain ⟨info, hbefore, -⟩ :=
        createContainer_ok_state deps policy sandboxID c argList envList workingDir mounts hout
      rw [hout] at hrecord
      simp only [containerAfter] at hrecord
      by_cases hc : c = c2
      · simp only [hc, if_true] at hrecord
        rw [← hc, hbefore] at hrecord
        simp only [Option.map_some', Option.some.injEq] at hrecord
        subst hrecord
        exact hinv c info hbefore path hpath
      · simp only [hc, if_false] at hrecord
        exact hinv c2 info2 hrecord path hpath
    | error msg =>
      rw [hout] at hrecord
      exact hinv c2 info2 hrecord path hpath
    | panic msg =>
      rw [hout] at hrecord
      exact hinv c2 info2 hrecord path hpath

/-- A sequence of calls keeps `OverlaysOnDevices` when every rule
`mount_overlay` checks the devices and no unmount removes a target in an
overlay. -/
theorem run_overlaysOnDevices (calls : List (Deps × Op)) :
    ∀ policy : RegoEnforcer,
      (∀ call ∈ calls, OverlayChecksDevices call.1) →
      unmountsSpareOverlays policy calls = true →
      OverlaysOnDevices policy → OverlaysOnDevices (run policy calls).1 := by
  induction calls with
  | nil => intro policy _ _ h; exact h
  | cons call rest ih =>
    intro policy hrule hunmount hinv
    obtain ⟨deps, op⟩ := call
    rw [run_cons]
    simp only [unmountsSpareOverlays, Bool.and_eq_true] at hunmount
    refine ih _ (fun call hcall => hrule call (List.mem_cons_of_mem _ hcall)) hunmount.2 ?_
    refine step_overlaysOnDevices deps policy op (hrule (deps, op) (List.mem_cons_self _ _)) ?_
      hinv
    intro t ht
    subst ht
    simpa using hunmount.1

/-- The rule `mount_overlay` of `keyedDeps` checks the devices. -/
theorem keyedDeps_checks : OverlayChecksDevices keyedDeps := by
  intro policy c L result hquery hallowed path hpath
  have hq : Query keyedDeps policy (mountOverlayInput c L)
      = .ok (boolResult (L.all
          (fun path => (mapGet (policy.data.devices.getD []) path).isSome))) := rfl
  rw [hq] at hquery
  simp only [Except.ok.injEq] at hquery
  subst hquery
  have hall : (L.all (fun path => (mapGet (policy.data.devices.getD []) path).isSome)) = true :=
    hallowed
  rw [List.all_eq_true] at hall
  have h := hall path hpath
  cases hdev : policy.data.devices with
  | none => simp [hdev, mapGet] at h
  | some devices => simpa [deviceAt, hdev] using h

/-- C13, as amended: on an enforcer fresh from `newRegoPolicyFromInternal`,
after every sequence of calls in which every rule `mount_overlay` allows an
overlay only when each layer path is a key of `devices`, and in which no device
unmount removes a target that is at that moment among the layer paths of a
stored record, every layer path of every record in `containers` is a key of
`devices`. -/
theorem C13_overlays_on_devices (deps : Deps) (securityPolicy : securityPolicyInternal)
    (defaultMounts privilegedMounts : List Mount) (policy : RegoEnforcer)
    (hfresh : newRegoPolicyFromInternal deps securityPolicy defaultMounts privilegedMounts
      = .ok policy)
    (calls : List (Deps × Op))
    (hrule : ∀ call ∈ calls, OverlayChecksDevices call.1)
    (hunmount : unmountsSpareOverlays policy calls = true)
    (c : String) (info : ContainerInfo) (path : String)
    (hrecord : containerAt (run policy calls).1 c = some info)
    (hpath : path ∈ info.layerPaths) :
    (deviceAt (run policy calls).1 path).isSome = true := by
  have hdata := newRegoPolicyFromInternal_data deps securityPolicy defaultMounts
    privilegedMounts policy hfresh
  have hinit : OverlaysOnDevices policy := by
    intro c info hrecord
    simp [containerAt, hdata] at hrecord
  exact run_overlaysOnDevices calls policy hrule hunmount hinit c info hrecord path hpath

/-- C13 as amended, at work: on a fresh enforcer, after the mounts of
`/dev/sda` and `/dev/sdb`, the overlay of `c1` on `/dev/sda` and the unmount of
`/dev/sdb`, the layer path `/dev/sda` of `c1` is a key of `devices`. -/
theorem C13_overlays_on_devices_witness :
    (deviceAt (run freshEnforcer
      [(keyedDeps, Op.deviceMount "/dev/sda" "h1"),
       (keyedDeps, Op.deviceMount "/dev/sdb" "h1"),
       (keyedDeps, Op.overlayMount "c1" ["/dev/sda"]),
       (keyedDeps, Op.deviceUnmount "/dev/sdb")]).1 "/dev/sda").isSome = true :=
  C13_overlays_on_devices (sampleDeps sampleReason) emptyPolicy [] [] freshEnforcer rfl
    [(keyedDeps, Op.deviceMount "/dev/sda" "h1"),
     (keyedDeps, Op.deviceMount "/dev/sdb" "h1"),
     (keyedDeps, Op.overlayMount "c1" ["/dev/sda"]),
     (keyedDeps, Op.deviceUnmount "/dev/sdb")]
    (fun call hcall => by
      simp only [List.mem_cons, List.mem_singleton, List.not_mem_nil, or_false] at hcall
      rcases hcall with h | h | h | h <;> rw [h] <;> exact keyedDeps_checks)
    rfl "c1" { containerID := "c1", layerPaths := ["/dev/sda"] } "/dev/sda" rfl
    (List.mem_singleton.mpr rfl)

/-- C13 as stated fails: on a fresh enforcer, with a rule `mount_overlay` that
allows an overlay only when each layer path is a key of `devices`, the mount of
`/dev/sda`, the overlay of `c1` on `/dev/sda` and the unmount of `/dev/sda` are
all allowed, and afterwards the layer path `/dev/sda` of the record of `c1` is
not a key of `devices`. -/
theorem C13_unmount_under_overlay_counterexample :
    newRegoPolicyFromInternal (sampleDeps sampleReason) emptyPolicy [] [] = .ok freshEnforcer
    ∧ OverlayChecksDevices keyedDeps
    ∧ (run freshEnforcer
        [(keyedDeps, Op.deviceMount "/dev/sda" "h1"),
         (keyedDeps, Op.overlayMount "c1" ["/dev/sda"]),
         (keyedDeps, Op.deviceUnmount "/dev/sda")]).2
        = [(Op.deviceMount "/dev/sda" "h1", Outcome.ok),
           (Op.overlayMount "c1" ["/dev/sda"], Outcome.ok),
           (Op.deviceUnmount "/dev/sda", Outcome.ok)]
    ∧ containerAt (run freshEnforcer
        [(keyedDeps, Op.deviceMount "/dev/sda" "h1"),
         (keyedDeps, Op.overlayMount "c1" ["/dev/sda"]),
         (keyedDeps, Op.deviceUnmount "/dev/sda")]).1 "c1"
        = some { containerID := "c1", layerPaths := ["/dev/sda"] }
    ∧ deviceAt (run freshEnforcer
        [(keyedDeps, Op.deviceMount "/dev/sda" "h1"),
         (keyedDeps, Op.overlayMount "c1" ["/dev/sda"]),
         (keyedDeps, Op.deviceUnmount "/dev/sda")]).1 "/dev/sda" = none :=
  ⟨rfl, keyedDeps_checks, rfl, rfl, rfl⟩

/-! ## The rules of the policy and the devices -/

/-- A message that lacks a character of `part` does not contain `part`. -/
theorem not_contains_of_char (msg part : String) (ch : Char) (hpart : ch ∈ part.data)
    (hmsg : ch ∉ msg.data) : ¬ Contains msg part := by
  rintro ⟨before, after, heq⟩
  apply hmsg
  rw [heq]
  simp only [String.data_append, List.mem_append]
  exact Or.inl (Or.inr hpart)

/-- C19, as amended: a call that the rule `mount_overlay` denies returns an
error whose message contains the JSON rendering of the input that was
evaluated; and so does a call that the rule `create_container` denies, when the
follow-up query for the reasons yields a sequence of strings. -/
theorem C19_denial_carries_input (deps : Deps) (policy : RegoEnforcer) :
    (∀ (c : String) (L : List String) (result : ResultSet),
        Query deps policy (mountOverlayInput c L) = .ok result → deps.allowed result = false →
        (EnforceOverlayMountPolicy deps policy c L).2
          = Outcome.error ("overlay mount not allowed by policy.\ninput: "
              ++ deps.render (mountOverlayInput c L))
        ∧ Contains
            ("overlay mount not allowed by policy.\ninput: "
              ++ deps.render (mountOverlayInput c L))
            (deps.render (mountOverlayInput c L)))
    ∧ (∀ (sandboxID c : String) (argList envList : List String) (workingDir : String)
        (mounts : List Mount) (info : ContainerInfo) (result : ResultSet)
        (reasons : List String) (exprs : List Term) (results : List Result),
        containerAt policy c = some info →
        Query deps policy
          (createContainerInput deps info sandboxID argList envList workingDir mounts)
          = .ok result →
        deps.allowed result = false →
        Query deps policy
          (reasonInput
            (createContainerInput deps info sandboxID argList envList workingDir mounts))
          = .ok ({ Expressions := Term.array (reasons.map Term.string) :: exprs } :: results) →
        (EnforceCreateContainerPolicy deps policy sandboxID c argList envList workingDir
          mounts).2
          = Outcome.error ("container creation not allowed by policy. Reasons: ["
              ++ String.intercalate "," reasons ++ "].\nInput: "
              ++ deps.render
                  (createContainerInput deps info sandboxID argList envList workingDir mounts))
        ∧ Contains
            ("container creation not allowed by policy. Reasons: ["
              ++ String.intercalate "," reasons ++ "].\nInput: "
              ++ deps.render
                  (createContainerInput deps info sandboxID argList envList workingDir mounts))
            (deps.render
              (createContainerInput deps info sandboxID argList envList workingDir
                mounts))) := by
  refine ⟨?_, ?_⟩
  · intro c L result hquery hdenied
    refine ⟨?_, ?_⟩
    · rw [overlayMount_cases]
      simp only [hquery, hdenied, if_true]
    · exact ⟨"overlay mount not allowed by policy.\ninput: ", "", by simp⟩
  · intro sandboxID c argList envList workingDir mounts info result reasons exprs results
      hrecord hquery hdenied hreason
    refine ⟨?_, ?_⟩
    · rw [createContainer_cases]
      simp only [hrecord, hquery, hdenied, hreason, denialOutcome, collectReasons_strings,
        List.nil_append, Bool.false_eq_true, if_false]
    · exact ⟨"container creation not allowed by policy. Reasons: ["
        ++ String.intercalate "," reasons ++ "].\nInput: ", "", by simp⟩

/-- C19 as amended, at work: the overlay of `/dev/sdb`, which the sample rule
denies, returns an error whose message ends with the rendering of the input. -/
theorem C19_denial_carries_input_witness :
    (EnforceOverlayMountPolicy (jsonDeps sampleReason) sampleEnforcer "c1" ["/dev/sdb"]).2
      = Outcome.error
          "overlay mount not allowed by policy.\ninput: \x7b\"name\":\"mount_overlay\"\x7d"
    ∧ Contains
        "overlay mount not allowed by policy.\ninput: \x7b\"name\":\"mount_overlay\"\x7d"
        "\x7b\"name\":\"mount_overlay\"\x7d" :=
  (C19_denial_carries_input (jsonDeps sampleReason) sampleEnforcer).1 "c1" ["/dev/sdb"]
    (boolResult false) rfl rfl

/-- C19 as stated fails: the mount of a hash that the rule `mount_device`
denies returns the message `device mount not allowed by policy`, which does not
contain the rendering of the input; and a creation that the rule
`create_container` denies returns, when the evaluation of the rule `reason`
fails, the error of that evaluation, which does not contain the rendering of
the input either. -/
theorem C19_denial_without_input_counterexample :
    Query (jsonDeps sampleReason) sampleEnforcer (mountDeviceInput "/dev/sda" "h9")
        = .ok (boolResult false)
    ∧ (jsonDeps sampleReason).allowed (boolResult false) = false
    ∧ (EnforceDeviceMountPolicy (jsonDeps sampleReason) sampleEnforcer "/dev/sda" "h9").2
        = Outcome.error "device mount not allowed by policy"
    ∧ ¬ Contains "device mount not allowed by policy"
        ((jsonDeps sampleReason).render (mountDeviceInput "/dev/sda" "h9"))
    ∧ Query (jsonDeps (.error "eval_internal_error")) overlaidEnforcer
        (createContainerInput (jsonDeps (.error "eval_internal_error"))
          { containerID := "c1", layerPaths := ["/dev/sda"] } "sb" ["bash"] [] "/" [])
        = .ok (boolResult false)
    ∧ (EnforceCreateContainerPolicy (jsonDeps (.error "eval_internal_error")) overlaidEnforcer
        "sb" "c1" ["bash"] [] "/" []).2 = Outcome.error "eval_internal_error"
    ∧ ¬ Contains "eval_internal_error"
        ((jsonDeps (.error "eval_internal_error")).render
          (createContainerInput (jsonDeps (.error "eval_internal_error"))
            { containerID := "c1", layerPaths := ["/dev/sda"] } "sb" ["bash"] [] "/" [])) := by
  refine ⟨rfl, rfl, rfl, ?_, rfl, rfl, ?_⟩
  · exact not_contains_of_char _ _ (Char.ofNat 123) (by decide) (by decide)
  · exact not_contains_of_char _ _ (Char.ofNat 123) (by decide) (by decide)

/-! ## The stored policy string -/

/-- No call changes the stored policy string. -/
theorem step_base64policy (deps : Deps) (policy : RegoEnforcer) (op : Op) :
    (step deps policy op).1.base64policy = policy.base64policy := by
  cases op with
  | deviceMount t h =>
    simp only [step]
    rw [deviceMount_cases]
    repeat' split
    all_goals rfl
  | deviceUnmount t =>
    simp only [step]
    rw [deviceUnmount_cases]
    split <;> rfl
  | overlayMount c L =>
    simp only [step]
    rw [overlayMount_cases]
    repeat' split
    all_goals rfl
  | createContainer sandboxID c argList envList workingDir mounts =>
    simp only [step]
    rw [createContainer_cases]
    repeat' split
    all_goals rfl
  | extendDefaultMounts mounts => rfl

/-- No sequence of calls changes the stored policy string. -/
theorem run_base64policy (calls : List (Deps × Op)) :
    ∀ policy : RegoEnforcer, (run policy calls).1.base64policy = policy.base64policy := by
  induction calls with
  | nil => intro policy; rfl
  | cons call rest ih =>
    intro policy
    obtain ⟨deps, op⟩ := call
    rw [run_cons, ih, step_base64policy]

/-- C21: when `createRegoEnforcer` succeeds on a policy state, the method
`EncodedSecurityPolicy` of the enforcer returns the string
`state.EncodedSecurityPolicy.SecurityPolicy`, and it returns the same string
after every sequence of calls. -/
theorem C21_encoded_policy_kept {κ : Type} (deps : Deps)
    (conv : κ → Except String (List securityPolicyContainer)) (state : SecurityPolicyState κ)
    (defaultMounts privilegedMounts : List Mount) (policy : RegoEnforcer)
    (hcreated : createRegoEnforcer deps conv state defaultMounts privilegedMounts = .ok policy) :
    EncodedSecurityPolicy policy = state.EncodedSecurityPolicy.SecurityPolicy
    ∧ (∀ calls : List (Deps × Op),
        EncodedSecurityPolicy (run policy calls).1
          = state.EncodedSecurityPolicy.SecurityPolicy) := by
  have hbase : policy.base64policy = state.EncodedSecurityPolicy.SecurityPolicy := by
    unfold createRegoEnforcer at hcreated
    split at hcreated
    · simp at hcreated
    · split at hcreated
      · simp at hcreated
      · simp only [Except.ok.injEq] at hcreated
        rw [← hcreated]
  refine ⟨hbase, ?_⟩
  intro calls
  simp only [EncodedSecurityPolicy]
  rw [run_base64policy, hbase]

/-- C21 at work: the enforcer built from the sample state returns the base64
text of the state after a device mount and an overlay mount. -/
theorem C21_encoded_policy_kept_witness :
    EncodedSecurityPolicy
      (run { freshEnforcer with base64policy := "eyJhbGxvd19hbGwiOnRydWV9" }
        [(sampleDeps sampleReason, Op.deviceMount "/dev/sda" "h1"),
         (sampleDeps sampleReason, Op.overlayMount "c1" ["/dev/sda"])]).1
      = "eyJhbGxvd19hbGwiOnRydWV9" :=
  (C21_encoded_policy_kept (sampleDeps sampleReason) Except.ok allowAllState [] []
    { freshEnforcer with base64policy := "eyJhbGxvd19hbGwiOnRydWV9" } rfl).2
    [(sampleDeps sampleReason, Op.deviceMount "/dev/sda" "h1"),
     (sampleDeps sampleReason, Op.overlayMount "c1" ["/dev/sda"])]

/-! ## The lowered document -/

/-- The array that `StringArray.MarshalRego` writes. -/
theorem stringArray_text (array : List String) :
    StringArray.MarshalRego array = arrayText (array.map literal) := rfl

/-- The object that `EnvRuleConfig.MarshalRego` writes. -/
theorem envRuleConfig_text (e : EnvRuleConfig) :
    e.MarshalRego = envRuleText e := by
  simp only [EnvRuleConfig.MarshalRego, envRuleText, literal]
  apply String.ext
  simp only [String.data_append, List.append_assoc]
  rfl

/-- The array that `EnvRuleArray.MarshalRego` writes. -/
theorem envRuleArray_text (array : List EnvRuleConfig) :
    EnvRuleArray.MarshalRego array = arrayText (array.map envRuleText) := by
  simp only [EnvRuleArray.MarshalRego, arrayText]
  congr 3
  exact List.map_congr_left (fun e _ => envRuleConfig_text e)

/-- The object that `mountInternal.MarshalRego` writes. -/
theorem mountInternal_text (m : mountInternal) :
    m.MarshalRego = mountText m := by
  simp only [mountInternal.MarshalRego, mountText, literal, stringArray_text]
  apply String.ext
  simp only [String.data_append, List.append_assoc]
  rfl

/-- The object that `writeContainer` appends to the builder. -/
theorem writeContainer_eq (builder : String) (container : securityPolicyContainer) :
    writeContainer builder container Indent = .ok (builder ++ containerText container) := by
  have hmounts : List.map (fun mount => mountInternal.MarshalRego mount) container.Mounts
      = List.map mountText container.Mounts :=
    List.map_congr_left (fun m _ => mountInternal_text m)
  simp only [writeContainer, writeCommand, writeEnvRules, writeLayers, writeMounts, WriteString,
    bind, Except.bind, stringArray_text, envRuleArray_text, hmounts,
    containerText, arrayText, literal, Indent]
  congr 1
  apply String.ext
  simp only [String.data_append, List.append_assoc]
  rfl

/-- The objects that the loop of `addContainers` appends to the builder. -/
theorem addContainersLoop_eq (containers : List securityPolicyContainer) :
    ∀ builder : String,
      addContainersLoop builder containers
        = .ok (builder ++ objectLines (containers.map containerText)) := by
  induction containers with
  | nil => intro builder; simp [addContainersLoop, objectLines]
  | cons container rest ih =>
    intro builder
    cases rest with
    | nil =>
      simp only [addContainersLoop, writeContainer_eq, WriteString, bind, Except.bind,
        List.length_nil, gt_iff_lt, lt_self_iff_false, if_false, List.map_cons, List.map_nil,
        objectLines, String.append_assoc]
    | cons next rest2 =>
      have h := ih (builder ++ containerText container ++ ",\n")
      simp only [addContainersLoop, writeContainer_eq, WriteString, bind, Except.bind,
        List.length_cons, gt_iff_lt, Nat.zero_lt_succ, if_true, List.map_cons] at h ⊢
      rw [h]
      simp only [objectLines, String.append_assoc]

/-- The text that `addContainers` appends to the builder. -/
theorem addContainers_eq (builder : String) (containers : List securityPolicyContainer) :
    addContainers builder containers
      = .ok (builder ++ "containers := [\n" ++ objectLines (containers.map containerText)
          ++ "]\n") := by
  simp only [addContainers, WriteString, bind, Except.bind, addContainersLoop_eq]

/-- C22: for every internal policy, `MarshalRego` returns without error the
document that starts with the package line, the `allow_all` line with the flag
of the policy and the line that opens the list of containers, goes on with the
container objects, each followed by a comma and a newline except the last one,
which is followed by a newline, and ends with the line that closes the list.
A container object is a line with the opening brace and a last line with the
closing brace, indented by four spaces, around the six field lines `command`,
`env_rules`, `layers`, `mounts`, `allow_elevated` and `working_dir`, in this
order, indented by eight spaces.  The document is a function of the policy
alone. -/
theorem C22_lowered_document (p : securityPolicyInternal) :
    p.MarshalRego = .ok (documentText p)
    ∧ documentText p
        = "package policy\nallow_all := " ++ fmtBool p.AllowAll ++ "\ncontainers := [\n"
            ++ objectLines (p.Containers.map containerText) ++ "]\n"
    ∧ (∀ container : securityPolicyContainer,
        containerText container
          = "    \x7b\n"
            ++ "        \"command\": " ++ StringArray.MarshalRego container.Command ++ ",\n"
            ++ "        \"env_rules\": " ++ EnvRuleArray.MarshalRego container.EnvRules ++ ",\n"
            ++ "        \"layers\": " ++ StringArray.MarshalRego container.Layers ++ ",\n"
            ++ "        \"mounts\": " ++ arrayText (container.Mounts.map mountText) ++ ",\n"
            ++ "        \"allow_elevated\": " ++ fmtBool container.AllowElevated ++ ",\n"
            ++ "        \"working_dir\": " ++ literal container.WorkingDir ++ "\n"
            ++ "    \x7d")
    ∧ objectLines [] = ""
    ∧ (∀ object : String, objectLines [object] = object ++ "\n")
    ∧ (∀ (object next : String) (rest : List String),
        objectLines (object :: next :: rest)
          = object ++ ",\n" ++ objectLines (next :: rest)) := by
  refine ⟨?_, rfl, ?_, rfl, fun _ => rfl, fun _ _ _ => rfl⟩
  · simp only [securityPolicyInternal.MarshalRego, WriteString, bind, Except.bind,
      addContainers_eq, documentText]
    congr 1
    apply String.ext
    simp only [String.data_append, List.append_assoc]
    rfl
  · intro container
    simp only [containerText, stringArray_text, envRuleArray_text]

/-! ## String literals -/

/-- The characters of the literal that the lowering emits. -/
theorem literal_data (s : String) :
    (literal s).data = quoteChar :: (s.data ++ [quoteChar]) := by
  simp only [literal, String.data_append, List.append_assoc]
  rfl

/-- Plain characters followed by the closing quote denote themselves. -/
theorem decodeBody_plain :
    ∀ (body acc : List Char),
      (∀ c ∈ body, c ≠ quoteChar ∧ c ≠ backslashChar ∧ 32 ≤ c.toNat) →
      decodeBody (body ++ [quoteChar]) acc = some (acc ++ body)
  | [], acc, _ => by simp [decodeBody]
  | c :: body, acc, hplain => by
    obtain ⟨hq, hb, hctl⟩ := hplain c (List.mem_cons_self _ _)
    have hrest := decodeBody_plain body (acc ++ [c])
      (fun d hd => hplain d (List.mem_cons_of_mem _ hd))
    rw [List.cons_append, decodeBody.eq_def]
    simp only [hq, hb, if_false, Nat.not_lt.mpr hctl]
    rw [hrest]
    simp

/-- C24, as amended: for every string without double quote, backslash and
control character, the literal that the lowering emits, the string between two
double quotes, is a well-formed literal of the string grammar and denotes the
string; and `StringArray.MarshalRego` of the one string is that literal between
square brackets. -/
theorem C24_plain_strings_decode (s : String) (hplain : plainString s) :
    decodeLiteral (literal s) = some s
    ∧ StringArray.MarshalRego [s] = "[" ++ literal s ++ "]" := by
  refine ⟨?_, rfl⟩
  simp only [decodeLiteral, literal_data, if_true]
  rw [decodeBody_plain s.data [] hplain]
  rfl

/-- C24 as amended, at work: the literal emitted for the layer hash `h1`
denotes `h1`. -/
theorem C24_plain_strings_decode_witness :
    decodeLiteral (literal "h1") = some "h1"
    ∧ StringArray.MarshalRego ["h1"] = "[" ++ literal "h1" ++ "]" :=
  C24_plain_strings_decode "h1" (by unfold plainString; decide)

/-- C24 as stated fails: the lowering emits a string between two double
quotes without escaping anything.  For the string `a"b` and for the string that
ends with a backslash the emitted text is not a well-formed literal; for the
string of `a`, backslash, `n`, `b` the emitted text denotes another string, in
which a newline stands for the backslash and the `n`; and the one string
`a","b` is emitted as the array of the two strings `a` and `b`. -/
theorem C24_unescaped_strings_counterexample :
    StringArray.MarshalRego ["a\"b"] = "[\"a\"b\"]"
    ∧ decodeLiteral (literal "a\"b") = none
    ∧ decodeLiteral (literal "a\\") = none
    ∧ decodeLiteral (literal "a\\nb") = some "a\nb"
    ∧ "a\nb" ≠ "a\\nb"
    ∧ StringArray.MarshalRego ["a\",\"b"] = StringArray.MarshalRego ["a", "b"] := by
  refine ⟨by decide, by decide, by decide, by decide, by decide, by decide⟩

/-! ## The elements of the emitted arrays -/

/-- The reader passes the plain characters of an open string literal. -/
theorem splitTop_inString :
    ∀ (body : List Char) (depth : Nat) (current rest : List Char),
      (∀ c ∈ body, c ≠ quoteChar ∧ c ≠ backslashChar ∧ 32 ≤ c.toNat) →
      splitTop { depth := depth, inString := true, escaped := false } current (body ++ rest)
        = splitTop { depth := depth, inString := true, escaped := false } (current ++ body) rest
  | [], depth, current, rest, _ => by simp
  | c :: body, depth, current, rest, hplain => by
    obtain ⟨hq, hb, hctl⟩ := hplain c (List.mem_cons_self _ _)
    have hrest := splitTop_inString body depth (current ++ [c]) rest
      (fun d hd => hplain d (List.mem_cons_of_mem _ hd))
    rw [List.cons_append, splitTop]
    simp [Lexer.step, hq, hb, Nat.not_lt.mpr hctl, hrest]

/-- The reader passes the literal of a plain string. -/
theorem transparent_literal (s : String) (hplain : plainString s) :
    Transparent (literal s).data := by
  intro depth current rest
  rw [literal_data]
  have hopen : ∀ (tail : List Char),
      splitTop { depth := depth, inString := false, escaped := false } current
          (quoteChar :: tail)
        = splitTop { depth := depth, inString := true, escaped := false }
            (current ++ [quoteChar]) tail := by
    intro tail
    rw [splitTop]
    have hcomma : ¬ quoteChar = ',' := by decide
    simp [Lexer.step, hcomma]
  have hclose : ∀ (before tail : List Char),
      splitTop { depth := depth, inString := true, escaped := false } before
          (quoteChar :: tail)
        = splitTop { depth := depth, inString := false, escaped := false }
            (before ++ [quoteChar]) tail := by
    intro before tail
    rw [splitTop]
    have hback : ¬ quoteChar = backslashChar := by decide
    simp [Lexer.step, hback]
  rw [List.cons_append, hopen, List.append_assoc, splitTop_inString s.data depth _ _ hplain,
    List.singleton_append, hclose]
  simp

/-- The reader passes a text without double quote, bracket, brace and
comma. -/
theorem transparent_ordinary :
    ∀ (text : List Char),
      (∀ c ∈ text, c ≠ quoteChar ∧ c ≠ '[' ∧ c ≠ ']' ∧ c ≠ openBrace ∧ c ≠ closeBrace
        ∧ c ≠ ',') →
      Transparent text
  | [], _ => by intro depth current rest; simp
  | c :: text, h => by
    intro depth current rest
    obtain ⟨hq, h1, h2, h3, h4, h5⟩ := h c (List.mem_cons_self _ _)
    have hrest := transparent_ordinary text (fun d hd => h d (List.mem_cons_of_mem _ hd))
      depth (current ++ [c]) rest
    rw [List.cons_append, splitTop]
    simp [Lexer.step, hq, h1, h2, h3, h4, h5, hrest]

/-- Inside a bracket or a brace the reader passes a text without double quote,
bracket and brace. -/
theorem nested_ordinary :
    ∀ (text : List Char),
      (∀ c ∈ text, c ≠ quoteChar ∧ c ≠ '[' ∧ c ≠ ']' ∧ c ≠ openBrace ∧ c ≠ closeBrace) →
      Nested text
  | [], _ => by intro depth current rest; simp
  | c :: text, h => by
    intro depth current rest
    obtain ⟨hq, h1, h2, h3, h4⟩ := h c (List.mem_cons_self _ _)
    have hrest := nested_ordinary text (fun d hd => h d (List.mem_cons_of_mem _ hd))
      depth (current ++ [c]) rest
    rw [List.cons_append, splitTop]
    simp [Lexer.step, hq, h1, h2, h3, h4, hrest]

/-- Two texts that the reader passes, one after the other. -/
theorem transparent_append (a b : List Char) (ha : Transparent a) (hb : Transparent b) :
    Transparent (a ++ b) := by
  intro depth current rest
  rw [List.append_assoc, ha, hb, List.append_assoc]

/-- Two texts that the reader passes inside a bracket, one after the other. -/
theorem nested_append (a b : List Char) (ha : Nested a) (hb : Nested b) :
    Nested (a ++ b) := by
  intro depth current rest
  rw [List.append_assoc, ha, hb, List.append_assoc]

/-- A text that the reader passes is passed inside a bracket too. -/
theorem nested_of_transparent (a : List Char) (ha : Transparent a) : Nested a :=
  fun depth current rest => ha (depth + 1) current rest

/-- The reader passes a text in square brackets. -/
theorem transparent_square (text : List Char) (h : Nested text) :
    Transparent ('[' :: (text ++ [']'])) := by
  intro depth current rest
  rw [List.cons_append, splitTop]
  have h1 : ¬ '[' = ',' := by decide
  have h2 : ¬ '[' = quoteChar := by decide
  simp only [h1, and_false, if_false, Lexer.step, Bool.false_eq_true, h2, true_or, if_true]
  rw [List.append_assoc, h depth, List.singleton_append, splitTop]
  have h3 : ¬ ']' = ',' := by decide
  have h4 : ¬ ']' = quoteChar := by decide
  have h5 : ¬ ']' = '[' := by decide
  have h6 : ¬ ']' = openBrace := by decide
  simp [Lexer.step, h3, h4, h5, h6]

/-- The reader passes a text in braces. -/
theorem transparent_curly (text : List Char) (h : Nested text) :
    Transparent (openBrace :: (text ++ [closeBrace])) := by
  intro depth current rest
  rw [List.cons_append, splitTop]
  have h1 : ¬ openBrace = ',' := by decide
  have h2 : ¬ openBrace = quoteChar := by decide
  simp only [h1, and_false, if_false, Lexer.step, Bool.false_eq_true, h2, or_true, if_true]
  rw [List.append_assoc, h depth, List.singleton_append, splitTop]
  have h3 : ¬ closeBrace = ',' := by decide
  have h4 : ¬ closeBrace = quoteChar := by decide
  have h5 : ¬ closeBrace = '[' := by decide
  have h6 : ¬ closeBrace = openBrace := by decide
  simp [Lexer.step, h3, h4, h5, h6]

/-- The strings that `String.intercalate` joins: the first one, the separator
and the rest joined. -/
theorem intercalate_cons_cons (sep a b : String) (rest : List String) :
    String.intercalate sep (a :: b :: rest) = a ++ sep ++ String.intercalate sep (b :: rest) := by
  simp only [String.intercalate, intercalate_go_eq, List.foldr_cons, String.append_assoc]

/-- Inside a bracket the reader passes texts it passes, joined by commas. -/
theorem nested_intercalate :
    ∀ (elements : List String), (∀ e ∈ elements, Transparent e.data) →
      Nested (String.intercalate "," elements).data
  | [], _ => by intro depth current rest; simp [String.intercalate]
  | [a], h => by
    have ha := h a (List.mem_cons_self _ _)
    exact nested_of_transparent _ ha
  | a :: b :: rest, h => by
    have ha := h a (List.mem_cons_self _ _)
    have hrest := nested_intercalate (b :: rest) (fun e he => h e (List.mem_cons_of_mem _ he))
    rw [intercalate_cons_cons]
    simp only [String.data_append]
    refine nested_append _ _ (nested_append _ _ (nested_of_transparent _ ha) ?_) hrest
    exact nested_ordinary _ (by decide)

/-- The reader passes the elements of an array in their brackets. -/
theorem transparent_arrayText (elements : List String)
    (h : ∀ e ∈ elements, Transparent e.data) : Transparent (arrayText elements).data := by
  have hdata : (arrayText elements).data
      = '[' :: ((String.intercalate "," elements).data ++ [']']) := by
    simp only [arrayText, String.data_append]
    rfl
  rw [hdata]
  exact transparent_square _ (nested_intercalate elements h)

/-- The reader splits texts it passes, joined by commas, into these texts. -/
theorem splitTop_intercalate :
    ∀ (a : String) (rest : List String) (current : List Char),
      (∀ e ∈ a :: rest, Transparent e.data) →
      splitTop { depth := 0, inString := false, escaped := false } current
          (String.intercalate "," (a :: rest)).data
        = some ((current ++ a.data) :: rest.map (fun e => e.data))
  | a, [], current, h => by
    have ha := h a (List.mem_cons_self _ _) 0 current []
    simp only [List.append_nil] at ha
    have hone : String.intercalate "," [a] = a := by
      simp [String.intercalate, String.intercalate.go]
    rw [hone, ha]
    simp [splitTop]
  | a, b :: rest, current, h => by
    have ha := h a (List.mem_cons_self _ _) 0 current
    have hrest := splitTop_intercalate b rest []
      (fun e he => h e (List.mem_cons_of_mem _ he))
    rw [intercalate_cons_cons]
    simp only [String.data_append, List.append_assoc]
    rw [ha]
    have hcomma : (",".data ++ (String.intercalate "," (b :: rest)).data)
        = ',' :: (String.intercalate "," (b :: rest)).data := rfl
    rw [hcomma, splitTop]
    simp [hrest]

/-- White space in front of a text that starts otherwise is dropped. -/
theorem dropWhile_spaces :
    ∀ (spaces text : List Char), (∀ c ∈ spaces, isSpace c = true) →
      text.head?.map isSpace = some false →
      (spaces ++ text).dropWhile isSpace = text
  | [], text, _, htext => by
    cases text with
    | nil => simp at htext
    | cons c rest =>
      simp only [List.head?_cons, Option.map_some', Option.some.injEq] at htext
      simp [List.dropWhile, htext]
  | s :: spaces, text, hspaces, htext => by
    have hs := hspaces s (List.mem_cons_self _ _)
    simp only [List.cons_append, List.dropWhile, hs]
    exact dropWhile_spaces spaces text (fun c hc => hspaces c (List.mem_cons_of_mem _ hc)) htext

/-- The white space around a trimmed text is what `trimSpace` removes. -/
theorem trimSpace_around (before text after : List Char)
    (hbefore : ∀ c ∈ before, isSpace c = true) (hafter : ∀ c ∈ after, isSpace c = true)
    (htext : Trimmed text) : trimSpace (before ++ text ++ after) = text := by
  obtain ⟨hhead, hlast⟩ := htext
  have hne : text ≠ [] := by
    intro h
    rw [h] at hhead
    simp at hhead
  unfold trimSpace
  rw [List.append_assoc, dropWhile_spaces before (text ++ after) hbefore
    (by rw [List.head?_append_of_ne_nil _ hne]; exact hhead)]
  rw [List.reverse_append, dropWhile_spaces after.reverse text.reverse
    (fun c hc => hafter c (List.mem_reverse.mp hc))
    (by rw [List.head?_reverse]; exact hlast)]
  exact List.reverse_reverse _

/-- The reader finds the elements of an emitted array: texts that it passes,
without white space around them. -/
theorem arrayElements_arrayText (elements : List String)
    (hpass : ∀ e ∈ elements, Transparent e.data) (htrim : ∀ e ∈ elements, Trimmed e.data) :
    arrayElements (arrayText elements) = some elements := by
  have hdata : (arrayText elements).data
      = '[' :: ((String.intercalate "," elements).data ++ [']']) := by
    simp only [arrayText, String.data_append]
    rfl
  have hlast : ((String.intercalate "," elements).data ++ [']']).getLast? = some ']' := by
    simp
  unfold arrayElements
  rw [hdata]
  simp only [hlast, and_self, if_true, List.dropLast_concat]
  cases elements with
  | nil => simp [String.intercalate]
  | cons a rest =>
    have hsplit := splitTop_intercalate a rest [] hpass
    rw [hsplit]
    have hfirst : (String.intercalate "," (a :: rest)).data.all isSpace = false := by
      obtain ⟨hhead, -⟩ := htrim a (List.mem_cons_self _ _)
      cases hadata : a.data with
      | nil => rw [hadata] at hhead; simp at hhead
      | cons c tail =>
        rw [hadata] at hhead
        simp only [List.head?_cons, Option.map_some', Option.some.injEq] at hhead
        cases rest with
        | nil =>
          have hone : String.intercalate "," [a] = a := by
            simp [String.intercalate, String.intercalate.go]
          rw [hone, hadata]
          simp [hhead]
        | cons b rest2 =>
          rw [intercalate_cons_cons]
          simp only [String.data_append, hadata, List.cons_append, List.all_cons, hhead,
            Bool.false_and]
    rw [hfirst]
    simp only [Bool.false_eq_true, if_false, Option.map_some', List.nil_append, List.map_cons,
      List.map_map, Option.some.injEq]
    have htrimmed : ∀ e ∈ a :: rest, String.mk (trimSpace e.data) = e := by
      intro e he
      have := trimSpace_around [] e.data [] (by simp) (by simp) (htrim e he)
      simp only [List.nil_append, List.append_nil] at this
      rw [this]
    rw [htrimmed a (List.mem_cons_self _ _)]
    congr 1
    have hrest : ∀ e ∈ rest, ((fun part => String.mk (trimSpace part)) ∘ fun e => e.data) e
        = id e := fun e he => htrimmed e (List.mem_cons_of_mem _ he)
    rw [List.map_congr_left hrest, List.map_id]

/-- Inside a bracket the reader passes two strings it passes there, one after
the other. -/
theorem nested_string_append (a b : String) (ha : Nested a.data) (hb : Nested b.data) :
    Nested (a ++ b).data := by
  rw [String.data_append]
  exact nested_append _ _ ha hb

/-- Inside a bracket the reader passes the literal of a plain string. -/
theorem nested_literal (s : String) (hplain : plainString s) : Nested (literal s).data :=
  nested_of_transparent _ (transparent_literal s hplain)

/-- Inside a brace the reader passes the start of a field: the text in front
of the key, the key and the colon. -/
theorem nested_key (lead key : String)
    (hlead : ∀ c ∈ lead.data,
      c ≠ quoteChar ∧ c ≠ '[' ∧ c ≠ ']' ∧ c ≠ openBrace ∧ c ≠ closeBrace)
    (hkey : plainString key) : Nested (lead ++ literal key ++ ": ").data :=
  nested_string_append _ _
    (nested_string_append _ _ (nested_ordinary _ hlead) (nested_literal key hkey))
    (nested_ordinary _ (by decide))

/-- The reader passes an object: a text it passes inside a brace, in
braces. -/
theorem transparent_object (inner : String) (h : Nested inner.data) :
    Transparent ("\x7b" ++ inner ++ "\x7d").data := by
  have hdata : ("\x7b" ++ inner ++ "\x7d").data = openBrace :: (inner.data ++ [closeBrace]) := by
    simp only [String.data_append, List.append_assoc]
    rfl
  rw [hdata]
  exact transparent_curly _ h

/-- An object has no white space around it. -/
theorem trimmed_object (inner : String) : Trimmed ("\x7b" ++ inner ++ "\x7d").data := by
  have hdata : ("\x7b" ++ inner ++ "\x7d").data = openBrace :: (inner.data ++ [closeBrace]) := by
    simp only [String.data_append, List.append_assoc]
    rfl
  rw [hdata]
  refine ⟨by simp only [List.head?_cons, Option.map_some']; rfl, ?_⟩
  have hlast : (openBrace :: (inner.data ++ [closeBrace])).getLast? = some closeBrace := by
    have hshape : openBrace :: (inner.data ++ [closeBrace])
        = (openBrace :: inner.data) ++ [closeBrace] := rfl
    rw [hshape, List.getLast?_concat]
  rw [hlast]
  rfl

/-- A literal has no white space around it. -/
theorem trimmed_literal (s : String) : Trimmed (literal s).data := by
  rw [literal_data]
  refine ⟨by simp only [List.head?_cons, Option.map_some']; rfl, ?_⟩
  have hlast : (quoteChar :: (s.data ++ [quoteChar])).getLast? = some quoteChar := by
    have hshape : quoteChar :: (s.data ++ [quoteChar]) = (quoteChar :: s.data) ++ [quoteChar] :=
      rfl
    rw [hshape, List.getLast?_concat]
  rw [hlast]
  rfl

/-- The reader passes the array of the literals of plain strings. -/
theorem transparent_literals (strings : List String) (hplain : ∀ s ∈ strings, plainString s) :
    Transparent (arrayText (strings.map literal)).data := by
  apply transparent_arrayText
  intro e he
  obtain ⟨s, hs, hse⟩ := List.mem_map.mp he
  rw [← hse]
  exact transparent_literal s (hplain s hs)

/-- The elements of the array of the literals of plain strings. -/
theorem arrayElements_literals (strings : List String)
    (hplain : ∀ s ∈ strings, plainString s) :
    arrayElements (arrayText (strings.map literal)) = some (strings.map literal) := by
  apply arrayElements_arrayText
  · intro e he
    obtain ⟨s, hs, hse⟩ := List.mem_map.mp he
    rw [← hse]
    exact transparent_literal s (hplain s hs)
  · intro e he
    obtain ⟨s, _, hse⟩ := List.mem_map.mp he
    rw [← hse]
    exact trimmed_literal s

/-- The object of an environment rule, as an object around its fields. -/
theorem envRuleText_object (e : EnvRuleConfig) :
    envRuleText e
      = "\x7b" ++ (("" ++ literal "pattern" ++ ": ") ++ literal e.Rule
          ++ (", " ++ literal "strategy" ++ ": ") ++ literal e.Strategy) ++ "\x7d" := by
  apply String.ext
  simp only [envRuleText, literal, String.data_append, List.append_assoc]
  rfl

/-- The reader passes the object of an environment rule with plain strings. -/
theorem transparent_envRuleText (e : EnvRuleConfig) (hrule : plainString e.Rule)
    (hstrategy : plainString e.Strategy) : Transparent (envRuleText e).data := by
  rw [envRuleText_object]
  apply transparent_object
  exact nested_string_append _ _
    (nested_string_append _ _
      (nested_string_append _ _
        (nested_key _ _ (by decide) (by unfold plainString; decide))
        (nested_literal _ hrule))
      (nested_key _ _ (by decide) (by unfold plainString; decide)))
    (nested_literal _ hstrategy)

/-- The object of a mount, as an object around its fields. -/
theorem mountText_object (m : mountInternal) :
    mountText m
      = "\x7b" ++ (("" ++ literal "destination" ++ ": ") ++ literal m.Destination
          ++ (", " ++ literal "options" ++ ": ") ++ arrayText (m.Options.map literal)
          ++ (", " ++ literal "source" ++ ": ") ++ literal m.Source
          ++ (", " ++ literal "type" ++ ": ") ++ literal m.Type_) ++ "\x7d" := by
  apply String.ext
  simp only [mountText, literal, String.data_append, List.append_assoc]
  rfl

/-- The reader passes the object of a mount with plain strings. -/
theorem transparent_mountText (m : mountInternal) (hplain : plainMount m) :
    Transparent (mountText m).data := by
  obtain ⟨hsource, hdestination, htype, hoptions⟩ := hplain
  rw [mountText_object]
  apply transparent_object
  exact nested_string_append _ _
    (nested_string_append _ _
      (nested_string_append _ _
        (nested_string_append _ _
          (nested_string_append _ _
            (nested_string_append _ _
              (nested_string_append _ _
                (nested_key _ _ (by decide) (by unfold plainString; decide))
                (nested_literal _ hdestination))
              (nested_key _ _ (by decide) (by unfold plainString; decide)))
            (nested_of_transparent _ (transparent_literals _ hoptions)))
          (nested_key _ _ (by decide) (by unfold plainString; decide)))
        (nested_literal _ hsource))
      (nested_key _ _ (by decide) (by unfold plainString; decide)))
    (nested_literal _ htype)

/-- The object of a container, as an object around its fields. -/
theorem containerObject_object (container : securityPolicyContainer) :
    containerObject container
      = "\x7b" ++ (("\n        " ++ literal "command" ++ ": ")
          ++ arrayText (container.Command.map literal)
          ++ (",\n        " ++ literal "env_rules" ++ ": ")
          ++ arrayText (container.EnvRules.map envRuleText)
          ++ (",\n        " ++ literal "layers" ++ ": ")
          ++ arrayText (container.Layers.map literal)
          ++ (",\n        " ++ literal "mounts" ++ ": ")
          ++ arrayText (container.Mounts.map mountText)
          ++ (",\n        " ++ literal "allow_elevated" ++ ": ")
          ++ fmtBool container.AllowElevated
          ++ (",\n        " ++ literal "working_dir" ++ ": ")
          ++ literal container.WorkingDir
          ++ "\n    ") ++ "\x7d" := by
  apply String.ext
  simp only [containerObject, literal, String.data_append, List.append_assoc]
  rfl

/-- The reader passes the object of a container with plain strings. -/
theorem transparent_containerObject (container : securityPolicyContainer)
    (hplain : plainContainer container) : Transparent (containerObject container).data := by
  obtain ⟨hcommand, henv, hlayers, hdir, hmounts⟩ := hplain
  have hrules : Transparent (arrayText (container.EnvRules.map envRuleText)).data := by
    apply transparent_arrayText
    intro t ht
    obtain ⟨e, he, het⟩ := List.mem_map.mp ht
    rw [← het]
    exact transparent_envRuleText e (henv e he).1 (henv e he).2
  have hmountsArray : Transparent (arrayText (container.Mounts.map mountText)).data := by
    apply transparent_arrayText
    intro t ht
    obtain ⟨m, hm, hmt⟩ := List.mem_map.mp ht
    rw [← hmt]
    exact transparent_mountText m (hmounts m hm)
  have hbool : Nested (fmtBool container.AllowElevated).data := by
    cases container.AllowElevated
    · exact nested_ordinary _ (by decide)
    · exact nested_ordinary _ (by decide)
  rw [containerObject_object]
  apply transparent_object
  exact nested_string_append _ _
    (nested_string_append _ _
      (nested_string_append _ _
        (nested_string_append _ _
          (nested_string_append _ _
            (nested_string_append _ _
              (nested_string_append _ _
                (nested_string_append _ _
                  (nested_string_append _ _
                    (nested_string_append _ _
                      (nested_string_append _ _
                        (nested_string_append _ _
                          (nested_key _ _ (by decide) (by unfold plainString; decide))
                          (nested_of_transparent _ (transparent_literals _ hcommand)))
                        (nested_key _ _ (by decide) (by unfold plainString; decide)))
                      (nested_of_transparent _ hrules))
                    (nested_key _ _ (by decide) (by unfold plainString; decide)))
                  (nested_of_transparent _ (transparent_literals _ hlayers)))
                (nested_key _ _ (by decide) (by unfold plainString; decide)))
              (nested_of_transparent _ hmountsArray))
            (nested_key _ _ (by decide) (by unfold plainString; decide)))
          hbool)
        (nested_key _ _ (by decide) (by unfold plainString; decide)))
      (nested_literal _ hdir))
    (nested_ordinary _ (by decide))

/-- The text that `writeContainer` writes at the indentation of the document:
the indentation and the object of the container. -/
theorem containerText_indent (container : securityPolicyContainer) :
    containerText container = "    " ++ containerObject container := by
  apply String.ext
  simp only [containerText, containerObject, String.data_append, List.append_assoc]
  rfl

/-- The reader splits the lines of the containers into the objects of the
containers. -/
theorem splitTop_objectLines :
    ∀ (rest : List securityPolicyContainer) (container : securityPolicyContainer)
      (current : List Char),
      (∀ c ∈ current, isSpace c = true) →
      (∀ k ∈ container :: rest, plainContainer k) →
      (splitTop { depth := 0, inString := false, escaped := false } current
          (objectLines ((container :: rest).map containerText)).data).map
        (fun parts => parts.map (fun part => String.mk (trimSpace part)))
        = some ((container :: rest).map containerObject)
  | [], container, current, hcurrent, hplain => by
    have hpass := transparent_containerObject container
      (hplain container (List.mem_cons_self _ _))
    have hindent : Transparent "    ".data := transparent_ordinary _ (by decide)
    have hnewline : Transparent "\n".data := transparent_ordinary _ (by decide)
    have hline := transparent_append _ _ (transparent_append _ _ hindent hpass) hnewline
      0 current []
    simp only [List.append_nil] at hline
    have hdata : (objectLines ([container].map containerText)).data
        = "    ".data ++ (containerObject container).data ++ "\n".data := by
      simp only [List.map_cons, List.map_nil, objectLines, containerText_indent,
        String.data_append]
    rw [hdata, hline]
    simp only [splitTop, and_self, if_true, Option.map_some', List.map_cons, List.map_nil,
      Option.some.injEq, List.cons.injEq, and_true]
    have htrim := trimSpace_around (current ++ "    ".data) (containerObject container).data
      "\n".data
      (by
        intro c hc
        rcases List.mem_append.mp hc with h | h
        · exact hcurrent c h
        · have hspaces : ∀ x ∈ "    ".data, isSpace x = true := by decide
          exact hspaces c h)
      (by decide)
      (by rw [containerObject_object]; exact trimmed_object _)
    have hshape : current ++ ("    ".data ++ (containerObject container).data ++ "\n".data)
        = current ++ "    ".data ++ (containerObject container).data ++ "\n".data := by
      simp only [List.append_assoc]
    rw [hshape, htrim]
  | next :: rest, container, current, hcurrent, hplain => by
    have hpass := transparent_containerObject container
      (hplain container (List.mem_cons_self _ _))
    have hindent : Transparent "    ".data := transparent_ordinary _ (by decide)
    have hnewline : Transparent "\n".data := transparent_ordinary _ (by decide)
    have hrest := splitTop_objectLines rest next "\n".data (by decide)
      (fun k hk => hplain k (List.mem_cons_of_mem _ hk))
    have hdata : (objectLines ((container :: next :: rest).map containerText)).data
        = ("    ".data ++ (containerObject container).data)
          ++ (',' :: ("\n".data ++ (objectLines ((next :: rest).map containerText)).data)) := by
      simp only [List.map_cons, objectLines, containerText_indent, String.data_append,
        List.append_assoc]
      rfl
    rw [hdata, transparent_append _ _ hindent hpass 0 current, splitTop]
    simp only [and_self, if_true]
    have hstep := hnewline 0 [] (objectLines ((next :: rest).map containerText)).data
    rw [hstep, List.nil_append]
    have htrim := trimSpace_around (current ++ "    ".data) (containerObject container).data []
      (by
        intro c hc
        rcases List.mem_append.mp hc with h | h
        · exact hcurrent c h
        · have hspaces : ∀ x ∈ "    ".data, isSpace x = true := by decide
          exact hspaces c h)
      (by decide)
      (by rw [containerObject_object]; exact trimmed_object _)
    simp only [List.append_nil] at htrim
    cases hsplit : splitTop { depth := 0, inString := false, escaped := false } "\n".data
        (objectLines ((next :: rest).map containerText)).data with
    | none =>
      rw [hsplit] at hrest
      simp at hrest
    | some parts =>
      rw [hsplit] at hrest
      simp only [Option.map_some', Option.some.injEq] at hrest
      simp only [Option.map_some', List.map_cons, Option.some.injEq]
      have hshape : current ++ ("    ".data ++ (containerObject container).data)
          = current ++ "    ".data ++ (containerObject container).data := by
        simp only [List.append_assoc]
      rw [hshape, htrim, hrest]
      rfl

/-- An object holds its opening brace. -/
theorem object_brace (inner : String) : openBrace ∈ ("\x7b" ++ inner ++ "\x7d").data := by
  have hbrace : openBrace ∈ "\x7b".data := by decide
  simp only [String.data_append, List.mem_append]
  exact Or.inl (Or.inl hbrace)

/-- The lines of objects start with the first object. -/
theorem objectLines_head (object : String) (rest : List String) :
    ∃ after : String, objectLines (object :: rest) = object ++ after := by
  cases rest with
  | nil => exact ⟨"\n", rfl⟩
  | cons next rest2 =>
    exact ⟨",\n" ++ objectLines (next :: rest2), by
      simp only [objectLines, String.append_assoc]⟩

/-- The reader finds the objects of the containers in the array of the
document. -/
theorem arrayElements_containers (containers : List securityPolicyContainer)
    (hplain : ∀ k ∈ containers, plainContainer k) :
    arrayElements (containersArray containers) = some (containers.map containerObject) := by
  cases containers with
  | nil => decide
  | cons container rest =>
    have hsplit := splitTop_objectLines rest container "\n".data (by decide) hplain
    have hdata : (containersArray (container :: rest)).data
        = '[' :: (('\n' :: (objectLines ((container :: rest).map containerText)).data)
            ++ [']']) := by
      simp only [containersArray, String.data_append, List.append_assoc]
      rfl
    have hlast : (('\n' :: (objectLines ((container :: rest).map containerText)).data)
        ++ [']']).getLast? = some ']' :=
      List.getLast?_concat ('\n' :: (objectLines ((container :: rest).map containerText)).data)
    have hfirst : ('\n' :: (objectLines ((container :: rest).map containerText)).data).all
        isSpace = false := by
      have hobject : openBrace ∈ (containerObject container).data := by
        rw [containerObject_object]
        exact object_brace _
      have htext : openBrace ∈ (containerText container).data := by
        rw [containerText_indent, String.data_append]
        exact List.mem_append_right _ hobject
      have hmem : openBrace ∈ (objectLines ((container :: rest).map containerText)).data := by
        obtain ⟨after, hafter⟩ := objectLines_head (containerText container)
          (rest.map containerText)
        rw [List.map_cons, hafter, String.data_append]
        exact List.mem_append_left _ htext
      rw [List.all_eq_false]
      exact ⟨openBrace, List.mem_cons_of_mem _ hmem, by decide⟩
    have hstep : splitTop { depth := 0, inString := false, escaped := false } []
        ('\n' :: (objectLines ((container :: rest).map containerText)).data)
        = splitTop { depth := 0, inString := false, escaped := false } "\n".data
            (objectLines ((container :: rest).map containerText)).data := by
      have hnewline : Transparent "\n".data := transparent_ordinary _ (by decide)
      exact hnewline 0 [] _
    unfold arrayElements
    rw [hdata]
    simp only [hlast, and_self, if_true, List.dropLast_concat, hfirst, Bool.false_eq_true,
      if_false, hstep]
    exact hsplit

/-- C23, as amended: for every container rule whose strings are plain, the
arrays that the lowering emits, read as array literals of the rule language,
hold exactly the renderings of their source elements, in the order of the
source and as many: the literals of the command arguments and of the layer
hashes, the objects of the environment rules, the objects of the mounts, the
literals of the options of each mount; and for every policy whose containers
have plain strings, the array of the containers in the document holds the
objects of the containers.  The literal of each command argument and layer hash
denotes that string. -/
theorem C23_arrays_mirror_source (container : securityPolicyContainer)
    (containers : List securityPolicyContainer) (builder indent : String) (allowAll : Bool)
    (hplain : plainContainer container) (hall : ∀ k ∈ containers, plainContainer k) :
    arrayElements (StringArray.MarshalRego container.Command)
        = some (container.Command.map literal)
    ∧ arrayElements (StringArray.MarshalRego container.Layers)
        = some (container.Layers.map literal)
    ∧ arrayElements (EnvRuleArray.MarshalRego container.EnvRules)
        = some (container.EnvRules.map EnvRuleConfig.MarshalRego)
    ∧ writeMounts builder container.Mounts indent
        = .ok (builder ++ (indent ++ "\"mounts\": "
            ++ arrayText (container.Mounts.map mountInternal.MarshalRego) ++ ",\n"))
    ∧ arrayElements (arrayText (container.Mounts.map mountInternal.MarshalRego))
        = some (container.Mounts.map mountInternal.MarshalRego)
    ∧ (∀ m ∈ container.Mounts,
        m.MarshalRego
            = "\x7b\"destination\": " ++ literal m.Destination ++ ", \"options\": "
              ++ StringArray.MarshalRego m.Options ++ ", \"source\": " ++ literal m.Source
              ++ ", \"type\": " ++ literal m.Type_ ++ "\x7d"
        ∧ arrayElements (StringArray.MarshalRego m.Options) = some (m.Options.map literal))
    ∧ securityPolicyInternal.MarshalRego { AllowAll := allowAll, Containers := containers }
        = .ok ("package policy\nallow_all := " ++ fmtBool allowAll ++ "\ncontainers := "
            ++ containersArray containers ++ "\n")
    ∧ arrayElements (containersArray containers) = some (containers.map containerObject)
    ∧ (∀ k : securityPolicyContainer,
        writeContainer builder k Indent = .ok (builder ++ (Indent ++ containerObject k)))
    ∧ (∀ s ∈ container.Command ++ container.Layers, decodeLiteral (literal s) = some s) := by
  obtain ⟨hcommand, henv, hlayers, hdir, hmounts⟩ := hplain
  have hmountTexts : container.Mounts.map mountInternal.MarshalRego
      = container.Mounts.map mountText :=
    List.map_congr_left (fun m _ => mountInternal_text m)
  have hruleTexts : container.EnvRules.map EnvRuleConfig.MarshalRego
      = container.EnvRules.map envRuleText :=
    List.map_congr_left (fun e _ => envRuleConfig_text e)
  refine ⟨?_, ?_, ?_, ?_, ?_, ?_, ?_, ?_, ?_, ?_⟩
  · rw [stringArray_text]
    exact arrayElements_literals _ hcommand
  · rw [stringArray_text]
    exact arrayElements_literals _ hlayers
  · rw [envRuleArray_text, hruleTexts]
    apply arrayElements_arrayText
    · intro t ht
      obtain ⟨e, he, het⟩ := List.mem_map.mp ht
      rw [← het]
      exact transparent_envRuleText e (henv e he).1 (henv e he).2
    · intro t ht
      obtain ⟨e, _, het⟩ := List.mem_map.mp ht
      rw [← het, envRuleText_object]
      exact trimmed_object _
  · simp only [writeMounts, WriteString, arrayText]
    congr 2
    apply String.ext
    simp only [String.data_append, List.append_assoc]
    rfl
  · rw [hmountTexts]
    apply arrayElements_arrayText
    · intro t ht
      obtain ⟨m, hm, hmt⟩ := List.mem_map.mp ht
      rw [← hmt]
      exact transparent_mountText m (hmounts m hm)
    · intro t ht
      obtain ⟨m, _, hmt⟩ := List.mem_map.mp ht
      rw [← hmt, mountText_object]
      exact trimmed_object _
  · intro m hm
    refine ⟨?_, ?_⟩
    · rw [mountInternal_text, stringArray_text]
      rfl
    · rw [stringArray_text]
      exact arrayElements_literals _ (hmounts m hm).2.2.2
  · simp only [securityPolicyInternal.MarshalRego, WriteString, bind, Except.bind,
      addContainers_eq, containersArray]
    congr 1
    apply String.ext
    simp only [String.data_append, List.append_assoc]
    rfl
  · exact arrayElements_containers containers hall
  · intro k
    rw [writeContainer_eq, containerText_indent]
    rfl
  · intro s hs
    have hs' : plainString s := by
      rcases List.mem_append.mp hs with h | h
      · exact hcommand s h
      · exact hlayers s h
    simp only [decodeLiteral, literal_data, if_true]
    rw [decodeBody_plain s.data [] hs']
    rfl

/-- The strings of the container rule `plainSample` are plain. -/
theorem plainSample_plain : plainContainer plainSample := by
  unfold plainContainer plainMount plainString
  decide

/-- C23 at work: the container rule `plainSample` has plain strings, one of
them with a comma; its command is read back as its three literals and the array
of two such containers as their two objects. -/
theorem C23_arrays_mirror_source_witness :
    arrayElements (StringArray.MarshalRego plainSample.Command)
        = some ["\"sh\"", "\"-c\"", "\"echo a,b\""]
    ∧ arrayElements (containersArray [plainSample, plainSample])
        = some [containerObject plainSample, containerObject plainSample] :=
  ⟨(C23_arrays_mirror_source plainSample [plainSample, plainSample] "" "" false
      plainSample_plain
      (List.forall_mem_cons.mpr ⟨plainSample_plain, List.forall_mem_cons.mpr
        ⟨plainSample_plain, fun _ h => absurd h (List.not_mem_nil _)⟩⟩)).1,
    (C23_arrays_mirror_source plainSample [plainSample, plainSample] "" "" false
      plainSample_plain
      (List.forall_mem_cons.mpr ⟨plainSample_plain, List.forall_mem_cons.mpr
        ⟨plainSample_plain, fun _ h => absurd h (List.not_mem_nil _)⟩⟩)).2.2.2.2.2.2.2.1⟩

/-- C23 as stated fails: the command of the container rule `quotedSample` is
the one argument `a","b`, and the array that the lowering emits for it has the
two elements `"a"` and `"b"`.  For an argument that ends with a backslash and
for an argument with a newline the emitted text is no array literal; for the
argument of `a`, backslash, `n`, `b` the one emitted element denotes another
string, in which a newline stands for the backslash and the `n`. -/
theorem C23_unescaped_elements_counterexample :
    quotedSample.Command.length = 1
    ∧ writeCommand "" quotedSample.Command "" = .ok "\"command\": [\"a\",\"b\"],\n"
    ∧ arrayElements (StringArray.MarshalRego quotedSample.Command)
        = some ["\"a\"", "\"b\""]
    ∧ arrayElements (StringArray.MarshalRego quotedSample.Command)
        ≠ some (quotedSample.Command.map literal)
    ∧ arrayElements (StringArray.MarshalRego ["a\\"]) = none
    ∧ arrayElements (StringArray.MarshalRego ["a\nb"]) = none
    ∧ arrayElements (StringArray.MarshalRego ["a\\nb"]) = some ["\"a\\nb\""]
    ∧ decodeLiteral "\"a\\nb\"" = some "a\nb"
    ∧ "a\nb" ≠ "a\\nb" := by
  refine ⟨by decide, rfl, by decide, by decide, by decide, by decide, by decide,
    by decide, by decide⟩

/-! ## The allow-all flag -/

/-- C25, at the failing input: the policy state has the allow-all flag set
and its containers convert successfully, and yet the internal policy that
`toInternal` returns has `AllowAll` false, the `allow_all` line of its lowered
document says `false`, and so does the document of the enforcer that
`createRegoEnforcer` builds. -/
theorem C25_allow_all_flag_dropped :
    allowAllState.SecurityPolicy.AllowAll = true
    ∧ allowAllState.SecurityPolicy.toInternal Except.ok
        = .ok { AllowAll := false, Containers := [] }
    ∧ securityPolicyInternal.MarshalRego { AllowAll := false, Containers := [] }
        = .ok "package policy\nallow_all := false\ncontainers := [\n]\n"
    ∧ (createRegoEnforcer (sampleDeps sampleReason) Except.ok allowAllState [] []).map
          (fun policy => policy.objects)
        = .ok "package policy\nallow_all := false\ncontainers := [\n]\n" :=
  ⟨rfl, rfl, rfl, rfl⟩

/-- The internal policy that `toInternal` returns never has the allow-all
flag. -/
theorem toInternal_allowAll {κ : Type}
    (conv : κ → Except String (List securityPolicyContainer)) (sp : SecurityPolicy κ)
    (p : securityPolicyInternal) (h : sp.toInternal conv = .ok p) : p.AllowAll = false := by
  unfold SecurityPolicy.toInternal at h
  split at h
  · simp at h
  · simp only [Except.ok.injEq] at h
    rw [← h]

/-! ## The input of a creation -/

/-- For a record that is only overlaid, the input that
`EnforceCreateContainerPolicy` evaluates has the `argList`, `envList` and
`workingDir` of the call and the `containerID` and `layerPaths` of the
record. -/
theorem createContainerInput_overlaid (deps : Deps) (info : ContainerInfo) (sandboxID : String)
    (argList envList : List String) (workingDir : String) (mounts : List Mount)
    (harg : info.argList = none) (henv : info.envList = none) (hdir : info.workingDir = none) :
    (createContainerInput deps info sandboxID argList envList workingDir mounts).argList
        = some argList
    ∧ (createContainerInput deps info sandboxID argList envList workingDir mounts).envList
        = some envList
    ∧ (createContainerInput deps info sandboxID argList envList workingDir mounts).workingDir
        = some workingDir
    ∧ (createContainerInput deps info sandboxID argList envList workingDir mounts).containerID
        = some info.containerID
    ∧ (createContainerInput deps info sandboxID argList envList workingDir mounts).layerPaths
        = some info.layerPaths := by
  simp [createContainerInput, copyContainerInfo, harg, henv, hdir]

/-- C26, at the failing input: the container `c1` was created with the
command `sh`, the environment `A=1` and the working directory `/`.  A second
call for `c1` with the command `bash`, the environment `B=2` and the working
directory `/tmp` hands to the evaluator an input with the command, the
environment and the working directory of the first call: the evaluator that
spells the command it is handed spells `sh`, and the evaluator that allows only
the command `sh` allows the call. -/
theorem C26_created_record_overrides_arguments :
    containerAt createdSample "c1"
        = some { containerID := "c1", layerPaths := ["/dev/sda"], argList := some ["sh"],
                 envList := some ["A=1"], workingDir := some "/" }
    ∧ (createContainerInput (sampleDeps sampleReason)
          { containerID := "c1", layerPaths := ["/dev/sda"], argList := some ["sh"],
            envList := some ["A=1"], workingDir := some "/" }
          "sb" ["bash"] ["B=2"] "/tmp" []).argList = some ["sh"]
    ∧ (createContainerInput (sampleDeps sampleReason)
          { containerID := "c1", layerPaths := ["/dev/sda"], argList := some ["sh"],
            envList := some ["A=1"], workingDir := some "/" }
          "sb" ["bash"] ["B=2"] "/tmp" []).envList = some ["A=1"]
    ∧ (createContainerInput (sampleDeps sampleReason)
          { containerID := "c1", layerPaths := ["/dev/sda"], argList := some ["sh"],
            envList := some ["A=1"], workingDir := some "/" }
          "sb" ["bash"] ["B=2"] "/tmp" []).workingDir = some "/"
    ∧ (EnforceCreateContainerPolicy echoDeps createdSample "sb" "c1" ["bash"] ["B=2"] "/tmp"
          []).2 = Outcome.error "sh"
    ∧ (EnforceCreateContainerPolicy (sampleDeps sampleReason) createdSample "sb" "c1" ["bash"]
          ["B=2"] "/tmp" []).2 = Outcome.ok := by
  refine ⟨by decide, by decide, by decide, by decide, by decide, by decide⟩

/-! ## Created is terminal -/

/-- The query of `EnforceCreateContainerPolicy` under the rule
`create_container`. -/
theorem lifecycleQuery_create (compliant : Input → Data → Bool)
    (reasons : Input → Data → List String) (base : Deps) (policy : RegoEnforcer)
    (info : ContainerInfo) (sandboxID : String) (argList envList : List String)
    (workingDir : String) (mounts : List Mount) :
    Query (lifecycleDeps compliant reasons base) policy
        (createContainerInput (lifecycleDeps compliant reasons base) info sandboxID argList
          envList workingDir mounts)
      = .ok (boolResult (createContainerRule compliant
          (createContainerInput (lifecycleDeps compliant reasons base) info sandboxID argList
            envList workingDir mounts) policy.data)) := rfl

/-- The follow-up query of `EnforceCreateContainerPolicy` under the rule
`reason`. -/
theorem lifecycleQuery_reason (compliant : Input → Data → Bool)
    (reasons : Input → Data → List String) (base : Deps) (policy : RegoEnforcer)
    (input : Input) :
    Query (lifecycleDeps compliant reasons base) policy (reasonInput input)
      = .ok (reasonRule reasons (reasonInput input) policy.data) := rfl

/-- The rule `create_container` denies the input of a container ID that is
in `started`. -/
theorem createContainerRule_started (compliant : Input → Data → Bool) (deps : Deps)
    (info : ContainerInfo) (sandboxID : String) (argList envList : List String)
    (workingDir : String) (mounts : List Mount) (data : Data)
    (hstarted : info.containerID ∈ data.started) :
    createContainerRule compliant
      (createContainerInput deps info sandboxID argList envList workingDir mounts) data
      = false := by
  simp [createContainerRule, createContainerInput, copyContainerInfo, hstarted]

/-- The rule `create_container` allows only the input of a container ID that
is not in `started`. -/
theorem createContainerRule_allowed (compliant : Input → Data → Bool) (deps : Deps)
    (info : ContainerInfo) (sandboxID : String) (argList envList : List String)
    (workingDir : String) (mounts : List Mount) (data : Data)
    (hallowed : createContainerRule compliant
      (createContainerInput deps info sandboxID argList envList workingDir mounts) data
      = true) :
    info.containerID ∉ data.started := by
  intro hstarted
  rw [createContainerRule_started compliant deps info sandboxID argList envList workingDir
    mounts data hstarted] at hallowed
  simp at hallowed

/-- C27: under a rule `create_container` that denies the container IDs in
`started`, when `EnforceCreateContainerPolicy` has succeeded for the container
`c`, whose record carries the ID `c`, a second call with the same sandbox ID,
container ID and arguments returns the error of a denied creation, and `c`
occurs in `started` exactly once, before and after the second call. -/
theorem C27_second_create_denied (compliant : Input → Data → Bool)
    (reasons : Input → Data → List String) (base : Deps) (policy : RegoEnforcer)
    (sandboxID c : String) (argList envList : List String) (workingDir : String)
    (mounts : List Mount)
    (hid : ∀ info : ContainerInfo, containerAt policy c = some info → info.containerID = c)
    (hfirst : (EnforceCreateContainerPolicy (lifecycleDeps compliant reasons base) policy
      sandboxID c argList envList workingDir mounts).2 = Outcome.ok) :
    (∃ msg : String,
      (EnforceCreateContainerPolicy (lifecycleDeps compliant reasons base)
        (EnforceCreateContainerPolicy (lifecycleDeps compliant reasons base) policy
          sandboxID c argList envList workingDir mounts).1
        sandboxID c argList envList workingDir mounts).2 = Outcome.error msg
      ∧ Contains msg "container creation not allowed by policy")
    ∧ List.count c
        (EnforceCreateContainerPolicy (lifecycleDeps compliant reasons base) policy
          sandboxID c argList envList workingDir mounts).1.data.started = 1
    ∧ List.count c
        (EnforceCreateContainerPolicy (lifecycleDeps compliant reasons base)
          (EnforceCreateContainerPolicy (lifecycleDeps compliant reasons base) policy
            sandboxID c argList envList workingDir mounts).1
          sandboxID c argList envList workingDir mounts).1.data.started = 1 := by
  obtain ⟨info, hrecord, hstate⟩ := createContainer_ok_state _ policy sandboxID c argList
    envList workingDir mounts hfirst
  have hinfo : info.containerID = c := hid info hrecord
  -- the first call was allowed, so `c` was not started
  have hnot : c ∉ policy.data.started := by
    rw [createContainer_cases] at hfirst
    simp only [hrecord, lifecycleQuery_create] at hfirst
    cases hrule : createContainerRule compliant
        (createContainerInput (lifecycleDeps compliant reasons base) info sandboxID argList
          envList workingDir mounts) policy.data with
    | true =>
      rw [← hinfo]
      exact createContainerRule_allowed compliant _ info sandboxID argList envList workingDir
        mounts policy.data hrule
    | false =>
      have hallow : (lifecycleDeps compliant reasons base).allowed (boolResult false) = false :=
        rfl
      rw [hrule, hallow] at hfirst
      simp only [Bool.false_eq_true, if_false] at hfirst
      exact absurd hfirst (denialOutcome_ne_ok _ _)
  have hcount : List.count c (policy.data.started ++ [c]) = 1 := by
    rw [List.count_append, List.count_eq_zero_of_not_mem hnot]
    simp
  -- the state after the first call
  have hafter : containerAt (createdEnforcer policy c info argList envList workingDir) c
      = some { info with
          argList := some argList, envList := some envList, workingDir := some workingDir } := by
    unfold createdEnforcer
    rw [containerAt_started_mapSet]
    simp
  have hdenied : createContainerRule compliant
      (createContainerInput (lifecycleDeps compliant reasons base)
        { info with
          argList := some argList, envList := some envList, workingDir := some workingDir }
        sandboxID argList envList workingDir mounts)
      (createdEnforcer policy c info argList envList workingDir).data = false := by
    apply createContainerRule_started
    show info.containerID ∈ policy.data.started ++ [c]
    rw [hinfo]
    simp
  have hsecond : EnforceCreateContainerPolicy (lifecycleDeps compliant reasons base)
      (createdEnforcer policy c info argList envList workingDir)
      sandboxID c argList envList workingDir mounts
      = (createdEnforcer policy c info argList envList workingDir,
          Outcome.error ("container creation not allowed by policy. Reasons: ["
            ++ String.intercalate ","
                (reasons
                  (reasonInput
                    (createContainerInput (lifecycleDeps compliant reasons base)
                      { info with
                        argList := some argList, envList := some envList,
                        workingDir := some workingDir }
                      sandboxID argList envList workingDir mounts))
                  (createdEnforcer policy c info argList envList workingDir).data)
            ++ "].\nInput: "
            ++ (lifecycleDeps compliant reasons base).render
                (createContainerInput (lifecycleDeps compliant reasons base)
                  { info with
                    argList := some argList, envList := some envList,
                    workingDir := some workingDir }
                  sandboxID argList envList workingDir mounts))) := by
    rw [createContainer_cases]
    simp only [hafter, lifecycleQuery_create, hdenied, lifecycleQuery_reason, reasonRule,
      denialOutcome, collectReasons_strings, List.nil_append]
    rfl
  rw [hstate, hsecond]
  refine ⟨⟨_, rfl, ?_⟩, hcount, hcount⟩
  have hsplit : "container creation not allowed by policy. Reasons: ["
      = "" ++ "container creation not allowed by policy" ++ ". Reasons: [" := by decide
  unfold Contains
  rw [hsplit]
  simp only [String.append_assoc, String.empty_append]
  exact ⟨"", _, (String.empty_append _).symm⟩

/-- C27 at work: with the overlay of `c1` mounted and a rule that asks for
nothing besides a container that is not started, the first creation of `c1`
succeeds and `c1` is once in `started` after the second. -/
theorem C27_second_create_denied_witness :
    List.count "c1"
      (EnforceCreateContainerPolicy
        (lifecycleDeps (fun _ _ => true) (fun _ _ => ["container already started"])
          (sampleDeps sampleReason))
        (EnforceCreateContainerPolicy
          (lifecycleDeps (fun _ _ => true) (fun _ _ => ["container already started"])
            (sampleDeps sampleReason))
          overlaidEnforcer "sb" "c1" ["sh"] [] "/" []).1
        "sb" "c1" ["sh"] [] "/" []).1.data.started = 1 :=
  (C27_second_create_denied (fun _ _ => true) (fun _ _ => ["container already started"])
    (sampleDeps sampleReason) overlaidEnforcer "sb" "c1" ["sh"] [] "/" []
    (fun info hinfo => by
      have h : some info = some { containerID := "c1", layerPaths := ["/dev/sda"] } :=
        hinfo.symm.trans rfl
      simp only [Option.some.injEq] at h
      rw [h])
    rfl).2.2

end securitypolicy

namespace hcsschema

/-! ## The validation of a topology against a VM -/

/-- The loop of `ValidateNumaForVM` for a hybrid VM stops at the first node
that is not hybrid, with the error of a backing type that does not match. -/
theorem validateLoopForVM_mismatch (k : Constants) (settings : List NumaSetting)
    (topology : NumaSetting)
    (hfind : settings.find? (fun s => decide (s.MemoryBackingType ≠ k.MemoryBackingType_HYBRID))
      = some topology) (st : VMState) :
    validateLoopForVM k k.MemoryBackingType_HYBRID st settings
      = .error ("vNUMA memory backing type " ++ topology.MemoryBackingType
          ++ " does not match UVM memory backing type " ++ k.MemoryBackingType_HYBRID) := by
  induction settings generalizing st with
  | nil => simp at hfind
  | cons s rest ih =>
    by_cases hs : s.MemoryBackingType = k.MemoryBackingType_HYBRID
    · have hrest : rest.find?
          (fun s => decide (s.MemoryBackingType ≠ k.MemoryBackingType_HYBRID)) = some topology := by
        simpa [List.find?, hs] using hfind
      simp only [validateLoopForVM, validateNodeForVM, hs, ne_eq, not_true_eq_false, and_self,
        if_false]
      exact ih hrest _
    · have htop : s = topology := by
        simpa [List.find?, hs] using hfind
      subst htop
      simp [validateLoopForVM, validateNodeForVM, hs]

/-- The loop of `ValidateNumaForVM` for a hybrid VM over hybrid nodes only
leaves `hasPhysicallyBackedNode` as it was. -/
theorem validateLoopForVM_hybrid (k : Constants)
    (hphysical : k.MemoryBackingType_HYBRID ≠ k.MemoryBackingType_PHYSICAL)
    (settings : List NumaSetting)
    (hfind : settings.find? (fun s => decide (s.MemoryBackingType ≠ k.MemoryBackingType_HYBRID))
      = none) (st : VMState) :
    ∃ st' : VMState, validateLoopForVM k k.MemoryBackingType_HYBRID st settings = .ok st'
      ∧ st'.hasPhysicallyBackedNode = st.hasPhysicallyBackedNode := by
  induction settings generalizing st with
  | nil => exact ⟨st, rfl, rfl⟩
  | cons s rest ih =>
    have hs : s.MemoryBackingType = k.MemoryBackingType_HYBRID := by
      by_contra hne
      simp [List.find?, hne] at hfind
    have hrest : rest.find?
        (fun s => decide (s.MemoryBackingType ≠ k.MemoryBackingType_HYBRID)) = none := by
      simpa [List.find?, hs] using hfind
    simp only [validateLoopForVM, validateNodeForVM, hs, ne_eq, not_true_eq_false, and_self,
      if_false]
    obtain ⟨st', hloop, hkept⟩ := ih hrest
      { hasPhysicallyBackedNode :=
          if k.MemoryBackingType_HYBRID = k.MemoryBackingType_PHYSICAL then true
          else st.hasPhysicallyBackedNode
        hasVirtuallyBackedNode :=
          if k.MemoryBackingType_HYBRID = k.MemoryBackingType_VIRTUAL then true
          else st.hasVirtuallyBackedNode
        totalProcessorCount := (st.totalProcessorCount + s.CountOfProcessors) % 2 ^ 32
        totalMemoryInMb := (st.totalMemoryInMb + s.CountOfMemoryBlocks) % 2 ^ 64 }
    refine ⟨st', hloop, ?_⟩
    rw [hkept]
    simp [hphysical]

/-- C28: with the hybrid backing type distinct from the physical and the
virtual one, `ValidateNumaForVM` called with the VM memory backing type
`MemoryBackingType_HYBRID` returns an error for every topology, processor
count and memory size: the error of a backing type that does not match for the
first node that is not hybrid (so for a node typed physical or virtual), and
the error of a missing physically or virtually backed node when every node is
hybrid or there is no node. -/
theorem C28_hybrid_vm_always_rejected (k : Constants) (numa : Numa) (procCount : Int)
    (memInMb : Nat)
    (hphysical : k.MemoryBackingType_HYBRID ≠ k.MemoryBackingType_PHYSICAL)
    (hvirtual : k.MemoryBackingType_HYBRID ≠ k.MemoryBackingType_VIRTUAL) :
    ValidateNumaForVM k numa k.MemoryBackingType_HYBRID procCount memInMb ≠ .ok ()
    ∧ (∀ topology : NumaSetting,
        numa.Settings.find?
            (fun s => decide (s.MemoryBackingType ≠ k.MemoryBackingType_HYBRID)) = some topology →
        ValidateNumaForVM k numa k.MemoryBackingType_HYBRID procCount memInMb
          = .error ("vNUMA memory backing type " ++ topology.MemoryBackingType
              ++ " does not match UVM memory backing type " ++ k.MemoryBackingType_HYBRID))
    ∧ (∀ topology : NumaSetting, topology ∈ numa.Settings →
        topology.MemoryBackingType = k.MemoryBackingType_PHYSICAL
          ∨ topology.MemoryBackingType = k.MemoryBackingType_VIRTUAL →
        (numa.Settings.find?
            (fun s => decide (s.MemoryBackingType ≠ k.MemoryBackingType_HYBRID))).isSome = true)
    ∧ ((∀ topology : NumaSetting, topology ∈ numa.Settings →
          topology.MemoryBackingType = k.MemoryBackingType_HYBRID) →
        ValidateNumaForVM k numa k.MemoryBackingType_HYBRID procCount memInMb
          = .error
              "vNUMA must have both physically and virtually backed nodes for UVM with hybrid memory") := by
  have hsome : ∀ topology : NumaSetting,
      numa.Settings.find?
          (fun s => decide (s.MemoryBackingType ≠ k.MemoryBackingType_HYBRID)) = some topology →
      ValidateNumaForVM k numa k.MemoryBackingType_HYBRID procCount memInMb
        = .error ("vNUMA memory backing type " ++ topology.MemoryBackingType
            ++ " does not match UVM memory backing type " ++ k.MemoryBackingType_HYBRID) := by
    intro topology hfind
    unfold ValidateNumaForVM
    rw [validateLoopForVM_mismatch k numa.Settings topology hfind]
  have hnone : numa.Settings.find?
        (fun s => decide (s.MemoryBackingType ≠ k.MemoryBackingType_HYBRID)) = none →
      ValidateNumaForVM k numa k.MemoryBackingType_HYBRID procCount memInMb
        = .error
            "vNUMA must have both physically and virtually backed nodes for UVM with hybrid memory" := by
    intro hfind
    obtain ⟨st', hloop, hkept⟩ := validateLoopForVM_hybrid k hphysical numa.Settings hfind {}
    unfold ValidateNumaForVM
    rw [hloop]
    have hfalse : st'.hasPhysicallyBackedNode = false := hkept
    simp [hfalse]
  refine ⟨?_, hsome, ?_, ?_⟩
  · cases hfind : numa.Settings.find?
        (fun s => decide (s.MemoryBackingType ≠ k.MemoryBackingType_HYBRID)) with
    | none => rw [hnone hfind]; simp
    | some topology => rw [hsome topology hfind]; simp
  · intro topology hmem htype
    have hne : topology.MemoryBackingType ≠ k.MemoryBackingType_HYBRID := by
      rcases htype with h | h
      · rw [h]; exact fun e => hphysical e.symm
      · rw [h]; exact fun e => hvirtual e.symm
    rw [List.find?_isSome]
    exact ⟨topology, hmem, by simpa using hne⟩
  · intro hall
    apply hnone
    rw [List.find?_eq_none]
    intro topology hmem
    simp [hall topology hmem]

/-- C28 at work: a hybrid VM rejects the topology of two physically backed
nodes at its first node, and the empty topology for want of backed nodes. -/
theorem C28_hybrid_vm_always_rejected_witness :
    ValidateNumaForVM sampleConstants (twoNodes 2) "Hybrid" 4 2048
      = .error "vNUMA memory backing type Physical does not match UVM memory backing type Hybrid"
    ∧ ((twoNodes 2).Settings.find?
        (fun s => decide (s.MemoryBackingType ≠ "Hybrid"))).isSome = true
    ∧ ValidateNumaForVM sampleConstants {} "Hybrid" 4 2048
      = .error
          "vNUMA must have both physically and virtually backed nodes for UVM with hybrid memory" :=
  ⟨(C28_hybrid_vm_always_rejected sampleConstants (twoNodes 2) 4 2048 (by decide)
      (by decide)).2.1 _ rfl,
    (C28_hybrid_vm_always_rejected sampleConstants (twoNodes 2) 4 2048 (by decide)
      (by decide)).2.2.1 _ (List.mem_cons_self _ _) (Or.inl rfl),
    (C28_hybrid_vm_always_rejected sampleConstants {} 4 2048 (by decide) (by decide)).2.2.2
      (fun _ h => absurd h (List.not_mem_nil _))⟩

/-! ## The validation of a topology -/

/-- A list of `n` distinct numbers below `n` holds every number below `n`. -/
theorem nodup_below_length (values : List Nat) (hnodup : values.Nodup)
    (hbelow : ∀ x ∈ values, x < values.length) (i : Nat) :
    i ∈ values ↔ i < values.length := by
  have hsub : values.toFinset ⊆ Finset.range values.length := by
    intro x hx
    rw [List.mem_toFinset] at hx
    exact Finset.mem_range.mpr (hbelow x hx)
  have hcard : (Finset.range values.length).card ≤ values.toFinset.card := by
    rw [Finset.card_range, List.toFinset_card_of_nodup hnodup]
  have heq := Finset.eq_of_subset_of_card_le hsub hcard
  rw [← List.mem_toFinset, heq, Finset.mem_range]

/-- The running maximum is at least its start. -/
theorem le_foldl_max (values : List Nat) (start : Nat) : start ≤ values.foldl max start := by
  induction values generalizing start with
  | nil => exact Nat.le_refl _
  | cons x rest ih => exact Nat.le_trans (Nat.le_max_left _ _) (ih (max start x))

/-- The running maximum is at least every value. -/
theorem mem_le_foldl_max (values : List Nat) (start : Nat) (x : Nat) (hx : x ∈ values) :
    x ≤ values.foldl max start := by
  induction values generalizing start with
  | nil => simp at hx
  | cons y rest ih =>
    rcases List.mem_cons.mp hx with h | h
    · subst h
      exact Nat.le_trans (Nat.le_max_right _ _) (le_foldl_max rest (max start x))
    · exact ih (max start y) h

/-- The running maximum is its start or one of the values. -/
theorem foldl_max_mem (values : List Nat) (start : Nat) :
    values.foldl max start = start ∨ values.foldl max start ∈ values := by
  induction values generalizing start with
  | nil => exact Or.inl rfl
  | cons y rest ih =>
    rcases ih (max start y) with h | h
    · rcases Nat.le_total start y with hle | hle
      · right
        rw [List.foldl_cons, h, Nat.max_eq_right hle]
        exact List.mem_cons_self _ _
      · left
        rw [List.foldl_cons, h, Nat.max_eq_left hle]
    · exact Or.inr (List.mem_cons_of_mem _ h)

/-- What `validateNode` has checked and computed when it returns no error. -/
theorem validateNode_ok (k : Constants) (w : Bool) (st st' : ValidateState) (t : NumaSetting)
    (h : validateNode k w st t = .ok st') :
    w = decide (t.PhysicalNodeNumber = k.WildcardPhysicalNodeNumber)
    ∧ t.CountOfMemoryBlocks ≠ 0
    ∧ t.VirtualNodeNumber ∉ st.virtualNodeSet
    ∧ (t.MemoryBackingType = k.MemoryBackingType_PHYSICAL
        ∨ t.MemoryBackingType = k.MemoryBackingType_VIRTUAL)
    ∧ st' =
      { virtualNodeSet := st.virtualNodeSet ++ [t.VirtualNodeNumber]
        virtualSocketSet := setAdd st.virtualSocketSet t.VirtualSocketNumber
        totalVPCount := (st.totalVPCount + t.CountOfProcessors) % 2 ^ 32
        totalMemInMb := (st.totalMemInMb + t.CountOfMemoryBlocks) % 2 ^ 64
        highestVNodeNumber := max st.highestVNodeNumber t.VirtualNodeNumber
        highestVSocketNumber := max st.highestVSocketNumber t.VirtualSocketNumber } := by
  unfold validateNode at h
  by_cases h1 : t.VirtualNodeNumber > k.NumaChildNodeCountMax
  · simp [h1] at h
  by_cases h2 : t.PhysicalNodeNumber ≠ k.WildcardPhysicalNodeNumber
      ∧ t.PhysicalNodeNumber ≥ k.NumaTopologyNodeCountMax
  · simp [h1, h2] at h
  by_cases h3 : w ≠ decide (t.PhysicalNodeNumber = k.WildcardPhysicalNodeNumber)
  · rw [if_neg h1, if_neg h2, if_pos h3] at h
    simp at h
  by_cases h4 : t.CountOfMemoryBlocks = 0
  · rw [if_neg h1, if_neg h2, if_neg h3, if_pos h4] at h
    simp at h
  by_cases h5 : t.VirtualNodeNumber ∈ st.virtualNodeSet
  · rw [if_neg h1, if_neg h2, if_neg h3, if_neg h4] at h
    simp [h5] at h
  by_cases h6 : t.MemoryBackingType ≠ k.MemoryBackingType_PHYSICAL
      ∧ t.MemoryBackingType ≠ k.MemoryBackingType_VIRTUAL
  · rw [if_neg h1, if_neg h2, if_neg h3, if_neg h4] at h
    simp only [if_neg h5, if_pos h6, reduceCtorEq] at h
  have hmax : ∀ a b : Nat, (if a < b then b else a) = max a b := by
    intro a b
    rcases Nat.lt_or_ge a b with hlt | hge
    · rw [if_pos hlt, Nat.max_eq_right (Nat.le_of_lt hlt)]
    · rw [if_neg (Nat.not_lt.mpr hge), Nat.max_eq_left hge]
  rw [if_neg h1, if_neg h2, if_neg h3, if_neg h4] at h
  simp only [if_neg h5, if_neg h6, Except.ok.injEq, hmax] at h
  refine ⟨?_, h4, h5, ?_, ?_⟩
  · simpa using h3
  · by_contra hcon
    push_neg at hcon
    exact h6 hcon
  · rw [← h]
    simp only [setAdd, h5, if_false]

/-- Every error of `validateNode` starts with the letter v. -/
theorem validateNode_error (k : Constants) (w : Bool) (st : ValidateState) (t : NumaSetting)
    (err : String) (h : validateNode k w st t = .error err) :
    err.data.head? = some 'v' := by
  unfold validateNode at h
  split_ifs at h <;> simp only [Except.error.injEq, reduceCtorEq] at h <;> rw [← h] <;>
    simp only [String.data_append, List.append_assoc] <;> rfl

/-- Every error of `validateLoop` starts with the letter v. -/
theorem validateLoop_error (k : Constants) (w : Bool) (settings : List NumaSetting)
    (st : ValidateState) (err : String) (h : validateLoop k w st settings = .error err) :
    err.data.head? = some 'v' := by
  induction settings generalizing st with
  | nil => simp [validateLoop] at h
  | cons t rest ih =>
    unfold validateLoop at h
    cases hnode : validateNode k w st t with
    | error e =>
      rw [hnode] at h
      simp only [Except.error.injEq] at h
      rw [← h]
      exact validateNode_error k w st t e hnode
    | ok st1 =>
      rw [hnode] at h
      exact ih st1 h

/-- The keys of a set after `setAdd`. -/
theorem mem_setAdd (set : List Nat) (key j : Nat) : j ∈ setAdd set key ↔ j ∈ set ∨ j = key := by
  unfold setAdd
  by_cases hkey : key ∈ set
  · rw [if_pos hkey]
    constructor
    · exact Or.inl
    · rintro (h | h)
      · exact h
      · rw [h]; exact hkey
  · rw [if_neg hkey]
    simp

/-- A set has no key twice after `setAdd`. -/
theorem nodup_setAdd (set : List Nat) (key : Nat) (h : set.Nodup) : (setAdd set key).Nodup := by
  unfold setAdd
  by_cases hkey : key ∈ set
  · rw [if_pos hkey]; exact h
  · rw [if_neg hkey]
    rw [List.nodup_append]
    refine ⟨h, List.nodup_singleton _, ?_⟩
    intro a ha hb
    rw [List.mem_singleton] at hb
    rw [hb] at ha
    exact hkey ha

/-- What `validateLoop` has checked and computed when it returns no error. -/
theorem validateLoop_ok (k : Constants) (w : Bool) (settings : List NumaSetting)
    (st st' : ValidateState) (h : validateLoop k w st settings = .ok st') :
    (∀ s ∈ settings,
        w = decide (s.PhysicalNodeNumber = k.WildcardPhysicalNodeNumber)
        ∧ s.CountOfMemoryBlocks ≠ 0
        ∧ (s.MemoryBackingType = k.MemoryBackingType_PHYSICAL
            ∨ s.MemoryBackingType = k.MemoryBackingType_VIRTUAL))
    ∧ st'.virtualNodeSet = st.virtualNodeSet ++ settings.map (fun s => s.VirtualNodeNumber)
    ∧ (st.virtualNodeSet.Nodup → st'.virtualNodeSet.Nodup)
    ∧ (∀ j, j ∈ st'.virtualSocketSet
        ↔ j ∈ st.virtualSocketSet ∨ j ∈ settings.map (fun s => s.VirtualSocketNumber))
    ∧ (st.virtualSocketSet.Nodup → st'.virtualSocketSet.Nodup)
    ∧ st'.highestVNodeNumber
        = (settings.map (fun s => s.VirtualNodeNumber)).foldl max st.highestVNodeNumber
    ∧ st'.highestVSocketNumber
        = (settings.map (fun s => s.VirtualSocketNumber)).foldl max st.highestVSocketNumber
    ∧ st'.totalMemInMb % 2 ^ 64
        = (st.totalMemInMb + (settings.map (fun s => s.CountOfMemoryBlocks)).sum) % 2 ^ 64
    ∧ st'.totalVPCount % 2 ^ 32
        = (st.totalVPCount + (settings.map (fun s => s.CountOfProcessors)).sum) % 2 ^ 32
    ∧ (st.totalMemInMb < 2 ^ 64 → st'.totalMemInMb < 2 ^ 64)
    ∧ (st.totalVPCount < 2 ^ 32 → st'.totalVPCount < 2 ^ 32) := by
  induction settings generalizing st with
  | nil =>
    simp only [validateLoop, Except.ok.injEq] at h
    subst h
    exact ⟨by simp, by simp, id, by simp, id, rfl, rfl, by simp, by simp, id, id⟩
  | cons t rest ih =>
    unfold validateLoop at h
    cases hnode : validateNode k w st t with
    | error e =>
      rw [hnode] at h
      simp at h
    | ok st1 =>
      rw [hnode] at h
      obtain ⟨hw, hmem, hnot, htype, hst1⟩ := validateNode_ok k w st st1 t hnode
      obtain ⟨hall, hnodes, hnodup, hsockets, hsnodup, hhn, hhs, htm, htp, hbm, hbp⟩ := ih st1 h
      subst hst1
      simp only at hnodes hnodup hsockets hsnodup hhn hhs htm htp hbm hbp
      refine ⟨?_, ?_, ?_, ?_, ?_, ?_, ?_, ?_, ?_, ?_, ?_⟩
      · intro s hs
        rcases List.mem_cons.mp hs with h1 | h1
        · subst h1; exact ⟨hw, hmem, htype⟩
        · exact hall s h1
      · rw [hnodes]; simp
      · intro hn
        apply hnodup
        rw [List.nodup_append]
        refine ⟨hn, List.nodup_singleton _, ?_⟩
        intro a ha hb
        rw [List.mem_singleton] at hb
        rw [hb] at ha
        exact hnot ha
      · intro j
        rw [hsockets j, mem_setAdd, List.map_cons, List.mem_cons]
        exact or_assoc
      · intro hn
        exact hsnodup (nodup_setAdd _ _ hn)
      · rw [hhn]; rfl
      · rw [hhs]; rfl
      · rw [htm, List.map_cons, List.sum_cons]
        omega
      · rw [htp, List.map_cons, List.sum_cons]
        omega
      · intro _
        apply hbm
        omega
      · intro _
        apply hbp
        omega

/-- What `Numa.Validate` has checked when it returns `nil` on a topology of at
least one node. -/
theorem validate_ok (k : Constants) (n : Numa) (hne : n.Settings ≠ [])
    (hvalid : n.Validate k = .ok ()) :
    ∃ (w : Bool) (st : ValidateState), validateLoop k w {} n.Settings = .ok st
      ∧ (st.totalMemInMb = 0 ↔ st.totalVPCount = 0)
      ∧ st.virtualNodeSet.length = (st.highestVNodeNumber + 1) % 2 ^ 32
      ∧ st.virtualSocketSet.length = (st.highestVSocketNumber + 1) % 2 ^ 32 := by
  unfold Numa.Validate at hvalid
  cases hsettings : n.Settings with
  | nil => exact absurd hsettings hne
  | cons first rest =>
    rw [hsettings] at hvalid
    simp only at hvalid
    cases hloop : validateLoop k
        (decide (first.PhysicalNodeNumber = k.WildcardPhysicalNodeNumber)) {} (first :: rest) with
    | error e =>
      rw [hloop] at hvalid
      simp at hvalid
    | ok st =>
      rw [hloop] at hvalid
      simp only at hvalid
      split_ifs at hvalid with h1 h2 h3 h4
      refine ⟨_, st, hloop, ?_, ?_, ?_⟩
      · simpa using h1
      · simpa using h3
      · simpa using h4

/-- The totals of `Numa.Validate` after its loop over a topology whose sum of
memory blocks does not wrap around. -/
theorem validateLoop_totals (k : Constants) (w : Bool) (settings : List NumaSetting)
    (st : ValidateState) (hne : settings ≠ [])
    (hsum : (settings.map (fun s => s.CountOfMemoryBlocks)).sum < 2 ^ 64)
    (hloop : validateLoop k w {} settings = .ok st) :
    st.totalMemInMb ≠ 0
    ∧ st.totalVPCount = (settings.map (fun s => s.CountOfProcessors)).sum % 2 ^ 32 := by
  obtain ⟨hall, -, -, -, -, -, -, htm, htp, hbm, hbp⟩ := validateLoop_ok k w settings {} st hloop
  have hm : st.totalMemInMb = (settings.map (fun s => s.CountOfMemoryBlocks)).sum := by
    have h1 := Nat.mod_eq_of_lt (hbm (by show 0 < 2 ^ 64; omega))
    rw [h1] at htm
    rw [htm]
    simp only [Nat.zero_add]
    exact Nat.mod_eq_of_lt hsum
  have hp : st.totalVPCount = (settings.map (fun s => s.CountOfProcessors)).sum % 2 ^ 32 := by
    have h1 := Nat.mod_eq_of_lt (hbp (by show 0 < 2 ^ 32; omega))
    rw [h1] at htp
    rw [htp]
    simp only [Nat.zero_add]
  refine ⟨?_, hp⟩
  rw [hm]
  cases settings with
  | nil => exact absurd rfl hne
  | cons t rest =>
    have := (hall t (List.mem_cons_self _ _)).2.1
    simp only [List.map_cons, List.sum_cons]
    omega

/-- The method `Numa.Validate` on a topology of at least one node. -/
theorem validate_cons (k : Constants) (n : Numa) (first : NumaSetting)
    (rest : List NumaSetting) (hsettings : n.Settings = first :: rest) :
    n.Validate k =
      match validateLoop k (decide (first.PhysicalNodeNumber = k.WildcardPhysicalNodeNumber)) {}
          (first :: rest) with
      | .error err => .error err
      | .ok st =>
        if decide (st.totalMemInMb = 0) ≠ decide (st.totalVPCount = 0) then
          .error "partial resource allocation is not allowed"
        else if st.totalMemInMb = 0
            ∧ decide (first.PhysicalNodeNumber = k.WildcardPhysicalNodeNumber) = true then
          .error "completely empty topology is not allowed"
        else if st.virtualNodeSet.length ≠ (st.highestVNodeNumber + 1) % 2 ^ 32 then
          .error "holes in vNUMA node numbers are not allowed"
        else if st.virtualSocketSet.length ≠ (st.highestVSocketNumber + 1) % 2 ^ 32 then
          .error "holes in vNUMA socket numbers are not allowed"
        else .ok () := by
  unfold Numa.Validate
  rw [hsettings]

/-- C29: `Numa.Validate` returns `nil` for a value with no settings; and when
it returns `nil` for a value with n >= 1 settings, whose node and socket
numbers are `uint32`, the `VirtualNodeNumber` values are pairwise distinct and
are exactly the numbers below n, the `VirtualSocketNumber` values are exactly
the numbers up to their maximum, the settings are all wildcard or all
non-wildcard in `PhysicalNodeNumber`, and every `MemoryBackingType` is the
physical or the virtual one. -/
theorem C29_validated_topology (k : Constants) (n : Numa) (htyped : n.WellTyped) :
    (n.Settings = [] → n.Validate k = .ok ())
    ∧ (n.Settings ≠ [] → n.Validate k = .ok () →
        (n.Settings.map (fun s => s.VirtualNodeNumber)).Nodup
        ∧ (∀ i, i ∈ n.Settings.map (fun s => s.VirtualNodeNumber) ↔ i < n.Settings.length)
        ∧ (∀ j, j ∈ n.Settings.map (fun s => s.VirtualSocketNumber)
            ↔ j ≤ highest (n.Settings.map (fun s => s.VirtualSocketNumber)))
        ∧ ((∀ s ∈ n.Settings, s.PhysicalNodeNumber = k.WildcardPhysicalNodeNumber)
            ∨ (∀ s ∈ n.Settings, s.PhysicalNodeNumber ≠ k.WildcardPhysicalNodeNumber))
        ∧ (∀ s ∈ n.Settings,
            s.MemoryBackingType = k.MemoryBackingType_PHYSICAL
              ∨ s.MemoryBackingType = k.MemoryBackingType_VIRTUAL)) := by
  constructor
  · intro hempty
    unfold Numa.Validate
    rw [hempty]
  intro hne hvalid
  obtain ⟨w, st, hloop, -, hnodes, hsockets⟩ := validate_ok k n hne hvalid
  obtain ⟨hall, hnodeSet, hnodup, hsocketSet, hsnodup, hhn, hhs, -, -, -, -⟩ :=
    validateLoop_ok k w n.Settings {} st hloop
  simp only [List.nil_append, List.not_mem_nil, false_or] at hnodeSet hsocketSet
  have hnodup' : (n.Settings.map (fun s => s.VirtualNodeNumber)).Nodup := by
    rw [← hnodeSet]
    exact hnodup List.nodup_nil
  have hsnodup' : st.virtualSocketSet.Nodup := hsnodup List.nodup_nil
  obtain ⟨first, rest, hsettings⟩ := List.exists_cons_of_ne_nil hne
  have hfirst : first ∈ n.Settings := by rw [hsettings]; exact List.mem_cons_self _ _
  -- the node numbers
  have hnlen : 1 ≤ (n.Settings.map (fun s => s.VirtualNodeNumber)).length := by
    rw [hsettings]; simp
  have hhnb : st.highestVNodeNumber < 2 ^ 32 := by
    rcases foldl_max_mem (n.Settings.map (fun s => s.VirtualNodeNumber)) 0 with h | h
    · rw [hhn]
      show List.foldl max 0 _ < 2 ^ 32
      rw [h]
      omega
    · rw [hhn]
      obtain ⟨s, hs, hsv⟩ := List.mem_map.mp h
      show List.foldl max 0 _ < 2 ^ 32
      rw [← hsv]
      exact (htyped s hs).1
  have hnlength : (n.Settings.map (fun s => s.VirtualNodeNumber)).length
      = st.highestVNodeNumber + 1 := by
    rw [hnodeSet] at hnodes
    omega
  have hnbelow : ∀ x ∈ n.Settings.map (fun s => s.VirtualNodeNumber),
      x < (n.Settings.map (fun s => s.VirtualNodeNumber)).length := by
    intro x hx
    have := mem_le_foldl_max _ 0 x hx
    rw [hnlength, hhn]
    exact Nat.lt_succ_of_le this
  -- the socket numbers
  have hslen : 1 ≤ st.virtualSocketSet.length := by
    have hmem : first.VirtualSocketNumber ∈ st.virtualSocketSet :=
      (hsocketSet _).mpr (List.mem_map.mpr ⟨first, hfirst, rfl⟩)
    exact List.length_pos_of_mem hmem
  have hhsb : st.highestVSocketNumber < 2 ^ 32 := by
    rcases foldl_max_mem (n.Settings.map (fun s => s.VirtualSocketNumber)) 0 with h | h
    · rw [hhs]
      show List.foldl max 0 _ < 2 ^ 32
      rw [h]
      omega
    · rw [hhs]
      obtain ⟨s, hs, hsv⟩ := List.mem_map.mp h
      show List.foldl max 0 _ < 2 ^ 32
      rw [← hsv]
      exact (htyped s hs).2
  have hslength : st.virtualSocketSet.length = st.highestVSocketNumber + 1 := by
    omega
  have hsbelow : ∀ x ∈ st.virtualSocketSet, x < st.virtualSocketSet.length := by
    intro x hx
    have := mem_le_foldl_max _ 0 x ((hsocketSet x).mp hx)
    rw [hslength, hhs]
    exact Nat.lt_succ_of_le this
  refine ⟨hnodup', ?_, ?_, ?_, ?_⟩
  · intro i
    have := nodup_below_length _ hnodup' hnbelow i
    rw [List.length_map] at this
    exact this
  · intro j
    rw [← hsocketSet j, nodup_below_length _ hsnodup' hsbelow j, hslength, hhs]
    exact Nat.lt_succ_iff
  · cases w with
    | true =>
      left
      intro s hs
      have := (hall s hs).1
      simpa using this.symm
    | false =>
      right
      intro s hs
      have := (hall s hs).1
      simpa using this.symm
  · intro s hs
    exact (hall s hs).2.2

/-- C29 at work: the empty topology and the topology of two nodes numbered 0
and 1 on the sockets 0 and 1 are valid. -/
theorem C29_validated_topology_witness :
    Numa.Validate sampleConstants {} = .ok ()
    ∧ ((twoNodes 2).Settings.map (fun s => s.VirtualNodeNumber)).Nodup
    ∧ (∀ i, i ∈ (twoNodes 2).Settings.map (fun s => s.VirtualNodeNumber) ↔ i < 2)
    ∧ (∀ j, j ∈ (twoNodes 2).Settings.map (fun s => s.VirtualSocketNumber) ↔ j ≤ 1)
    ∧ ((∀ s ∈ (twoNodes 2).Settings, s.PhysicalNodeNumber = 255)
        ∨ (∀ s ∈ (twoNodes 2).Settings, s.PhysicalNodeNumber ≠ 255))
    ∧ (∀ s ∈ (twoNodes 2).Settings,
        s.MemoryBackingType = "Physical" ∨ s.MemoryBackingType = "Virtual") :=
  ⟨(C29_validated_topology sampleConstants {}
      (by unfold Numa.WellTyped; decide)).1 rfl,
    (C29_validated_topology sampleConstants (twoNodes 2)
      (by unfold Numa.WellTyped; decide)).2 (List.cons_ne_nil _ _) rfl⟩

/-- C30: for a topology of at least one node whose sum of `CountOfMemoryBlocks`
does not wrap around 2^64, `Numa.Validate` never returns the error of a
completely empty topology; when it returns `nil`, every node has at least one
memory block and the sum of `CountOfProcessors` modulo 2^32 is not zero; and a
topology whose nodes all have zero processors is rejected, as a partial
resource allocation when the loop over the nodes finds no error. -/
theorem C30_empty_topology_unreachable (k : Constants) (n : Numa) (hne : n.Settings ≠ [])
    (hsum : (n.Settings.map (fun s => s.CountOfMemoryBlocks)).sum < 2 ^ 64) :
    n.Validate k ≠ .error "completely empty topology is not allowed"
    ∧ (n.Validate k = .ok () →
        (∀ s ∈ n.Settings, 1 ≤ s.CountOfMemoryBlocks)
        ∧ (n.Settings.map (fun s => s.CountOfProcessors)).sum % 2 ^ 32 ≠ 0)
    ∧ ((∀ s ∈ n.Settings, s.CountOfProcessors = 0) →
        n.Validate k ≠ .ok ()
        ∧ ∀ (w : Bool) (st : ValidateState), validateLoop k w {} n.Settings = .ok st →
            n.Validate k = .error "partial resource allocation is not allowed") := by
  obtain ⟨first, rest, hsettings⟩ := List.exists_cons_of_ne_nil hne
  have hfirst : first ∈ n.Settings := by rw [hsettings]; exact List.mem_cons_self _ _
  -- the loop under another flag than the one of the first node returns an error
  have hflag : ∀ (w : Bool) (st : ValidateState), validateLoop k w {} n.Settings = .ok st →
      validateLoop k (decide (first.PhysicalNodeNumber = k.WildcardPhysicalNodeNumber)) {}
        (first :: rest) = .ok st := by
    intro w st hloop
    have := ((validateLoop_ok k w n.Settings {} st hloop).1 first hfirst).1
    rw [← this, ← hsettings]
    exact hloop
  have hzero : (∀ s ∈ n.Settings, s.CountOfProcessors = 0) →
      (n.Settings.map (fun s => s.CountOfProcessors)).sum = 0 := by
    intro hall
    rw [List.sum_eq_zero_iff]
    intro x hx
    obtain ⟨s, hs, hsx⟩ := List.mem_map.mp hx
    rw [← hsx]
    exact hall s hs
  rw [validate_cons k n first rest hsettings]
  cases hloop : validateLoop k
      (decide (first.PhysicalNodeNumber = k.WildcardPhysicalNodeNumber)) {} (first :: rest) with
  | error e =>
    have hhead := validateLoop_error k _ (first :: rest) {} e hloop
    refine ⟨?_, ?_, ?_⟩
    · intro heq
      simp only [Except.error.injEq] at heq
      rw [heq] at hhead
      exact absurd hhead (by decide)
    · intro heq
      simp at heq
    · intro _
      refine ⟨by simp, ?_⟩
      intro w st hw
      rw [hflag w st hw] at hloop
      simp at hloop
  | ok st =>
    have hloop' : validateLoop k
        (decide (first.PhysicalNodeNumber = k.WildcardPhysicalNodeNumber)) {} n.Settings
        = .ok st := by rw [hsettings]; exact hloop
    obtain ⟨hmem, hprocs⟩ := validateLoop_totals k _ n.Settings st hne hsum hloop'
    have hall := (validateLoop_ok k _ n.Settings {} st hloop').1
    simp only [hmem, decide_False, false_and, if_false]
    refine ⟨?_, ?_, ?_⟩
    · split_ifs <;> simp
    · intro hvalid
      refine ⟨fun s hs => Nat.one_le_iff_ne_zero.mpr (hall s hs).2.1, ?_⟩
      rw [← hprocs]
      intro hz
      rw [hz] at hvalid
      simp at hvalid
    · intro hprocs0
      have hvp : st.totalVPCount = 0 := by
        rw [hprocs, hzero hprocs0, Nat.zero_mod]
      rw [hvp]
      simp

/-- C30 at work: the topology of two nodes is valid with two processors per
node and a partial resource allocation with none. -/
theorem C30_empty_topology_unreachable_witness :
    Numa.Validate sampleConstants (twoNodes 2)
        ≠ .error "completely empty topology is not allowed"
    ∧ ((∀ s ∈ (twoNodes 2).Settings, 1 ≤ s.CountOfMemoryBlocks)
        ∧ ((twoNodes 2).Settings.map (fun s => s.CountOfProcessors)).sum % 2 ^ 32 ≠ 0)
    ∧ Numa.Validate sampleConstants (twoNodes 0)
        = .error "partial resource allocation is not allowed" :=
  ⟨(C30_empty_topology_unreachable sampleConstants (twoNodes 2) (List.cons_ne_nil _ _)
      (by decide)).1,
    (C30_empty_topology_unreachable sampleConstants (twoNodes 2) (List.cons_ne_nil _ _)
      (by decide)).2.1
      rfl,
    ((C30_empty_topology_unreachable sampleConstants (twoNodes 0) (List.cons_ne_nil _ _)
      (by decide)).2.2 (by decide)).2 false _ rfl⟩

end hcsschema
